import Mathlib

/-!
Farm Fresh Market: the Farm/Product relationship logic

A shallow embedding of the route handlers of `routes/farms.js` and
`routes/products.js` over an explicit document store, of `errorHandler`,
`sanitizeInput` and `getPaginationData` of `utils/middleware.js` and of
`clearDemoData` of `demo.js`, followed by theorems about the two-way reference
between farms and products and about the helpers.

Conventions of the embedding.

* A collection is the list of its documents in insertion order. MongoDB keeps
  `_id` unique inside a collection; this is the predicate `Store.WF`, which
  every handler preserves (`handle_wf`).
* An `ObjectId` is a natural number. An identifier arriving in a request is a
  `ReqId`: either a string Mongoose casts to an ObjectId, or one it does not.
* A handler is a function from the store and the request to an `Outcome`:
  the HTTP response, the store afterwards, and the `deletedCount` it logged.
* `Fault` names the persistence call of the handler (counted in source order
  from 0) that throws; `none` is a run in which the store accepts every call.
  The store component of an outcome under `some k` is the store as it is when
  call `k` fails, that is, after the calls before it took effect.
* Prices are kept in hundredths; the handlers only ever compare them with 0.
* A JavaScript string is a `String`; `sanitizeInput` only tests its characters
  against five ASCII characters.
* `failure` names what goes wrong in the run of a request, call by call: the
  lookup that finds nothing, or the kind of the error a persistence call
  throws.
* The arguments of `getPaginationData` are integer-valued JavaScript numbers,
  each given as the integer it is; the quotient and the sums are rounded to
  the nearest double (`roundDouble`), as JavaScript arithmetic does.
-/

namespace FarmFreshMarket

/-! ## Data model -/

/-- The type of document identifiers. -/
abbrev ObjectId := Nat

/-- An identifier as a request carries it (`req.params.id`, or a reference in
`req.body`): `oid n` is a string Mongoose casts to the ObjectId `n`,
`malformed` is any string the cast rejects with a `CastError`. -/
inductive ReqId where
  | oid (n : ObjectId)
  | malformed
  deriving DecidableEq, Repr

/-- The cast Mongoose applies to an identifier before it queries by it. -/
def castObjectId : ReqId → Option ObjectId
  | .oid n => some n
  | .malformed => none

/-- The text of an identifier inside a redirect location. -/
def ReqId.render : ReqId → String
  | .oid n => toString n
  | .malformed => "?"

/-- A stored Farm document (`models/farm.js`). -/
structure Farm where
  _id : ObjectId
  name : String
  type : String
  location : String
  email : String
  products : List ObjectId
  deriving DecidableEq, Repr

/-- Modelled from the spec: a stored Product document. `models/product.js` is
not among the sources; the spec gives name (required), price (non-negative
number), category (one of fruit, vegetable, dairy) and farm (optional
reference to the owning Farm). -/
structure Product where
  _id : ObjectId
  name : String
  price : Option Int
  category : Option String
  farm : Option ObjectId
  deriving DecidableEq, Repr

/-- The two collections. -/
structure Store where
  farms : List Farm
  products : List Product
  deriving DecidableEq, Repr

/-- A value submitted for a numeric field: a number (in hundredths) or
something the Number cast rejects. -/
inductive NumInput where
  | num (hundredths : Int)
  | notNumber
  deriving DecidableEq, Repr

/-- The field map `req.body` of the product routes; `none` is an absent key. -/
structure ProductFields where
  name : Option String
  price : Option NumInput
  category : Option String
  farm : Option ReqId
  deriving DecidableEq, Repr

/-- The field map `req.body` of `POST /farms`; an absent `products` key is the
empty list. -/
structure FarmFields where
  name : Option String
  type : Option String
  location : Option String
  email : Option String
  products : List ReqId
  deriving DecidableEq, Repr

/-- The response a handler sends. -/
inductive Response where
  | redirect (location : String)
  | send (status : Nat) (text : String)
  deriving DecidableEq, Repr

/-- The HTTP status of a response (`res.redirect` answers 302). -/
def Response.status : Response → Nat
  | .redirect _ => 302
  | .send c _ => c

/-- The persistence call that throws, if any. -/
abbrev Fault := Option Nat

/-- What a handler leaves behind. -/
structure Outcome where
  response : Response
  store : Store
  deletedCount : Option Nat
  deriving DecidableEq, Repr

/-! ## Persistence primitives -/

/-- Replace the first element satisfying `q` by its image under `f`
(the effect of an update on one document). -/
def updateFirst {α : Type} (q : α → Bool) (f : α → α) : List α → List α
  | [] => []
  | a :: as => if q a then f a :: as else a :: updateFirst q f as

/-- The Farm with a given `_id`, if stored. -/
def Store.findFarm (s : Store) (id : ObjectId) : Option Farm :=
  s.farms.find? (fun F => F._id == id)

/-- The Product with a given `_id`, if stored. -/
def Store.findProduct (s : Store) (id : ObjectId) : Option Product :=
  s.products.find? (fun P => P._id == id)

/-- Identifiers are unique inside each collection. -/
def Store.WF (s : Store) : Prop :=
  (s.farms.map Farm._id).Nodup ∧ (s.products.map Product._id).Nodup

instance (s : Store) : Decidable s.WF := by
  unfold Store.WF; infer_instance

/-- A persistence call at call site `site`: it throws (`none`) when the fault
names this site, and otherwise yields `r` (itself `none` when the call throws
on its own, as on a cast or validation error). -/
def dbCall {α : Type} (fault : Fault) (site : Nat) (r : Option α) : Option α :=
  if fault = some site then none else r

/-- The query `Farm.findById(id)`: throws on a malformed id, else the
document or null. -/
def Farm.findById (s : Store) (id : ReqId) : Option (Option Farm) :=
  (castObjectId id).map s.findFarm

/-- The query `Product.findById(id)`. -/
def Product.findById (s : Store) (id : ReqId) : Option (Option Product) :=
  (castObjectId id).map s.findProduct

/-- The enumeration `categories` of `routes/farms.js`. -/
def categories : List String := ["fruit", "vegetable", "dairy"]

/-- A required string: present and not empty. -/
def requiredString : Option String → Option String
  | some v => if v = "" then none else some v
  | none => none

/-- Modelled from the spec: the price validator of the Product schema
(`models/product.js` is not among the sources): an absent price passes, a
number passes when it is not negative, anything else fails. -/
def castPrice : Option NumInput → Option (Option Int)
  | none => some none
  | some (.num h) => if 0 ≤ h then some (some h) else none
  | some .notNumber => none

/-- Modelled from the spec: the category validator of the Product schema
(`models/product.js` is not among the sources): an absent category passes, a
present one must be in the enumeration. -/
def castCategory : Option String → Option (Option String)
  | none => some none
  | some c => if c ∈ categories then some (some c) else none

/-- The cast of an optional reference: absent passes, present must cast. -/
def castRef : Option ReqId → Option (Option ObjectId)
  | none => some none
  | some r => (castObjectId r).map some

/-- Modelled from the spec: `new Product(fields)` with identifier `newId`,
validated against the Product schema (`models/product.js` is not among the
sources); `none` when validation or a cast fails. -/
def Product.construct (newId : ObjectId) (b : ProductFields) : Option Product :=
  match requiredString b.name, castPrice b.price, castCategory b.category, castRef b.farm with
  | some n, some p, some c, some f => some ⟨newId, n, p, c, f⟩
  | _, _, _, _ => none

/-- The document `new Farm(fields)` with identifier `newId`, validated against
the schema of `models/farm.js`; `none` when a required field is missing or an
entry of `products` does not cast. -/
def Farm.construct (newId : ObjectId) (b : FarmFields) : Option Farm :=
  match requiredString b.name, requiredString b.type, requiredString b.location,
      requiredString b.email, b.products.mapM castObjectId with
  | some n, some t, some l, some e, some ps => some ⟨newId, n, t, l, e, ps⟩
  | _, _, _, _, _ => none

/-- The insert of `product.save()` on a new document: rejected (duplicate key)
when the identifier is already stored. -/
def Product.insert (s : Store) (p : Product) : Option Store :=
  if (s.findProduct p._id).isSome then none
  else some { s with products := s.products ++ [p] }

/-- The insert of `farm.save()` on a new document. -/
def Farm.insert (s : Store) (f : Farm) : Option Store :=
  if (s.findFarm f._id).isSome then none
  else some { s with farms := s.farms ++ [f] }

/-- The update of `farm.save()` after `farm.products.push(p)`: the stored
Farm `fid` gets `pid` appended to its `products`. -/
def Farm.pushProduct (s : Store) (fid pid : ObjectId) : Store :=
  let push := fun (F : Farm) => { F with products := F.products ++ [pid] }
  { s with farms := updateFirst (fun F => F._id == fid) push s.farms }

/-- The update `Farm.findByIdAndUpdate(fid, { $pull: { products: pid } })`:
every entry equal to `pid` leaves the list of the Farm `fid`. -/
def Farm.pullProduct (s : Store) (fid pid : ObjectId) : Store :=
  let pull := fun (F : Farm) => { F with products := F.products.filter (fun x => x != pid) }
  { s with farms := updateFirst (fun F => F._id == fid) pull s.farms }

/-- The removal `Product.findByIdAndDelete(pid)` on the store. -/
def Product.deleteById (s : Store) (pid : ObjectId) : Store :=
  { s with products := s.products.eraseP (fun P => P._id == pid) }

/-- The removal `Farm.findByIdAndDelete(fid)` on the store. -/
def Farm.deleteById (s : Store) (fid : ObjectId) : Store :=
  { s with farms := s.farms.eraseP (fun F => F._id == fid) }

/-- The removal `Product.deleteMany({ farm: fid })`: the number of documents
removed and the store afterwards. -/
def Product.deleteMany (s : Store) (fid : ObjectId) : Nat × Store :=
  ((s.products.filter (fun P => P.farm == some fid)).length,
   { s with products := s.products.filter (fun P => !(P.farm == some fid)) })

/-- The removal `Product.findByIdAndDelete(pid)`: the document removed (or
null) and the store afterwards. -/
def Product.findByIdAndDelete (s : Store) (pid : ObjectId) : Option Product × Store :=
  (s.findProduct pid, Product.deleteById s pid)

/-- Modelled from the spec: the name validator of the Product schema on an
update (`models/product.js` is not among the sources; the spec gives name as
required): an absent name passes, a present one must not be empty. -/
def castName : Option String → Option (Option String)
  | none => some none
  | some v => if v = "" then none else some (some v)

/-- The `$set` of `Product.findByIdAndUpdate(id, fields)` on one document:
every key present in the field map replaces the stored value. -/
def Product.applyUpdate (name : Option String) (price : Option Int)
    (category : Option String) (farm : Option ObjectId) (p : Product) : Product :=
  { p with
    name := name.getD p.name
    price := price.or p.price
    category := category.or p.category
    farm := farm.or p.farm }

/-- Modelled from the spec: `Product.findByIdAndUpdate(id, fields,
{ runValidators: true, new: true })`; the validators are those of the Product
schema (`models/product.js` is not among the sources). The identifier and the
field map are cast and validated first (a failure throws, `none`); then the
matching document, if any, is updated and returned. -/
def Product.findByIdAndUpdate (s : Store) (id : ReqId) (b : ProductFields) :
    Option (Option Product × Store) :=
  match castObjectId id, castName b.name, castPrice b.price, castCategory b.category,
      castRef b.farm with
  | some pid, some n, some p, some c, some f =>
    let upd := Product.applyUpdate n p c f
    some ((s.findProduct pid).map upd,
      { s with products := updateFirst (fun P => P._id == pid) upd s.products })
  | _, _, _, _, _ => none

/-! ## Route handlers -/

/-- The handler `POST /farms` (`routes/farms.js`, `router.post("/")`). -/
def createFarm (fault : Fault) (s : Store) (body : FarmFields) (newId : ObjectId) : Outcome :=
  -- const newFarm = new Farm(req.body); await newFarm.save();
  match dbCall fault 0 ((Farm.construct newId body).bind (Farm.insert s)) with
  | some s1 => ⟨.redirect ("/farms/" ++ toString newId), s1, none⟩
  | none => ⟨.send 500 "Error creating farm", s, none⟩

/-- The handler `DELETE /farms/:id` (`routes/farms.js`, `router.delete("/:id")`). -/
def deleteFarmCascade (fault : Fault) (s : Store) (id : ReqId) : Outcome :=
  -- const farm = await Farm.findById(id);
  match dbCall fault 0 (Farm.findById s id) with
  | none => ⟨.send 500 "Error deleting farm", s, none⟩
  | some none => ⟨.send 404 "Farm not found", s, none⟩
  | some (some _) =>
    -- const deletedProducts = await Product.deleteMany({ farm: id });
    match dbCall fault 1 ((castObjectId id).map (Product.deleteMany s)) with
    | none => ⟨.send 500 "Error deleting farm", s, none⟩
    | some (n, s1) =>
      -- await Farm.findByIdAndDelete(id);
      match dbCall fault 2 ((castObjectId id).map (Farm.deleteById s1)) with
      | none => ⟨.send 500 "Error deleting farm", s1, some n⟩
      | some s2 => ⟨.redirect "/farms", s2, some n⟩

/-- The handler `POST /farms/:id/products` (`routes/farms.js`,
`router.post("/:id/products")`); `newId` is the identifier `new Product`
gives the document. -/
def attachProduct (fault : Fault) (s : Store) (id : ReqId) (body : ProductFields)
    (newId : ObjectId) : Outcome :=
  -- const farm = await Farm.findById(id);
  match dbCall fault 0 (Farm.findById s id) with
  | none => ⟨.send 500 "Error creating product for farm", s, none⟩
  | some none => ⟨.send 404 "Farm not found", s, none⟩
  | some (some farm) =>
    -- const newProduct = new Product(req.body); newProduct.farm = farm._id;
    -- await newProduct.save();
    match dbCall fault 1 ((Product.construct newId
        { body with farm := some (.oid farm._id) }).bind (Product.insert s)) with
    | none => ⟨.send 500 "Error creating product for farm", s, none⟩
    | some s1 =>
      -- farm.products.push(newProduct); await farm.save();
      match dbCall fault 2 (some (Farm.pushProduct s1 farm._id newId)) with
      | none => ⟨.send 500 "Error creating product for farm", s1, none⟩
      | some s2 => ⟨.redirect ("/farms/" ++ id.render), s2, none⟩

/-- The handler `DELETE /farms/:id/products/:productId` (`routes/farms.js`,
`router.delete("/:id/products/:productId")`). -/
def deleteFarmProduct (fault : Fault) (s : Store) (id productId : ReqId) : Outcome :=
  -- const deletedProduct = await Product.findByIdAndDelete(productId);
  match dbCall fault 0 ((castObjectId productId).map (Product.findByIdAndDelete s)) with
  | none => ⟨.send 500 "Error deleting product", s, none⟩
  | some (none, s1) => ⟨.send 404 "Product not found", s1, none⟩
  | some (some _, s1) =>
    -- await Farm.findByIdAndUpdate(id, { $pull: { products: productId } });
    match dbCall fault 1 ((castObjectId id).bind fun fid =>
        (castObjectId productId).map (Farm.pullProduct s1 fid)) with
    | none => ⟨.send 500 "Error deleting product", s1, none⟩
    | some s2 => ⟨.redirect ("/farms/" ++ id.render ++ "/products"), s2, none⟩

/-- The handler `POST /products` (`routes/products.js`, `router.post("/")`). -/
def createStandaloneProduct (fault : Fault) (s : Store) (body : ProductFields)
    (newId : ObjectId) : Outcome :=
  -- const newProduct = new Product(req.body); await newProduct.save();
  match dbCall fault 0 ((Product.construct newId body).bind (Product.insert s)) with
  | some s1 => ⟨.redirect ("/products/" ++ toString newId), s1, none⟩
  | none => ⟨.send 500 "Error creating product", s, none⟩

/-- The handler `PUT /products/:id` (`routes/products.js`, `router.put("/:id")`). -/
def updateProduct (fault : Fault) (s : Store) (id : ReqId) (body : ProductFields) : Outcome :=
  -- const product = await Product.findByIdAndUpdate(id, req.body, {...});
  match dbCall fault 0 (Product.findByIdAndUpdate s id body) with
  | none => ⟨.send 500 "Error updating product", s, none⟩
  | some (none, s1) => ⟨.send 404 "Product not found", s1, none⟩
  | some (some product, s1) => ⟨.redirect ("/products/" ++ toString product._id), s1, none⟩

/-- The handler `DELETE /products/:id` (`routes/products.js`,
`router.delete("/:id")`). -/
def detachAndDeleteProduct (fault : Fault) (s : Store) (id : ReqId) : Outcome :=
  -- const product = await Product.findById(id);
  match dbCall fault 0 (Product.findById s id) with
  | none => ⟨.send 500 "Error deleting product", s, none⟩
  | some none => ⟨.send 404 "Product not found", s, none⟩
  | some (some product) =>
    -- if (product.farm) { await Farm.findByIdAndUpdate(product.farm,
    --   { $pull: { products: id } }); }
    match (match product.farm with
        | some fid => dbCall fault 1 ((castObjectId id).map (Farm.pullProduct s fid))
        | none => some s) with
    | none => ⟨.send 500 "Error deleting product", s, none⟩
    | some s1 =>
      -- await Product.findByIdAndDelete(id);
      match dbCall fault 2 ((castObjectId id).map (Product.deleteById s1)) with
      | none => ⟨.send 500 "Error deleting product", s1, none⟩
      | some s2 => ⟨.redirect "/products", s2, none⟩

/-- A store-mutating request together with the identifier a created document
receives. -/
inductive Request where
  | createFarm (body : FarmFields) (newId : ObjectId)
  | attachProduct (id : ReqId) (body : ProductFields) (newId : ObjectId)
  | createStandaloneProduct (body : ProductFields) (newId : ObjectId)
  | updateProduct (id : ReqId) (body : ProductFields)
  | detachAndDeleteProduct (id : ReqId)
  | deleteFarmProduct (id productId : ReqId)
  | deleteFarmCascade (id : ReqId)
  deriving DecidableEq, Repr

/-- Dispatch of a request to its handler. -/
def handle (fault : Fault) (s : Store) : Request → Outcome
  | .createFarm body newId => createFarm fault s body newId
  | .attachProduct id body newId => attachProduct fault s id body newId
  | .createStandaloneProduct body newId => createStandaloneProduct fault s body newId
  | .updateProduct id body => updateProduct fault s id body
  | .detachAndDeleteProduct id => detachAndDeleteProduct fault s id
  | .deleteFarmProduct id productId => deleteFarmProduct fault s id productId
  | .deleteFarmCascade id => deleteFarmCascade fault s id

/-! ## The relationship invariant -/

/-- Farm side: every identifier in a Farm's `products` names a stored Product
whose `farm` is that Farm. -/
def FarmSide (s : Store) : Prop :=
  ∀ F ∈ s.farms, ∀ pid ∈ F.products,
    (s.findProduct pid).map Product.farm = some (some F._id)

/-- Product side: every Product with `farm` set occurs exactly once in the
`products` of the Farm it references. -/
def ProductSide (s : Store) : Prop :=
  ∀ P ∈ s.products, ∀ fid ∈ P.farm,
    (s.findFarm fid).map (fun F => F.products.count P._id) = some 1

instance (s : Store) : Decidable (FarmSide s) := by
  unfold FarmSide; infer_instance

instance (s : Store) : Decidable (ProductSide s) := by
  unfold ProductSide; infer_instance

/-- No Farm lists the identifier `n`. -/
def Store.unlisted (s : Store) (n : ObjectId) : Prop :=
  ∀ F ∈ s.farms, n ∉ F.products

instance (s : Store) (n : ObjectId) : Decidable (s.unlisted n) := by
  unfold Store.unlisted; infer_instance

/-- The field map passes the validators of name, price and category. -/
def ProductFields.valid (b : ProductFields) : Prop :=
  (requiredString b.name).isSome ∧ (castPrice b.price).isSome ∧
    (castCategory b.category).isSome

instance (b : ProductFields) : Decidable b.valid := by
  unfold ProductFields.valid; infer_instance

/-- The requests under which the farm side is kept: `POST /farms` without a
`products` entry, `PUT /products/:id` without a `farm` entry, and
`DELETE /farms/:id/products/:productId` when the farm in the URL is the farm
the product references. The other requests are unrestricted. -/
def Request.keepsFarmSide (s : Store) : Request → Prop
  | .createFarm body _ => body.products = []
  | .updateProduct _ body => body.farm = none
  | .deleteFarmProduct id productId =>
    ∀ pid ∈ castObjectId productId, ∀ P ∈ s.findProduct pid, ∀ g ∈ P.farm, id = .oid g
  | _ => True

instance (s : Store) (r : Request) : Decidable (r.keepsFarmSide s) := by
  cases r <;> unfold Request.keepsFarmSide <;> infer_instance

/-- The requests under which the product side is kept: `POST /products` and
`PUT /products/:id` without a `farm` entry. The other requests are
unrestricted. -/
def Request.keepsProductSide : Request → Prop
  | .createStandaloneProduct body _ => body.farm = none
  | .updateProduct _ body => body.farm = none
  | _ => True

instance (r : Request) : Decidable r.keepsProductSide := by
  cases r <;> unfold Request.keepsProductSide <;> infer_instance

/-- The identifier a request gives to the Product it creates is listed by no
Farm yet (as for a newly generated ObjectId). -/
def Request.newIdUnlisted (s : Store) : Request → Prop
  | .attachProduct _ _ newId => s.unlisted newId
  | _ => True

instance (s : Store) (r : Request) : Decidable (r.newIdUnlisted s) := by
  cases r <;> unfold Request.newIdUnlisted <;> infer_instance

/-! ## Data of the sources used as concrete inputs -/

/-- The entry `Kale` of `seedProducts` (`seeds.js`). -/
def kale : ProductFields := ⟨some "Kale", some (.num 149), some "vegetable", none⟩

/-- The entry `Banana` of `seedProducts` (`seeds.js`). -/
def banana : ProductFields := ⟨some "Banana", some (.num 99), some "fruit", none⟩

/-- The first entry of `demoFarms` (`demo.js`), without a `products` key. -/
def sunnyValley : FarmFields :=
  ⟨some "Sunny Valley Organic Farm", some "Mixed", some "Napa Valley, CA",
   some "info@sunnyvalley.com", []⟩

/-- The first demo farm of `demo.js` as stored, owning the products 11 and 12. -/
def sunnyValleyFarm : Farm :=
  ⟨1, "Sunny Valley Organic Farm", "Mixed", "Napa Valley, CA", "info@sunnyvalley.com", [11, 12]⟩

/-- The second demo farm of `demo.js` as stored, owning no product. -/
def greenMeadowsFarm : Farm :=
  ⟨2, "Green Meadows Dairy", "Dairy", "Vermont Hills, VT", "contact@greenmeadows.com", []⟩

/-- The first demo product of `demo.js` as stored, owned by farm 1. -/
def organicTomatoes : Product := ⟨11, "Organic Tomatoes", some 499, some "vegetable", some 1⟩

/-- The second demo product of `demo.js` as stored, owned by farm 1. -/
def freshStrawberries : Product := ⟨12, "Fresh Strawberries", some 699, some "fruit", some 1⟩

/-- A store holding the first two demo farms of `demo.js`: farm 1 owns the
products 11 and 12, farm 2 owns none, product 20 is standalone. -/
def demoStore : Store :=
  ⟨[sunnyValleyFarm, greenMeadowsFarm],
   [organicTomatoes, freshStrawberries, ⟨20, "Banana", some 99, some "fruit", none⟩]⟩

/-- The test farm of `testRelationships` (`demo.js`) after its product was
pushed and the farm saved. -/
def testFarm : Farm :=
  ⟨5, "Test Farm for Deletion", "Test", "Test Location", "test@test.com", [50]⟩

/-- The store of `testRelationships` (`demo.js`) just before its cascading
delete: the test farm with its one test product, next to a standalone one. -/
def testStore : Store :=
  ⟨[testFarm],
   [⟨50, "Test Product", some 100, some "fruit", some 5⟩,
    ⟨20, "Banana", some 99, some "fruit", none⟩]⟩

/-! ## Sequences of requests and what the failure responses carry -/

/-- The store after a sequence of requests, each handled without a
persistence failure. -/
def run (s : Store) : List Request → Store
  | [] => s
  | r :: rs => run (handle none s r).store rs

/-- No identifier is in the `products` of two Farms: two Farm documents that
list a common identifier have the same `_id`. -/
def NoSharedProduct (s : Store) : Prop :=
  ∀ F ∈ s.farms, ∀ G ∈ s.farms, ∀ pid ∈ F.products, pid ∈ G.products → F._id = G._id

/-- The identifiers the attachProduct requests of a sequence give to their new
Products, in the order of the requests. -/
def attachedIds : List Request → List ObjectId
  | [] => []
  | .attachProduct _ _ newId :: rs => newId :: attachedIds rs
  | _ :: rs => attachedIds rs

instance (s : Store) : Decidable (NoSharedProduct s) := by
  unfold NoSharedProduct; infer_instance

/-- The requests attachProduct, detachAndDeleteProduct and deleteFarmCascade. -/
def Request.isAttachDetachCascade : Request → Prop
  | .attachProduct _ _ _ => True
  | .detachAndDeleteProduct _ => True
  | .deleteFarmCascade _ => True
  | _ => False

instance (r : Request) : Decidable r.isAttachDetachCascade := by
  cases r <;> unfold Request.isAttachDetachCascade <;> infer_instance

/-- An attachProduct on the Farm `fid`, or a product deletion by either route:
`DELETE /products/:id` or `DELETE /farms/:id/products/:productId`. -/
def Request.attachesOrDeletes (fid : ObjectId) : Request → Prop
  | .attachProduct id _ _ => id = .oid fid
  | .detachAndDeleteProduct _ => True
  | .deleteFarmProduct _ _ => True
  | _ => False

instance (fid : ObjectId) (r : Request) : Decidable (r.attachesOrDeletes fid) := by
  cases r <;> unfold Request.attachesOrDeletes <;> infer_instance

/-- Along the run of a sequence from `s`, every request satisfies
`Request.keepsFarmSide` at the store it runs on: for the requests of
`Request.attachesOrDeletes` this says that each
`DELETE /farms/:id/products/:productId` names in its URL the farm the product
references. -/
def ownerAddressed : Store → List Request → Prop
  | _, [] => True
  | s, r :: rs => r.keepsFarmSide s ∧ ownerAddressed (handle none s r).store rs

/-- The Farm `fid` is stored and its `products` is the list of the identifiers
of the stored Products that reference it, in the order of the Product
collection (which is the order of creation, an insert appending at the end). -/
def OrderedAt (s : Store) (fid : ObjectId) : Prop :=
  (s.findFarm fid).map Farm.products =
    some ((s.products.filter (fun P => P.farm == some fid)).map Product._id)

instance (s : Store) (fid : ObjectId) : Decidable (OrderedAt s fid) := by
  unfold OrderedAt; infer_instance

/-- The text a route sends with status 500 from its `catch` block. -/
def Request.errorText : Request → String
  | .createFarm _ _ => "Error creating farm"
  | .attachProduct _ _ _ => "Error creating product for farm"
  | .createStandaloneProduct _ _ => "Error creating product"
  | .updateProduct _ _ => "Error updating product"
  | .detachAndDeleteProduct _ => "Error deleting product"
  | .deleteFarmProduct _ _ => "Error deleting product"
  | .deleteFarmCascade _ => "Error deleting farm"

/-- The text a route sends with status 404 (the creating routes never do). -/
def Request.notFoundText : Request → String
  | .attachProduct _ _ _ => "Farm not found"
  | .deleteFarmCascade _ => "Farm not found"
  | .createFarm _ _ => "Farm not found"
  | _ => "Product not found"

/-- The field map passes every cast and validator of an update. -/
def ProductFields.validUpdate (b : ProductFields) : Prop :=
  (castName b.name).isSome ∧ (castPrice b.price).isSome ∧
    (castCategory b.category).isSome ∧ (castRef b.farm).isSome

instance (b : ProductFields) : Decidable b.validUpdate := by
  unfold ProductFields.validUpdate; infer_instance

/-- The field map is one the claim on rejected updates speaks of: its category
is outside the enumeration, or its price is negative or not a number. -/
def ProductFields.rejected (b : ProductFields) : Prop :=
  (∃ c ∈ b.category, c ∉ categories) ∨ (∃ h, b.price = some (.num h) ∧ h < 0) ∨
    b.price = some .notNumber

/-! ## What goes wrong inside a handler -/

/-- The ways a request ends other than in success: the lookup of the handler
finds no document (`notFound`, answered by the handler itself), or a
persistence call throws: a Mongoose `CastError`, a Mongoose `ValidationError`,
a duplicate-key error of the store, or any other failure of the store. -/
inductive Failure where
  | notFound
  | castError
  | validationError
  | duplicateKey
  | persistenceFailure
  deriving DecidableEq, Repr

/-- What the persistence call at `site` throws, if anything: the failure of
the store when the fault names this site (the first case of `dbCall`),
otherwise the error `own` the call raises by itself. -/
def thrownAt (fault : Fault) (site : Nat) (own : Option Failure) : Option Failure :=
  if fault = some site then some .persistenceFailure else own

/-- The error of a query by identifier (`findById`, `findByIdAndDelete`,
`findByIdAndUpdate` with `$pull`): a `CastError` on a malformed identifier. -/
def castFailure (id : ReqId) : Option Failure :=
  match castObjectId id with
  | some _ => none
  | none => some .castError

/-- Modelled from the spec: the error of `new Product(fields).save()`
(`models/product.js` is not among the sources): a `ValidationError` when
`Product.construct` rejects the field map (Mongoose reports the failed cast of
a field of a new document inside the `ValidationError` of `save`), a
duplicate-key error when `Product.insert` rejects the identifier. -/
def Product.saveFailure (s : Store) (newId : ObjectId) (b : ProductFields) : Option Failure :=
  match Product.construct newId b with
  | none => some .validationError
  | some p =>
    match Product.insert s p with
    | none => some .duplicateKey
    | some _ => none

/-- The error of `new Farm(fields).save()`: a `ValidationError` when
`Farm.construct` rejects the field map, a duplicate-key error when
`Farm.insert` rejects the identifier. -/
def Farm.saveFailure (s : Store) (newId : ObjectId) (b : FarmFields) : Option Failure :=
  match Farm.construct newId b with
  | none => some .validationError
  | some f =>
    match Farm.insert s f with
    | none => some .duplicateKey
    | some _ => none

/-- Modelled from the spec: the error of `Product.findByIdAndUpdate(id,
fields, { runValidators: true, new: true })` (`models/product.js` is not among
the sources). The query casts the identifier and the field map before it runs
the validators: a `CastError` when the identifier, a price that is not a
number, or the farm reference does not cast; otherwise a `ValidationError`
when a validator of the Product schema rejects a field. -/
def Product.updateFailure (id : ReqId) (b : ProductFields) : Option Failure :=
  if castObjectId id = none ∨ b.price = some .notNumber ∨ castRef b.farm = none then
    some .castError
  else if castName b.name = none ∨ castPrice b.price = none ∨
      castCategory b.category = none then
    some .validationError
  else none

/-- What goes wrong in the run of a request under `fault`, call by call in the
order of the handler: `none` when every persistence call returns and every
lookup finds its document. -/
def failure (fault : Fault) (s : Store) : Request → Option Failure
  | .createFarm body newId =>
    -- await newFarm.save();
    thrownAt fault 0 (Farm.saveFailure s newId body)
  | .attachProduct id body newId =>
    -- const farm = await Farm.findById(id);
    match thrownAt fault 0 (castFailure id) with
    | some e => some e
    | none =>
      match (castObjectId id).bind s.findFarm with
      | none => some .notFound
      | some farm =>
        -- await newProduct.save();
        match thrownAt fault 1
            (Product.saveFailure s newId { body with farm := some (.oid farm._id) }) with
        | some e => some e
        | none =>
          -- await farm.save();
          thrownAt fault 2 none
  | .createStandaloneProduct body newId =>
    -- await newProduct.save();
    thrownAt fault 0 (Product.saveFailure s newId body)
  | .updateProduct id body =>
    -- const product = await Product.findByIdAndUpdate(id, req.body, {...});
    match thrownAt fault 0 (Product.updateFailure id body) with
    | some e => some e
    | none =>
      match (castObjectId id).bind s.findProduct with
      | none => some .notFound
      | some _ => none
  | .detachAndDeleteProduct id =>
    -- const product = await Product.findById(id);
    match thrownAt fault 0 (castFailure id) with
    | some e => some e
    | none =>
      match (castObjectId id).bind s.findProduct with
      | none => some .notFound
      | some product =>
        -- if (product.farm) { await Farm.findByIdAndUpdate(product.farm, ...); }
        match (match product.farm with
            | some _ => thrownAt fault 1 none
            | none => none) with
        | some e => some e
        | none =>
          -- await Product.findByIdAndDelete(id);
          thrownAt fault 2 none
  | .deleteFarmProduct id productId =>
    -- const deletedProduct = await Product.findByIdAndDelete(productId);
    match thrownAt fault 0 (castFailure productId) with
    | some e => some e
    | none =>
      match (castObjectId productId).bind s.findProduct with
      | none => some .notFound
      | some _ =>
        -- await Farm.findByIdAndUpdate(id, { $pull: { products: productId } });
        thrownAt fault 1 (castFailure id)
  | .deleteFarmCascade id =>
    -- const farm = await Farm.findById(id);
    match thrownAt fault 0 (castFailure id) with
    | some e => some e
    | none =>
      match (castObjectId id).bind s.findFarm with
      | none => some .notFound
      | some _ =>
        -- const deletedProducts = await Product.deleteMany({ farm: id });
        match thrownAt fault 1 none with
        | some e => some e
        | none =>
          -- await Farm.findByIdAndDelete(id);
          thrownAt fault 2 none

/-- The field map `{price: "abc"}`: a price that is not a number. -/
def nonNumericPrice : ProductFields := ⟨none, some .notNumber, none, none⟩

/-! ## The error middleware and the input helper of `utils/middleware.js` -/

/-- An entry of `err.errors` that is an object; `message` is `none` when the
entry carries no message. -/
structure FieldError where
  message : Option String
  deriving DecidableEq, Repr

/-- The error object `err` as `errorHandler` reads it; `none` is a field the
object does not carry. `errors` and `keyValue` list their entries in the order
`Object.values` and `Object.keys` enumerate them; an entry of `errors` whose
value is `none` is an entry that is `null` or `undefined`. -/
structure ErrorObj where
  name : Option String
  code : Option Int
  errors : Option (List (String × Option FieldError))
  keyValue : Option (List (String × String))
  message : Option String
  deriving DecidableEq, Repr

/-- The JSON body of a response of `errorHandler`; `none` is an absent key. -/
structure JsonBody where
  error : String
  details : Option (List (Option String))
  message : Option String
  deriving DecidableEq, Repr

/-- A response of `errorHandler`: `res.status(status).json(body)`. -/
structure JsonResponse where
  status : Nat
  body : JsonBody
  deriving DecidableEq, Repr

/-- The callback `e => e.message` mapped over the entries of `err.errors`:
the messages in order; `none` when an entry is `null` or `undefined`, on which
reading the property `message` raises. -/
def entryMessages : List (String × Option FieldError) → Option (List (Option String))
  | [] => some []
  | (_, none) :: _ => none
  | (_, some e) :: rest => (entryMessages rest).map fun ms => e.message :: ms

/-- The expression `Object.values(err.errors).map(e => e.message)`: the
messages of the entries in order; `none` when the expression raises, which it
does when `err.errors` is missing (`Object.values` of `undefined`) and when an
entry is `null` or `undefined` (the property `message` of such a value). -/
def errorMessages (errors : Option (List (String × Option FieldError))) :
    Option (List (Option String)) :=
  errors.bind entryMessages

/-- The middleware `errorHandler` of `utils/middleware.js`; `nodeEnv` is
`process.env.NODE_ENV`. The result is `none` when the handler itself raises. -/
def errorHandler (nodeEnv : Option String) (err : ErrorObj) : Option JsonResponse :=
  if err.name = some "ValidationError" then
    -- const errors = Object.values(err.errors).map(e => e.message);
    (errorMessages err.errors).map fun details =>
      ⟨400, ⟨"Validation Error", some details, none⟩⟩
  else if err.name = some "CastError" then
    some ⟨400, ⟨"Invalid ID format", none, none⟩⟩
  else if err.code = some 11000 then
    -- const field = Object.keys(err.keyValue)[0];
    err.keyValue.map fun kv =>
      ⟨400, ⟨((kv.map Prod.fst).head?.getD "undefined") ++ " already exists", none, none⟩⟩
  else
    some ⟨500, ⟨"Internal Server Error", none,
      if nodeEnv = some "development" then err.message else some "Something went wrong"⟩⟩

/-- A JavaScript value handed to `sanitizeInput`. -/
inductive JsValue where
  | string (s : String)
  | number (n : Int)
  | boolean (b : Bool)
  | null
  | undefined
  deriving DecidableEq, Repr

/-- The global replacement `.replace(/c/g, r)` on the characters of a string. -/
def replaceAllChars (c : Char) (r : List Char) : List Char → List Char
  | [] => []
  | x :: xs => (if x = c then r else [x]) ++ replaceAllChars c r xs

/-- The replacement `.replace(/c/g, r)` on a string. -/
def replaceAll (c : Char) (r : String) (s : String) : String :=
  ⟨replaceAllChars c r.data s.data⟩

/-- The double quote character. -/
def quoteChar : Char := Char.ofNat 34

/-- The apostrophe character. -/
def aposChar : Char := Char.ofNat 39

/-- The five characters `sanitizeInput` replaces. -/
def markupChars : List Char := ['<', '>', quoteChar, aposChar, '/']

/-- The helper `sanitizeInput` of `utils/middleware.js`. -/
def sanitizeInput : JsValue → JsValue
  | .string input =>
    .string (replaceAll '/' "&#x2F;" (replaceAll aposChar "&#x27;"
      (replaceAll quoteChar "&quot;" (replaceAll '>' "&gt;" (replaceAll '<' "&lt;" input)))))
  | v => v

/-! ## More concrete inputs -/

/-- The field map `{category: "invalid"}`. -/
def invalidCategory : ProductFields := ⟨none, none, some "invalid", none⟩

/-- A store in which farm 1 lists the identifier 7 twice. -/
def doubledStore : Store :=
  ⟨[⟨1, "Sunny Valley Organic Farm", "Mixed", "Napa Valley, CA", "info@sunnyvalley.com",
      [7, 11, 7]⟩],
   [⟨7, "Kale", some 149, some "vegetable", some 1⟩, organicTomatoes]⟩

/-- An error named `ValidationError` that carries no `errors`. -/
def bareValidationError : ErrorObj := ⟨some "ValidationError", none, none, none, some "bad"⟩

/-- An error named `ValidationError` whose `errors` has a `null` entry. -/
def nullEntryError : ErrorObj :=
  ⟨some "ValidationError", none, some [("name", none)], none, some "bad"⟩

/-- An error with the duplicate-key code that carries no `keyValue`. -/
def bareDuplicateError : ErrorObj :=
  ⟨some "MongoServerError", some 11000, none, none, some "dup"⟩

/-- A Mongoose validation error with two entries. -/
def twoFieldError : ErrorObj :=
  ⟨some "ValidationError", none,
    some [("name", some ⟨some "Farm must have a name!"⟩),
      ("email", some ⟨some "Email is required"⟩)],
    none, some "Farm validation failed"⟩

/-! ## Pagination, the character-wise reading of `sanitizeInput`, the demo script -/

/-- Rounding of a rational to the nearest integer, a tie going to the even
one. -/
def roundHalfEven (x : ℚ) : Int :=
  if x - ⌊x⌋ < 1 / 2 then ⌊x⌋
  else if 1 / 2 < x - ⌊x⌋ then ⌊x⌋ + 1
  else if ⌊x⌋ % 2 = 0 then ⌊x⌋ else ⌊x⌋ + 1

/-- The exponent `e` for which the doubles around `q` are the multiples of
`2 ^ e`: 52 below the binary exponent of `q` (a double has 53 significant
bits), and not below -1074, the exponent of the subnormal doubles. -/
def ulpExponent (q : ℚ) : Int := max (Int.log 2 |q| - 52) (-1074)

/-- The double nearest to the rational `q`, a tie going to the double with the
even significand: the result of a JavaScript arithmetic operation whose exact
result is `q` (IEEE 754 binary64, round to nearest, ties to even). The sign of
a zero is not kept, and no overflow to `Infinity` is modelled: the operations
of `getPaginationData` on integer-valued numbers (`total / limit` with a
`limit` that is not 0, `page + 1`, `page - 1`) cannot overflow. -/
def roundDouble (q : ℚ) : ℚ :=
  roundHalfEven (q / 2 ^ ulpExponent q) * 2 ^ ulpExponent q

/-- The integer `n` is a JavaScript number: it is a double. -/
def isDouble (n : Int) : Prop := roundDouble n = n

instance (n : Int) : Decidable (isDouble n) := by
  unfold isDouble; infer_instance

/-- The value of `Math.ceil(total / limit)` on integers: an integer, or one of
the three values JavaScript yields on a division by zero. -/
inductive PageCount where
  | finite (n : Int)
  | infinity
  | negInfinity
  | nan
  deriving DecidableEq

/-- The expression `Math.ceil(total / limit)` on integer-valued numbers: the
quotient is the double nearest to the exact quotient, and `Math.ceil` of a
double is exact. -/
def ceilDiv (total limit : Int) : PageCount :=
  if limit = 0 then
    if 0 < total then .infinity else if total < 0 then .negInfinity else .nan
  else .finite ⌈roundDouble ((total : ℚ) / (limit : ℚ))⌉

/-- The comparison `page < totalPages`. -/
def PageCount.above (c : PageCount) (page : Int) : Bool :=
  match c with
  | .finite n => decide (page < n)
  | .infinity => true
  | .negInfinity => false
  | .nan => false

/-- The object `getPaginationData` returns; `none` is `null`. The fields
`nextPage` and `prevPage` hold the number the double addition gives. -/
structure PaginationData where
  currentPage : Int
  totalPages : PageCount
  hasNext : Bool
  hasPrev : Bool
  nextPage : Option ℚ
  prevPage : Option ℚ
  limit : Int
  total : Int
  deriving DecidableEq

/-- The helper `getPaginationData` of `utils/middleware.js` on integer-valued
numbers, each given as the integer it is; the arithmetic is that of doubles. -/
def getPaginationData (page limit total : Int) : PaginationData :=
  let totalPages := ceilDiv total limit
  let hasNext := totalPages.above page
  let hasPrev := decide (1 < page)
  ⟨page, totalPages, hasNext, hasPrev,
    if hasNext then some (roundDouble ((page : ℚ) + 1)) else none,
    if hasPrev then some (roundDouble ((page : ℚ) - 1)) else none,
    limit, total⟩

/-- The text the claim on the character-wise substitution gives for one
character. -/
def escapeChar (c : Char) : List Char :=
  if c = '<' then "&lt;".data
  else if c = '>' then "&gt;".data
  else if c = quoteChar then "&quot;".data
  else if c = aposChar then "&#x27;".data
  else if c = '/' then "&#x2F;".data
  else [c]

/-- The concatenation of `escapeChar c` over the characters `c` of a list. -/
def escapeChars : List Char → List Char
  | [] => []
  | c :: cs => escapeChar c ++ escapeChars cs

/-- The single character-wise substitution the claim compares `sanitizeInput`
with. -/
def sanitizeCharwise (s : String) : String := ⟨escapeChars s.data⟩

/-- The array `demoFarms` of `demo.js`. -/
def demoFarms : List FarmFields :=
  [sunnyValley,
   ⟨some "Green Meadows Dairy", some "Dairy", some "Vermont Hills, VT",
     some "contact@greenmeadows.com", []⟩,
   ⟨some "Fresh Harvest Orchards", some "Fruit", some "Washington State, WA",
     some "hello@freshharvest.com", []⟩,
   ⟨some "Mountain View Vegetables", some "Vegetable", some "Colorado Springs, CO",
     some "orders@mountainview.com", []⟩]

/-- The array `demoProducts` of `demo.js`. -/
def demoProducts : List ProductFields :=
  [⟨some "Organic Tomatoes", some (.num 499), some "vegetable", none⟩,
   ⟨some "Fresh Strawberries", some (.num 699), some "fruit", none⟩,
   ⟨some "Artisan Cheese", some (.num 1299), some "dairy", none⟩,
   ⟨some "Whole Milk", some (.num 399), some "dairy", none⟩,
   ⟨some "Greek Yogurt", some (.num 599), some "dairy", none⟩,
   ⟨some "Butter", some (.num 449), some "dairy", none⟩,
   ⟨some "Honeycrisp Apples", some (.num 399), some "fruit", none⟩,
   ⟨some "Organic Pears", some (.num 499), some "fruit", none⟩,
   ⟨some "Fresh Peaches", some (.num 599), some "fruit", none⟩,
   ⟨some "Organic Carrots", some (.num 299), some "vegetable", none⟩,
   ⟨some "Fresh Spinach", some (.num 399), some "vegetable", none⟩,
   ⟨some "Bell Peppers", some (.num 499), some "vegetable", none⟩]

/-- The names `demoFarms.map(f => f.name)`. -/
def demoFarmNames : List String := demoFarms.filterMap FarmFields.name

/-- The names `demoProducts.map(p => p.name)`. -/
def demoProductNames : List String := demoProducts.filterMap ProductFields.name

/-- The function `clearDemoData` of `demo.js` on the store: the two
`deleteMany` by name, the one on farms first. -/
def clearDemoData (s : Store) : Store :=
  -- await Farm.deleteMany({ name: { $in: demoFarms.map(f => f.name) } });
  let s1 : Store := ⟨s.farms.filter (fun F => !(demoFarmNames.contains F.name)), s.products⟩
  -- await Product.deleteMany({ name: { $in: demoProducts.map(p => p.name) } });
  ⟨s1.farms, s1.products.filter (fun P => !(demoProductNames.contains P.name))⟩

/-- The demo data keeps to itself: every stored Product that references a Farm
with a demo farm name has a demo product name, and every Farm that lists a
stored Product with a demo product name has a demo farm name. -/
def DemoClosed (s : Store) : Prop :=
  (∀ P ∈ s.products, ∀ fid ∈ P.farm, ∀ F ∈ s.findFarm fid,
      F.name ∈ demoFarmNames → P.name ∈ demoProductNames) ∧
    (∀ F ∈ s.farms, ∀ pid ∈ F.products, ∀ P ∈ s.findProduct pid,
      P.name ∈ demoProductNames → F.name ∈ demoFarmNames)

instance (s : Store) : Decidable (DemoClosed s) := by
  unfold DemoClosed; infer_instance

/-- A store in which the demo farm 1 owns the product `Kale`, which has no
demo name, and the farm 3, which has no demo name, owns the product `Butter`,
which has one. -/
def mixedStore : Store :=
  ⟨[⟨1, "Sunny Valley Organic Farm", "Mixed", "Napa Valley, CA", "info@sunnyvalley.com", [7]⟩,
    ⟨3, "Hill Farm", "Dairy", "Stowe, VT", "hill@farm.com", [8]⟩],
   [⟨7, "Kale", some 149, some "vegetable", some 1⟩,
    ⟨8, "Butter", some 449, some "dairy", some 3⟩]⟩

/-! ## Lists of documents keyed by an identifier -/

section Keyed

variable {α : Type} (k : α → Nat)

theorem map_key_updateFirst (f : α → α) (hf : ∀ a, k (f a) = k a) (i : Nat) (l : List α) :
    (updateFirst (fun a => k a == i) f l).map k = l.map k := by
  induction l with
  | nil => rfl
  | cons a as ih =>
    unfold updateFirst
    by_cases h : k a = i
    · simp [h, hf]
    · simp [h, ih]

theorem find_updateFirst_ne (f : α → α) (hf : ∀ a, k (f a) = k a) {i j : Nat} (hij : i ≠ j)
    (l : List α) :
    (updateFirst (fun a => k a == i) f l).find? (fun a => k a == j) =
      l.find? (fun a => k a == j) := by
  induction l with
  | nil => rfl
  | cons a as ih =>
    unfold updateFirst
    by_cases h : k a = i
    · have b1 : (k a == i) = true := by simpa using h
      have b2 : (k a == j) = false := by
        simpa using fun e : k a = j => hij (h.symm.trans e)
      have b3 : (k (f a) == j) = false := by rw [hf]; exact b2
      simp only [b1, if_true, List.find?_cons, b2, b3]
    · have b1 : (k a == i) = false := by simpa using h
      simp only [b1, Bool.false_eq_true, if_false, List.find?_cons, ih]

theorem find_updateFirst_eq (f : α → α) (hf : ∀ a, k (f a) = k a) (i : Nat) (l : List α) :
    (updateFirst (fun a => k a == i) f l).find? (fun a => k a == i) =
      (l.find? (fun a => k a == i)).map f := by
  induction l with
  | nil => rfl
  | cons a as ih =>
    unfold updateFirst
    by_cases h : k a = i
    · have b1 : (k a == i) = true := by simpa using h
      have b2 : (k (f a) == i) = true := by rw [hf]; exact b1
      simp only [b1, if_true, List.find?_cons, b2, Option.map_some']
    · have b1 : (k a == i) = false := by simpa using h
      simp only [b1, Bool.false_eq_true, if_false, List.find?_cons, ih]

theorem mem_updateFirst (q : α → Bool) (f : α → α) {b : α} {l : List α}
    (hb : b ∈ updateFirst q f l) : b ∈ l ∨ ∃ a ∈ l, q a = true ∧ b = f a := by
  induction l with
  | nil => simp [updateFirst] at hb
  | cons a as ih =>
    unfold updateFirst at hb
    cases h : q a with
    | true =>
      simp only [h, if_true, List.mem_cons] at hb
      rcases hb with hb | hb
      · exact Or.inr ⟨a, List.mem_cons_self _ _, h, hb⟩
      · exact Or.inl (List.mem_cons_of_mem _ hb)
    | false =>
      simp only [h, Bool.false_eq_true, if_false, List.mem_cons] at hb
      rcases hb with hb | hb
      · rw [hb]
        exact Or.inl (List.mem_cons_self _ _)
      · rcases ih hb with h1 | ⟨c, hc, hq, e⟩
        · exact Or.inl (List.mem_cons_of_mem _ h1)
        · exact Or.inr ⟨c, List.mem_cons_of_mem _ hc, hq, e⟩

theorem mem_updateFirst_nodup (f : α → α) (i : Nat) {b : α} {l : List α}
    (hn : (l.map k).Nodup) (hb : b ∈ updateFirst (fun a => k a == i) f l) :
    (b ∈ l ∧ k b ≠ i) ∨ ∃ a ∈ l, k a = i ∧ b = f a := by
  induction l with
  | nil => simp [updateFirst] at hb
  | cons a as ih =>
    rw [List.map_cons, List.nodup_cons] at hn
    unfold updateFirst at hb
    by_cases h : k a = i
    · have b1 : (k a == i) = true := by simpa using h
      simp only [b1, if_true, List.mem_cons] at hb
      rcases hb with hb | hb
      · exact Or.inr ⟨a, List.mem_cons_self _ _, h, hb⟩
      · refine Or.inl ⟨List.mem_cons_of_mem _ hb, fun e => hn.1 ?_⟩
        rw [h, ← e]
        exact List.mem_map_of_mem k hb
    · have b1 : (k a == i) = false := by simpa using h
      simp only [b1, Bool.false_eq_true, if_false, List.mem_cons] at hb
      rcases hb with hb | hb
      · rw [hb]
        exact Or.inl ⟨List.mem_cons_self _ _, h⟩
      · rcases ih hn.2 hb with ⟨h1, h2⟩ | ⟨c, hc, hq, e⟩
        · exact Or.inl ⟨List.mem_cons_of_mem _ h1, h2⟩
        · exact Or.inr ⟨c, List.mem_cons_of_mem _ hc, hq, e⟩

theorem find_eraseP_ne {i j : Nat} (hij : i ≠ j) (l : List α) :
    (l.eraseP (fun a => k a == i)).find? (fun a => k a == j) =
      l.find? (fun a => k a == j) := by
  induction l with
  | nil => rfl
  | cons a as ih =>
    by_cases h : k a = i
    · have b1 : (k a == i) = true := by simpa using h
      have b2 : (k a == j) = false := by
        simpa using fun e : k a = j => hij (h.symm.trans e)
      simp only [List.eraseP_cons, b1, cond_true, List.find?_cons, b2]
    · have b1 : (k a == i) = false := by simpa using h
      simp only [List.eraseP_cons, b1, cond_false, List.find?_cons, ih]

theorem mem_eraseP_nodup (i : Nat) {b : α} {l : List α} (hn : (l.map k).Nodup)
    (hb : b ∈ l.eraseP (fun a => k a == i)) : b ∈ l ∧ k b ≠ i := by
  induction l with
  | nil => simp at hb
  | cons a as ih =>
    rw [List.map_cons, List.nodup_cons] at hn
    by_cases h : k a = i
    · have b1 : (k a == i) = true := by simpa using h
      simp only [List.eraseP_cons, b1, cond_true] at hb
      refine ⟨List.mem_cons_of_mem _ hb, fun e => hn.1 ?_⟩
      rw [h, ← e]
      exact List.mem_map_of_mem k hb
    · have b1 : (k a == i) = false := by simpa using h
      simp only [List.eraseP_cons, b1, cond_false, List.mem_cons] at hb
      rcases hb with hb | hb
      · rw [hb]
        exact ⟨List.mem_cons_self _ _, h⟩
      · exact ⟨List.mem_cons_of_mem _ (ih hn.2 hb).1, (ih hn.2 hb).2⟩

theorem find_eraseP_eq (i : Nat) {l : List α} (hn : (l.map k).Nodup) :
    (l.eraseP (fun a => k a == i)).find? (fun a => k a == i) = none := by
  rw [List.find?_eq_none]
  intro x hx
  simpa using (mem_eraseP_nodup k i hn hx).2

theorem nodup_key_eraseP (q : α → Bool) {l : List α} (hn : (l.map k).Nodup) :
    ((l.eraseP q).map k).Nodup :=
  hn.sublist ((List.eraseP_sublist l).map k)

theorem nodup_key_filter (q : α → Bool) {l : List α} (hn : (l.map k).Nodup) :
    ((l.filter q).map k).Nodup :=
  hn.sublist ((List.filter_sublist l).map k)

theorem nodup_key_append {l : List α} {a : α} (hn : (l.map k).Nodup)
    (ha : l.find? (fun x => k x == k a) = none) : ((l ++ [a]).map k).Nodup := by
  rw [List.find?_eq_none] at ha
  rw [List.map_append, List.nodup_append]
  refine ⟨hn, by simp, ?_⟩
  intro x hx hx'
  simp only [List.map_cons, List.map_nil, List.mem_singleton] at hx'
  rcases List.mem_map.1 hx with ⟨y, hy, e⟩
  exact ha y hy (by simp [e, hx'])

theorem find_filter_of_pos (p q : α → Bool) {x : α} {l : List α}
    (h : l.find? q = some x) (hp : p x = true) : (l.filter p).find? q = some x := by
  induction l with
  | nil => simp at h
  | cons a as ih =>
    rw [List.find?_cons] at h
    by_cases hq : q a = true
    · simp only [hq] at h
      have e : a = x := by simpa using h
      subst e
      simp [List.filter_cons, hp, hq]
    · have hq' : q a = false := by simpa using hq
      simp only [hq'] at h
      by_cases hpa : p a = true
      · simp [List.filter_cons, hpa, List.find?_cons, hq', ih h]
      · simp [List.filter_cons, hpa, ih h]

theorem find_mem_key {i : Nat} {x : α} {l : List α}
    (h : l.find? (fun a => k a == i) = some x) : x ∈ l ∧ k x = i :=
  ⟨List.mem_of_find?_eq_some h, by simpa using List.find?_some h⟩

theorem find_of_mem_nodup {x : α} {l : List α} (hn : (l.map k).Nodup) (hx : x ∈ l) :
    l.find? (fun a => k a == k x) = some x := by
  induction l with
  | nil => simp at hx
  | cons a as ih =>
    rw [List.map_cons, List.nodup_cons] at hn
    rcases List.mem_cons.1 hx with e | hx'
    · subst e; simp
    · have hne : ¬ k a = k x := fun e => hn.1 (e ▸ List.mem_map_of_mem k hx')
      simp [List.find?_cons, hne, ih hn.2 hx']

end Keyed

/-! ## Lookups after each persistence primitive -/

theorem Farm.pull_keeps_id (pid : ObjectId) (F : Farm) :
    ({ F with products := F.products.filter (fun x => x != pid) } : Farm)._id = F._id := rfl

theorem Farm.push_keeps_id (pid : ObjectId) (F : Farm) :
    ({ F with products := F.products ++ [pid] } : Farm)._id = F._id := rfl

theorem findProduct_pushProduct (s : Store) (g pid x : ObjectId) :
    (Farm.pushProduct s g pid).findProduct x = s.findProduct x := rfl

theorem findProduct_pullProduct (s : Store) (g pid x : ObjectId) :
    (Farm.pullProduct s g pid).findProduct x = s.findProduct x := rfl

theorem findFarm_deleteProduct (s : Store) (pid x : ObjectId) :
    (Product.deleteById s pid).findFarm x = s.findFarm x := rfl

theorem findFarm_deleteMany (s : Store) (fid x : ObjectId) :
    (Product.deleteMany s fid).2.findFarm x = s.findFarm x := rfl

theorem findProduct_deleteFarm (s : Store) (fid x : ObjectId) :
    (Farm.deleteById s fid).findProduct x = s.findProduct x := rfl

theorem findProduct_deleteById_ne (s : Store) {pid x : ObjectId} (h : pid ≠ x) :
    (Product.deleteById s pid).findProduct x = s.findProduct x :=
  find_eraseP_ne Product._id h s.products

theorem findProduct_deleteById_eq (s : Store) (pid : ObjectId) (hwf : s.WF) :
    (Product.deleteById s pid).findProduct pid = none :=
  find_eraseP_eq Product._id pid hwf.2

theorem findFarm_deleteById_ne (s : Store) {fid x : ObjectId} (h : fid ≠ x) :
    (Farm.deleteById s fid).findFarm x = s.findFarm x :=
  find_eraseP_ne Farm._id h s.farms

theorem findFarm_deleteById_eq (s : Store) (fid : ObjectId) (hwf : s.WF) :
    (Farm.deleteById s fid).findFarm fid = none :=
  find_eraseP_eq Farm._id fid hwf.1

theorem findFarm_pullProduct_ne (s : Store) {g x : ObjectId} (pid : ObjectId) (h : g ≠ x) :
    (Farm.pullProduct s g pid).findFarm x = s.findFarm x :=
  find_updateFirst_ne Farm._id _ (Farm.pull_keeps_id pid) h s.farms

theorem findFarm_pullProduct_eq (s : Store) (g pid : ObjectId) :
    (Farm.pullProduct s g pid).findFarm g =
      (s.findFarm g).map
        (fun F => { F with products := F.products.filter (fun x => x != pid) }) :=
  find_updateFirst_eq Farm._id _ (Farm.pull_keeps_id pid) g s.farms

theorem findFarm_pushProduct_ne (s : Store) {g x : ObjectId} (pid : ObjectId) (h : g ≠ x) :
    (Farm.pushProduct s g pid).findFarm x = s.findFarm x :=
  find_updateFirst_ne Farm._id _ (Farm.push_keeps_id pid) h s.farms

theorem findFarm_pushProduct_eq (s : Store) (g pid : ObjectId) :
    (Farm.pushProduct s g pid).findFarm g =
      (s.findFarm g).map (fun F => { F with products := F.products ++ [pid] }) :=
  find_updateFirst_eq Farm._id _ (Farm.push_keeps_id pid) g s.farms

theorem findProduct_append_of_some {s : Store} {x : ObjectId} {y p : Product}
    (h : s.findProduct x = some y) :
    ({ s with products := s.products ++ [p] } : Store).findProduct x = some y := by
  unfold Store.findProduct at h ⊢
  simp [List.find?_append, h]

theorem findProduct_append_of_none {s : Store} {p : Product}
    (h : s.findProduct p._id = none) :
    ({ s with products := s.products ++ [p] } : Store).findProduct p._id = some p := by
  unfold Store.findProduct at h ⊢
  simp [List.find?_append, h]

theorem findFarm_append_of_some {s : Store} {x : ObjectId} {y f : Farm}
    (h : s.findFarm x = some y) :
    ({ s with farms := s.farms ++ [f] } : Store).findFarm x = some y := by
  unfold Store.findFarm at h ⊢
  simp [List.find?_append, h]

/-! ## The farm side of the invariant, primitive by primitive -/

theorem farmSide_appendFarm {s : Store} (h : FarmSide s) (f : Farm) (hf : f.products = []) :
    FarmSide { s with farms := s.farms ++ [f] } := by
  intro F hF x hx
  rcases List.mem_append.1 hF with hF | hF
  · exact h F hF x hx
  · rw [List.mem_singleton.1 hF, hf] at hx
    simp at hx

theorem farmSide_appendProduct {s : Store} (h : FarmSide s) (p : Product) :
    FarmSide { s with products := s.products ++ [p] } := by
  intro F hF x hx
  rcases Option.map_eq_some'.1 (h F hF x hx) with ⟨y, hy, e⟩
  rw [findProduct_append_of_some hy]
  simp [e]

theorem farmSide_attach {s : Store} (h : FarmSide s) (p : Product) (fid : ObjectId)
    (hp : p.farm = some fid) (hnew : s.findProduct p._id = none) :
    FarmSide (Farm.pushProduct { s with products := s.products ++ [p] } fid p._id) := by
  intro F hF x hx
  rcases mem_updateFirst _ _ hF with hF | ⟨G, hG, hq, e⟩
  · exact farmSide_appendProduct h p F hF x hx
  · have hid : G._id = fid := by simpa using hq
    subst e
    rcases List.mem_append.1 hx with hx | hx
    · have := farmSide_appendProduct h p G hG x hx
      simpa using this
    · rw [List.mem_singleton.1 hx, findProduct_pushProduct, findProduct_append_of_none hnew]
      simp [hp, hid]

theorem farmSide_update {s : Store} (h : FarmSide s) (pid : ObjectId) (upd : Product → Product)
    (hid : ∀ P, (upd P)._id = P._id) (hfarm : ∀ P, (upd P).farm = P.farm) :
    FarmSide { s with products := updateFirst (fun P => P._id == pid) upd s.products } := by
  intro F hF x hx
  have h0 := h F hF x hx
  unfold Store.findProduct at h0 ⊢
  by_cases e : pid = x
  · subst e
    rw [find_updateFirst_eq Product._id upd hid]
    rcases Option.map_eq_some'.1 h0 with ⟨y, hy, e⟩
    simp [hy, hfarm, e]
  · rw [find_updateFirst_ne Product._id upd hid e]
    exact h0

theorem farmSide_pull_delete {s : Store} (hwf : s.WF) (h : FarmSide s) (g pid : ObjectId)
    (hg : ∀ F ∈ s.farms, pid ∈ F.products → F._id = g) :
    FarmSide (Product.deleteById (Farm.pullProduct s g pid) pid) := by
  intro F hF x hx
  have key : ∀ G ∈ s.farms, x ∈ G.products → x ≠ pid →
      ((Product.deleteById (Farm.pullProduct s g pid) pid).findProduct x).map Product.farm =
        some (some G._id) := by
    intro G hG hxG hne
    have := h G hG x hxG
    rw [findProduct_deleteById_ne _ (Ne.symm hne)]
    exact this
  rcases mem_updateFirst_nodup Farm._id _ g hwf.1 hF with ⟨hF', hne⟩ | ⟨G, hG, _, e⟩
  · refine key F hF' hx ?_
    intro e
    exact hne (hg F hF' (e ▸ hx))
  · subst e
    have hx' : x ∈ G.products ∧ x ≠ pid := by simpa using hx
    exact key G hG hx'.1 hx'.2

theorem farmSide_delete {s : Store} (h : FarmSide s) (pid : ObjectId)
    (hg : ∀ F ∈ s.farms, pid ∉ F.products) :
    FarmSide (Product.deleteById s pid) := by
  intro F hF x hx
  have hne : pid ≠ x := fun e => hg F hF (e ▸ hx)
  rw [findProduct_deleteById_ne _ hne]
  exact h F hF x hx

theorem farmSide_pull {s : Store} (h : FarmSide s) (g pid : ObjectId) :
    FarmSide (Farm.pullProduct s g pid) := by
  intro F hF x hx
  rcases mem_updateFirst _ _ hF with hF | ⟨G, hG, _, e⟩
  · exact h F hF x hx
  · subst e
    have hx' : x ∈ G.products ∧ x ≠ pid := by simpa using hx
    exact h G hG x hx'.1

theorem farmSide_cascade {s : Store} (hwf : s.WF) (h : FarmSide s) (fid : ObjectId) :
    FarmSide (Farm.deleteById (Product.deleteMany s fid).2 fid) := by
  intro F hF x hx
  have hF' : F ∈ s.farms ∧ F._id ≠ fid := mem_eraseP_nodup Farm._id fid hwf.1 hF
  rcases Option.map_eq_some'.1 (h F hF'.1 x hx) with ⟨y, hy, e⟩
  have hkeep : (!(y.farm == some fid)) = true := by
    simp [e, hF'.2]
  have : (Farm.deleteById (Product.deleteMany s fid).2 fid).findProduct x = some y :=
    find_filter_of_pos _ _ hy hkeep
  rw [this]
  simp [e]

/-! ## The product side of the invariant, primitive by primitive -/

theorem productSide_appendFarm {s : Store} (h : ProductSide s) (f : Farm) :
    ProductSide { s with farms := s.farms ++ [f] } := by
  intro P hP fid hfid
  rcases Option.map_eq_some'.1 (h P hP fid hfid) with ⟨F, hF, e⟩
  rw [findFarm_append_of_some hF]
  simpa using e

theorem productSide_appendProduct {s : Store} (h : ProductSide s) (p : Product)
    (hp : p.farm = none) : ProductSide { s with products := s.products ++ [p] } := by
  intro P hP fid hfid
  rcases List.mem_append.1 hP with hP | hP
  · exact h P hP fid hfid
  · rw [List.mem_singleton.1 hP, hp] at hfid
    simp at hfid

theorem productSide_attach {s : Store} (h : ProductSide s) (p : Product) (fid : ObjectId)
    (F : Farm) (hp : p.farm = some fid) (hnew : s.findProduct p._id = none)
    (hF : s.findFarm fid = some F) (hun : p._id ∉ F.products) :
    ProductSide (Farm.pushProduct { s with products := s.products ++ [p] } fid p._id) := by
  intro P hP g hg
  rcases List.mem_append.1 hP with hP | hP
  · have hne : P._id ≠ p._id := by
      have := List.find?_eq_none.1 hnew P hP
      simpa using this
    rcases Option.map_eq_some'.1 (h P hP g hg) with ⟨G, hG, e⟩
    by_cases eg : fid = g
    · subst eg
      rw [findFarm_pushProduct_eq]
      have hG' : ({ s with products := s.products ++ [p] } : Store).findFarm fid = some G := hG
      rw [hG']
      simp [List.count_append, e, List.count_singleton, hne]
    · rw [findFarm_pushProduct_ne _ _ eg]
      have hG' : ({ s with products := s.products ++ [p] } : Store).findFarm g = some G := hG
      rw [hG']
      simpa using e
  · rw [List.mem_singleton.1 hP] at hg ⊢
    have eg : fid = g := by
      rw [hp] at hg
      simpa using hg
    subst eg
    rw [findFarm_pushProduct_eq]
    have hF' : ({ s with products := s.products ++ [p] } : Store).findFarm fid = some F := hF
    rw [hF']
    simp [List.count_append, List.count_eq_zero_of_not_mem hun]

theorem productSide_update {s : Store} (h : ProductSide s) (pid : ObjectId)
    (upd : Product → Product) (hid : ∀ P, (upd P)._id = P._id)
    (hfarm : ∀ P, (upd P).farm = P.farm) :
    ProductSide { s with products := updateFirst (fun P => P._id == pid) upd s.products } := by
  intro P hP fid hfid
  rcases mem_updateFirst _ _ hP with hP | ⟨Q, hQ, _, e⟩
  · exact h P hP fid hfid
  · subst e
    rw [hfarm] at hfid
    rw [hid]
    exact h Q hQ fid hfid

theorem productSide_pull_delete {s : Store} (hwf : s.WF) (h : ProductSide s)
    (g pid : ObjectId) :
    ProductSide (Product.deleteById (Farm.pullProduct s g pid) pid) := by
  intro P hP fid hfid
  have hP' : P ∈ s.products ∧ P._id ≠ pid := mem_eraseP_nodup Product._id pid hwf.2 hP
  rcases Option.map_eq_some'.1 (h P hP'.1 fid hfid) with ⟨F, hF, e⟩
  rw [findFarm_deleteProduct]
  by_cases eg : g = fid
  · subst eg
    rw [findFarm_pullProduct_eq, hF]
    have hk : (fun x => x != pid) P._id = true := by simpa using hP'.2
    have hc := List.count_filter (p := fun x => x != pid) (a := P._id) (l := F.products) hk
    simp only [Option.map_some', Option.some.injEq]
    rw [hc]
    exact e
  · rw [findFarm_pullProduct_ne _ _ eg, hF]
    simpa using e

theorem productSide_delete {s : Store} (h : ProductSide s) (pid : ObjectId) :
    ProductSide (Product.deleteById s pid) := by
  intro P hP fid hfid
  exact h P (List.mem_of_mem_eraseP hP) fid hfid

theorem productSide_cascade {s : Store} (h : ProductSide s) (fid : ObjectId) :
    ProductSide (Farm.deleteById (Product.deleteMany s fid).2 fid) := by
  intro P hP g hg
  have hP' : P ∈ s.products ∧ (!(P.farm == some fid)) = true := List.mem_filter.1 hP
  have hne : fid ≠ g := by
    intro e
    subst e
    have : P.farm = some fid := hg
    simp [this] at hP'
  rw [findFarm_deleteById_ne _ hne, findFarm_deleteMany]
  exact h P hP'.1 g hg

/-! ## Uniqueness of identifiers, primitive by primitive -/

theorem wf_appendFarm {s : Store} (hwf : s.WF) (f : Farm) (hnew : s.findFarm f._id = none) :
    ({ s with farms := s.farms ++ [f] } : Store).WF :=
  ⟨nodup_key_append Farm._id hwf.1 hnew, hwf.2⟩

theorem wf_appendProduct {s : Store} (hwf : s.WF) (p : Product)
    (hnew : s.findProduct p._id = none) :
    ({ s with products := s.products ++ [p] } : Store).WF :=
  ⟨hwf.1, nodup_key_append Product._id hwf.2 hnew⟩

theorem wf_pushProduct {s : Store} (hwf : s.WF) (g pid : ObjectId) :
    (Farm.pushProduct s g pid).WF := by
  refine ⟨?_, hwf.2⟩
  show ((updateFirst _ _ s.farms).map Farm._id).Nodup
  rw [map_key_updateFirst Farm._id _ (Farm.push_keeps_id pid)]
  exact hwf.1

theorem wf_pullProduct {s : Store} (hwf : s.WF) (g pid : ObjectId) :
    (Farm.pullProduct s g pid).WF := by
  refine ⟨?_, hwf.2⟩
  show ((updateFirst _ _ s.farms).map Farm._id).Nodup
  rw [map_key_updateFirst Farm._id _ (Farm.pull_keeps_id pid)]
  exact hwf.1

theorem wf_update {s : Store} (hwf : s.WF) (pid : ObjectId) (upd : Product → Product)
    (hid : ∀ P, (upd P)._id = P._id) :
    ({ s with products := updateFirst (fun P => P._id == pid) upd s.products } : Store).WF := by
  refine ⟨hwf.1, ?_⟩
  show ((updateFirst _ _ s.products).map Product._id).Nodup
  rw [map_key_updateFirst Product._id _ hid]
  exact hwf.2

theorem wf_deleteProduct {s : Store} (hwf : s.WF) (pid : ObjectId) :
    (Product.deleteById s pid).WF :=
  ⟨hwf.1, nodup_key_eraseP Product._id _ hwf.2⟩

theorem wf_deleteFarm {s : Store} (hwf : s.WF) (fid : ObjectId) :
    (Farm.deleteById s fid).WF :=
  ⟨nodup_key_eraseP Farm._id _ hwf.1, hwf.2⟩

theorem wf_deleteMany {s : Store} (hwf : s.WF) (fid : ObjectId) :
    (Product.deleteMany s fid).2.WF :=
  ⟨hwf.1, nodup_key_filter Product._id _ hwf.2⟩

/-! ## What each handler leaves in the store when no persistence call fails -/

theorem dbCall_none {α : Type} (k : Nat) (r : Option α) : dbCall none k r = r := by
  simp [dbCall]

theorem product_construct_some {nid : ObjectId} {b : ProductFields} {p : Product}
    (h : Product.construct nid b = some p) :
    p._id = nid ∧ castRef b.farm = some p.farm := by
  unfold Product.construct at h
  split at h
  · next n pr c f h1 h2 h3 h4 =>
      simp only [Option.some.injEq] at h
      subst h
      exact ⟨rfl, h4⟩
  · simp at h

theorem farm_construct_some {nid : ObjectId} {b : FarmFields} {f : Farm}
    (h : Farm.construct nid b = some f) :
    f._id = nid ∧ b.products.mapM castObjectId = some f.products := by
  unfold Farm.construct at h
  split at h
  · next n ty l e ps h1 h2 h3 h4 h5 =>
      simp only [Option.some.injEq] at h
      subst h
      exact ⟨rfl, h5⟩
  · simp at h

theorem product_insert_some {s s1 : Store} {p : Product} (h : Product.insert s p = some s1) :
    s.findProduct p._id = none ∧ s1 = { s with products := s.products ++ [p] } := by
  unfold Product.insert at h
  split at h
  · simp at h
  · next hn =>
      simp only [Option.some.injEq] at h
      exact ⟨by simpa using hn, h.symm⟩

theorem farm_insert_some {s s1 : Store} {f : Farm} (h : Farm.insert s f = some s1) :
    s.findFarm f._id = none ∧ s1 = { s with farms := s.farms ++ [f] } := by
  unfold Farm.insert at h
  split at h
  · simp at h
  · next hn =>
      simp only [Option.some.injEq] at h
      exact ⟨by simpa using hn, h.symm⟩

theorem findFarm_id {s : Store} {fid : ObjectId} {F : Farm} (h : s.findFarm fid = some F) :
    F ∈ s.farms ∧ F._id = fid :=
  find_mem_key Farm._id h

theorem findProduct_id {s : Store} {pid : ObjectId} {P : Product}
    (h : s.findProduct pid = some P) : P ∈ s.products ∧ P._id = pid :=
  find_mem_key Product._id h

theorem deleteById_of_not_found {s : Store} {pid : ObjectId} (h : s.findProduct pid = none) :
    Product.deleteById s pid = s := by
  unfold Product.deleteById
  rw [List.eraseP_of_forall_not]
  intro a ha
  exact List.find?_eq_none.1 h a ha

theorem createFarm_cases (s : Store) (body : FarmFields) (nid : ObjectId) :
    (createFarm none s body nid).store = s ∨
    ∃ f, Farm.construct nid body = some f ∧ s.findFarm nid = none ∧
      (createFarm none s body nid).store = { s with farms := s.farms ++ [f] } := by
  unfold createFarm
  rw [dbCall_none]
  cases hc : Farm.construct nid body with
  | none => exact Or.inl rfl
  | some f =>
    cases hi : Farm.insert s f with
    | none => left; simp [hi]
    | some s1 =>
      right
      have := farm_insert_some hi
      rw [(farm_construct_some hc).1] at this
      exact ⟨f, rfl, this.1, by simp [hi, this.2]⟩

theorem createStandaloneProduct_cases (s : Store) (body : ProductFields) (nid : ObjectId) :
    (createStandaloneProduct none s body nid).store = s ∨
    ∃ p, Product.construct nid body = some p ∧ s.findProduct nid = none ∧
      (createStandaloneProduct none s body nid).store =
        { s with products := s.products ++ [p] } := by
  unfold createStandaloneProduct
  rw [dbCall_none]
  cases hc : Product.construct nid body with
  | none => exact Or.inl rfl
  | some p =>
    cases hi : Product.insert s p with
    | none => left; simp [hi]
    | some s1 =>
      right
      have := product_insert_some hi
      rw [(product_construct_some hc).1] at this
      exact ⟨p, rfl, this.1, by simp [hi, this.2]⟩

theorem attachProduct_cases (s : Store) (id : ReqId) (body : ProductFields) (nid : ObjectId) :
    (attachProduct none s id body nid).store = s ∨
    ∃ fid F p, id = .oid fid ∧ s.findFarm fid = some F ∧
      Product.construct nid { body with farm := some (.oid fid) } = some p ∧
      s.findProduct nid = none ∧
      (attachProduct none s id body nid).store =
        Farm.pushProduct { s with products := s.products ++ [p] } fid nid := by
  cases id with
  | malformed => exact Or.inl rfl
  | oid fid =>
    cases hF : s.findFarm fid with
    | none => left; simp [attachProduct, dbCall_none, Farm.findById, castObjectId, hF]
    | some F =>
      have hid := (findFarm_id hF).2
      cases hc : Product.construct nid { body with farm := some (.oid fid) } with
      | none =>
        left; simp [attachProduct, dbCall_none, Farm.findById, castObjectId, hF, hid, hc]
      | some p =>
        cases hi : Product.insert s p with
        | none =>
          left; simp [attachProduct, dbCall_none, Farm.findById, castObjectId, hF, hid, hc, hi]
        | some s1 =>
          right
          have := product_insert_some hi
          rw [(product_construct_some hc).1] at this
          refine ⟨fid, F, p, rfl, hF, hc, this.1, ?_⟩
          simp [attachProduct, dbCall_none, Farm.findById, castObjectId, hF, hid, hc, hi,
            this.2]

theorem updateProduct_cases (s : Store) (id : ReqId) (body : ProductFields) :
    (updateProduct none s id body).store = s ∨
    ∃ pid upd, (∀ P : Product, (upd P)._id = P._id) ∧
      (body.farm = none → ∀ P : Product, (upd P).farm = P.farm) ∧
      (updateProduct none s id body).store =
        { s with products := updateFirst (fun P => P._id == pid) upd s.products } := by
  unfold updateProduct
  rw [dbCall_none]
  cases hu : Product.findByIdAndUpdate s id body with
  | none => exact Or.inl rfl
  | some r =>
    right
    unfold Product.findByIdAndUpdate at hu
    split at hu
    · next pid n pr c f h1 h2 h3 h4 h5 =>
        simp only [Option.some.injEq] at hu
        subst hu
        refine ⟨pid, Product.applyUpdate n pr c f, fun _ => rfl, ?_, ?_⟩
        · intro hb P
          rw [hb] at h5
          have : f = none := by
            simp only [castRef, Option.some.injEq] at h5
            exact h5.symm
          subst this
          rfl
        · cases s.findProduct pid <;> rfl
    · simp at hu

theorem detachAndDeleteProduct_cases (s : Store) (id : ReqId) :
    (detachAndDeleteProduct none s id).store = s ∨
    ∃ pid P, id = .oid pid ∧ s.findProduct pid = some P ∧
      ((P.farm = none ∧ (detachAndDeleteProduct none s id).store = Product.deleteById s pid) ∨
       ∃ g, P.farm = some g ∧ (detachAndDeleteProduct none s id).store =
         Product.deleteById (Farm.pullProduct s g pid) pid) := by
  cases id with
  | malformed => exact Or.inl rfl
  | oid pid =>
    cases hP : s.findProduct pid with
    | none =>
      left; simp [detachAndDeleteProduct, dbCall_none, Product.findById, castObjectId, hP]
    | some P =>
      right
      refine ⟨pid, P, rfl, hP, ?_⟩
      cases hf : P.farm with
      | none =>
        left
        simp [detachAndDeleteProduct, dbCall_none, Product.findById, castObjectId, hP, hf]
      | some g =>
        right
        refine ⟨g, rfl, ?_⟩
        simp [detachAndDeleteProduct, dbCall_none, Product.findById, castObjectId, hP, hf]

theorem deleteFarmProduct_cases (s : Store) (id productId : ReqId) :
    (deleteFarmProduct none s id productId).store = s ∨
    ∃ pid P, productId = .oid pid ∧ s.findProduct pid = some P ∧
      ((id = .malformed ∧
          (deleteFarmProduct none s id productId).store = Product.deleteById s pid) ∨
       ∃ g, id = .oid g ∧ (deleteFarmProduct none s id productId).store =
         Product.deleteById (Farm.pullProduct s g pid) pid) := by
  cases productId with
  | malformed => exact Or.inl rfl
  | oid pid =>
    cases hP : s.findProduct pid with
    | none =>
      left
      simp [deleteFarmProduct, dbCall_none, Product.findByIdAndDelete, castObjectId, hP,
        deleteById_of_not_found hP]
    | some P =>
      right
      refine ⟨pid, P, rfl, hP, ?_⟩
      cases id with
      | malformed =>
        left
        simp [deleteFarmProduct, dbCall_none, Product.findByIdAndDelete, castObjectId, hP]
      | oid g =>
        right
        refine ⟨g, rfl, ?_⟩
        simp [deleteFarmProduct, dbCall_none, Product.findByIdAndDelete, castObjectId, hP]
        rfl

theorem deleteFarmCascade_cases (s : Store) (id : ReqId) :
    (deleteFarmCascade none s id).store = s ∨
    ∃ fid F, id = .oid fid ∧ s.findFarm fid = some F ∧
      (deleteFarmCascade none s id).store =
        Farm.deleteById (Product.deleteMany s fid).2 fid ∧
      (deleteFarmCascade none s id).deletedCount = some (Product.deleteMany s fid).1 := by
  cases id with
  | malformed => exact Or.inl rfl
  | oid fid =>
    cases hF : s.findFarm fid with
    | none => left; simp [deleteFarmCascade, dbCall_none, Farm.findById, castObjectId, hF]
    | some F =>
      right
      refine ⟨fid, F, rfl, hF, ?_, ?_⟩ <;>
        simp [deleteFarmCascade, dbCall_none, Farm.findById, castObjectId, hF]

theorem listed_farm {s : Store} (h : FarmSide s) {pid : ObjectId} {P : Product}
    (hP : s.findProduct pid = some P) {F : Farm} (hF : F ∈ s.farms)
    (hx : pid ∈ F.products) : P.farm = some F._id := by
  have := h F hF pid hx
  rw [hP] at this
  simpa using this

theorem handle_wf (s : Store) (r : Request) (hwf : s.WF) : (handle none s r).store.WF := by
  cases r with
  | createFarm body nid =>
    show (createFarm none s body nid).store.WF
    rcases createFarm_cases s body nid with e | ⟨f, hc, hn, e⟩
    · rw [e]; exact hwf
    · rw [e]
      refine wf_appendFarm hwf f ?_
      rw [(farm_construct_some hc).1]
      exact hn
  | attachProduct id body nid =>
    show (attachProduct none s id body nid).store.WF
    rcases attachProduct_cases s id body nid with e | ⟨fid, F, p, _, _, hc, hn, e⟩
    · rw [e]; exact hwf
    · rw [e]
      refine wf_pushProduct (wf_appendProduct hwf p ?_) _ _
      rw [(product_construct_some hc).1]
      exact hn
  | createStandaloneProduct body nid =>
    show (createStandaloneProduct none s body nid).store.WF
    rcases createStandaloneProduct_cases s body nid with e | ⟨p, hc, hn, e⟩
    · rw [e]; exact hwf
    · rw [e]
      refine wf_appendProduct hwf p ?_
      rw [(product_construct_some hc).1]
      exact hn
  | updateProduct id body =>
    show (updateProduct none s id body).store.WF
    rcases updateProduct_cases s id body with e | ⟨pid, upd, hid, _, e⟩
    · rw [e]; exact hwf
    · rw [e]; exact wf_update hwf pid upd hid
  | detachAndDeleteProduct id =>
    show (detachAndDeleteProduct none s id).store.WF
    rcases detachAndDeleteProduct_cases s id with e | ⟨pid, P, _, _, ⟨_, e⟩ | ⟨g, _, e⟩⟩
    · rw [e]; exact hwf
    · rw [e]; exact wf_deleteProduct hwf pid
    · rw [e]; exact wf_deleteProduct (wf_pullProduct hwf g pid) pid
  | deleteFarmProduct id productId =>
    show (deleteFarmProduct none s id productId).store.WF
    rcases deleteFarmProduct_cases s id productId with
      e | ⟨pid, P, _, _, ⟨_, e⟩ | ⟨g, _, e⟩⟩
    · rw [e]; exact hwf
    · rw [e]; exact wf_deleteProduct hwf pid
    · rw [e]; exact wf_deleteProduct (wf_pullProduct hwf g pid) pid
  | deleteFarmCascade id =>
    show (deleteFarmCascade none s id).store.WF
    rcases deleteFarmCascade_cases s id with e | ⟨fid, F, _, _, e, _⟩
    · rw [e]; exact hwf
    · rw [e]; exact wf_deleteFarm (wf_deleteMany hwf fid) fid

/-- C1, as amended. The farm side of the reference invariant (every identifier
in a Farm's `products` names a stored Product whose `farm` is that Farm) is
kept by attachProduct, createStandaloneProduct, detachAndDeleteProduct and
deleteFarmCascade for every request identifier and field map; by createFarm
when the field map has no `products` entry; by updateProduct when the field
map has no `farm` entry; and by the farm-scoped product delete when the farm
in the URL is the farm the product references. -/
theorem farmSide_preserved (s : Store) (r : Request) (hwf : s.WF) (h : FarmSide s)
    (hr : r.keepsFarmSide s) : FarmSide (handle none s r).store := by
  cases r with
  | createFarm body nid =>
    show FarmSide (createFarm none s body nid).store
    rcases createFarm_cases s body nid with e | ⟨f, hc, _, e⟩
    · rw [e]; exact h
    · rw [e]
      refine farmSide_appendFarm h f ?_
      have hb : body.products = [] := hr
      have := (farm_construct_some hc).2
      rw [hb] at this
      have h2 : (some [] : Option (List ObjectId)) = some f.products := this
      exact (Option.some.inj h2).symm
  | attachProduct id body nid =>
    show FarmSide (attachProduct none s id body nid).store
    rcases attachProduct_cases s id body nid with e | ⟨fid, F, p, _, _, hc, hn, e⟩
    · rw [e]; exact h
    · rw [e]
      obtain ⟨hid, hfarm⟩ := product_construct_some hc
      subst hid
      refine farmSide_attach h p fid ?_ hn
      simpa [castRef, castObjectId] using hfarm.symm
  | createStandaloneProduct body nid =>
    show FarmSide (createStandaloneProduct none s body nid).store
    rcases createStandaloneProduct_cases s body nid with e | ⟨p, _, _, e⟩
    · rw [e]; exact h
    · rw [e]; exact farmSide_appendProduct h p
  | updateProduct id body =>
    show FarmSide (updateProduct none s id body).store
    rcases updateProduct_cases s id body with e | ⟨pid, upd, hid, hfarm, e⟩
    · rw [e]; exact h
    · rw [e]; exact farmSide_update h pid upd hid (hfarm hr)
  | detachAndDeleteProduct id =>
    show FarmSide (detachAndDeleteProduct none s id).store
    rcases detachAndDeleteProduct_cases s id with e | ⟨pid, P, _, hP, ⟨hf, e⟩ | ⟨g, hf, e⟩⟩
    · rw [e]; exact h
    · rw [e]
      refine farmSide_delete h pid ?_
      intro F hF hx
      have := listed_farm h hP hF hx
      rw [hf] at this
      simp at this
    · rw [e]
      refine farmSide_pull_delete hwf h g pid ?_
      intro F hF hx
      have := listed_farm h hP hF hx
      rw [hf] at this
      simpa using this.symm
  | deleteFarmProduct id productId =>
    show FarmSide (deleteFarmProduct none s id productId).store
    have hr' : ∀ pid ∈ castObjectId productId, ∀ P ∈ s.findProduct pid, ∀ g ∈ P.farm,
        id = .oid g := hr
    rcases deleteFarmProduct_cases s id productId with
      e | ⟨pid, P, hp, hP, ⟨hm, e⟩ | ⟨g, hg, e⟩⟩
    · rw [e]; exact h
    · rw [e]
      refine farmSide_delete h pid ?_
      intro F hF hx
      have := hr' pid (by rw [hp]; rfl) P hP F._id (listed_farm h hP hF hx)
      rw [hm] at this
      cases this
    · rw [e]
      refine farmSide_pull_delete hwf h g pid ?_
      intro F hF hx
      have := hr' pid (by rw [hp]; rfl) P hP F._id (listed_farm h hP hF hx)
      rw [hg] at this
      cases this
      rfl
  | deleteFarmCascade id =>
    show FarmSide (deleteFarmCascade none s id).store
    rcases deleteFarmCascade_cases s id with e | ⟨fid, F, _, _, e, _⟩
    · rw [e]; exact h
    · rw [e]; exact farmSide_cascade hwf h fid

/-- C2, as amended. The product side of the reference invariant (every Product
with `farm` set occurs exactly once in the `products` of the Farm it
references) is kept by createFarm, attachProduct, detachAndDeleteProduct, the
farm-scoped product delete and deleteFarmCascade for every request identifier
and field map, and by createStandaloneProduct and updateProduct when the field
map has no `farm` entry. Identifiers are unique in each collection and the
identifier of a newly attached Product is listed by no Farm yet. -/
theorem productSide_preserved (s : Store) (r : Request) (hwf : s.WF) (h : ProductSide s)
    (hnew : r.newIdUnlisted s) (hr : r.keepsProductSide) :
    ProductSide (handle none s r).store := by
  cases r with
  | createFarm body nid =>
    show ProductSide (createFarm none s body nid).store
    rcases createFarm_cases s body nid with e | ⟨f, _, _, e⟩
    · rw [e]; exact h
    · rw [e]; exact productSide_appendFarm h f
  | attachProduct id body nid =>
    show ProductSide (attachProduct none s id body nid).store
    rcases attachProduct_cases s id body nid with e | ⟨fid, F, p, _, hF, hc, hn, e⟩
    · rw [e]; exact h
    · rw [e]
      obtain ⟨hid, hfarm⟩ := product_construct_some hc
      subst hid
      have hu : s.unlisted p._id := hnew
      refine productSide_attach h p fid F ?_ hn hF (hu F (findFarm_id hF).1)
      simpa [castRef, castObjectId] using hfarm.symm
  | createStandaloneProduct body nid =>
    show ProductSide (createStandaloneProduct none s body nid).store
    rcases createStandaloneProduct_cases s body nid with e | ⟨p, hc, _, e⟩
    · rw [e]; exact h
    · rw [e]
      refine productSide_appendProduct h p ?_
      have hb : body.farm = none := hr
      have := (product_construct_some hc).2
      rw [hb] at this
      simpa [castRef] using this.symm
  | updateProduct id body =>
    show ProductSide (updateProduct none s id body).store
    rcases updateProduct_cases s id body with e | ⟨pid, upd, hid, hfarm, e⟩
    · rw [e]; exact h
    · rw [e]; exact productSide_update h pid upd hid (hfarm hr)
  | detachAndDeleteProduct id =>
    show ProductSide (detachAndDeleteProduct none s id).store
    rcases detachAndDeleteProduct_cases s id with e | ⟨pid, P, _, _, ⟨_, e⟩ | ⟨g, _, e⟩⟩
    · rw [e]; exact h
    · rw [e]; exact productSide_delete h pid
    · rw [e]; exact productSide_pull_delete hwf h g pid
  | deleteFarmProduct id productId =>
    show ProductSide (deleteFarmProduct none s id productId).store
    rcases deleteFarmProduct_cases s id productId with
      e | ⟨pid, P, _, _, ⟨_, e⟩ | ⟨g, _, e⟩⟩
    · rw [e]; exact h
    · rw [e]; exact productSide_delete h pid
    · rw [e]; exact productSide_pull_delete hwf h g pid
  | deleteFarmCascade id =>
    show ProductSide (deleteFarmCascade none s id).store
    rcases deleteFarmCascade_cases s id with e | ⟨fid, F, _, _, e, _⟩
    · rw [e]; exact h
    · rw [e]; exact productSide_cascade h fid

/-- C1, witness: the farm-scoped delete of product 11 through its own farm 1
on the demo store. -/
theorem farmSide_preserved_witness :
    demoStore.WF ∧ FarmSide demoStore ∧
      FarmSide (handle none demoStore (.deleteFarmProduct (.oid 1) (.oid 11))).store :=
  ⟨by decide, by decide,
    farmSide_preserved demoStore (.deleteFarmProduct (.oid 1) (.oid 11))
      (by decide) (by decide) (by decide)⟩

/-- C1, counterexample. On the demo store, which satisfies the farm side, the
farm side fails after `POST /farms` with a `products` entry naming product 20,
after `PUT /products/11` with a `farm` entry naming farm 2, and after
`DELETE /farms/2/products/11` (product 11 belongs to farm 1). -/
theorem farmSide_not_preserved :
    demoStore.WF ∧ FarmSide demoStore ∧
      ¬ FarmSide (handle none demoStore
        (.createFarm { sunnyValley with products := [.oid 20] } 3)).store ∧
      ¬ FarmSide (handle none demoStore
        (.updateProduct (.oid 11) ⟨none, none, none, some (.oid 2)⟩)).store ∧
      ¬ FarmSide (handle none demoStore (.deleteFarmProduct (.oid 2) (.oid 11))).store := by
  decide

/-- C2, witness: attaching Kale to farm 2 of the demo store under the new
identifier 13. -/
theorem productSide_preserved_witness :
    demoStore.WF ∧ ProductSide demoStore ∧
      ProductSide (handle none demoStore (.attachProduct (.oid 2) kale 13)).store :=
  ⟨by decide, by decide,
    productSide_preserved demoStore (.attachProduct (.oid 2) kale 13)
      (by decide) (by decide) (by decide) (by decide)⟩

/-- C2, counterexample. On the demo store, which satisfies the product side,
the product side fails after `POST /products` with a `farm` entry naming farm 1
(the new product 21 is in no list) and after `PUT /products/20` with a `farm`
entry naming farm 2 (product 20 is in no list). -/
theorem productSide_not_preserved :
    demoStore.WF ∧ ProductSide demoStore ∧
      ¬ ProductSide (handle none demoStore
        (.createStandaloneProduct { banana with farm := some (.oid 1) } 21)).store ∧
      ¬ ProductSide (handle none demoStore
        (.updateProduct (.oid 20) ⟨none, none, none, some (.oid 2)⟩)).store := by
  decide

theorem construct_of_valid {b : ProductFields} (hb : b.valid) (nid : ObjectId)
    (r : Option ReqId) (f : Option ObjectId) (hr : castRef r = some f) :
    ∃ p, Product.construct nid { b with farm := r } = some p ∧ p._id = nid ∧ p.farm = f := by
  obtain ⟨h1, h2, h3⟩ := hb
  obtain ⟨n, h1⟩ := Option.isSome_iff_exists.1 h1
  obtain ⟨pr, h2⟩ := Option.isSome_iff_exists.1 h2
  obtain ⟨c, h3⟩ := Option.isSome_iff_exists.1 h3
  exact ⟨⟨nid, n, pr, c, f⟩, by simp [Product.construct, h1, h2, h3, hr], rfl, rfl⟩

/-- C3. For every store, every stored Farm `F`, every field map that passes
the validators of name, price and category (whatever `farm` entry it carries)
and a new identifier `nid`, `POST /farms/:id/products` with `F`'s id appends
exactly one Product to the collection, that Product has identifier `nid` and
`farm` equal to `F`'s id, the stored `F` afterwards is `F` with `nid` appended
to its `products`, and the handler redirects. -/
theorem attachProduct_post (s : Store) (fid : ObjectId) (F : Farm) (body : ProductFields)
    (nid : ObjectId) (hF : s.findFarm fid = some F) (hb : body.valid)
    (hnew : s.findProduct nid = none) :
    ∃ p, (attachProduct none s (.oid fid) body nid).store.products = s.products ++ [p] ∧
      p._id = nid ∧ p.farm = some F._id ∧
      (attachProduct none s (.oid fid) body nid).store.findFarm F._id =
        some { F with products := F.products ++ [nid] } ∧
      (attachProduct none s (.oid fid) body nid).response.status = 302 := by
  have hid := (findFarm_id hF).2
  obtain ⟨p, hc, hp1, hp2⟩ :=
    construct_of_valid hb nid (some (.oid fid)) (some fid) rfl
  have hi : Product.insert s p = some { s with products := s.products ++ [p] } := by
    simp [Product.insert, hp1, hnew]
  have hs : (attachProduct none s (.oid fid) body nid).store =
      Farm.pushProduct { s with products := s.products ++ [p] } fid nid := by
    simp [attachProduct, dbCall_none, Farm.findById, castObjectId, hF, hid, hc, hi]
  have hr : (attachProduct none s (.oid fid) body nid).response =
      .redirect ("/farms/" ++ (ReqId.oid fid).render) := by
    simp [attachProduct, dbCall_none, Farm.findById, castObjectId, hF, hid, hc, hi]
  refine ⟨p, by rw [hs]; rfl, hp1, by rw [hp2, hid], ?_, by rw [hr]; rfl⟩
  rw [hs]
  subst hid
  rw [findFarm_pushProduct_eq]
  have hF' : ({ s with products := s.products ++ [p] } : Store).findFarm F._id = some F := hF
  rw [hF']
  rfl

/-- C3, witness: the field map `Kale` attached to farm 1 of the demo store. -/
theorem attachProduct_post_witness :
    ∃ p, (attachProduct none demoStore (.oid 1) kale 13).store.products =
        demoStore.products ++ [p] ∧
      p._id = 13 ∧ p.farm = some sunnyValleyFarm._id ∧
      (attachProduct none demoStore (.oid 1) kale 13).store.findFarm sunnyValleyFarm._id =
        some { sunnyValleyFarm with products := sunnyValleyFarm.products ++ [13] } ∧
      (attachProduct none demoStore (.oid 1) kale 13).response.status = 302 :=
  attachProduct_post demoStore 1 sunnyValleyFarm kale 13 (by decide) (by decide) (by decide)

/-- C4, as amended. When the Farm-side write of `POST /farms/:id/products`
fails after the Product write succeeded, the handler answers 500 and the store
is the old one with the new Product (identifier `nid`, `farm` equal to `F`'s
id) appended, every Farm document unchanged: the Product write is not undone.
When the Product write itself fails, the store is unchanged. -/
theorem attachProduct_no_rollback (s : Store) (fid : ObjectId) (F : Farm)
    (body : ProductFields) (nid : ObjectId) (hF : s.findFarm fid = some F) (hb : body.valid)
    (hnew : s.findProduct nid = none) :
    (∃ p, (attachProduct (some 2) s (.oid fid) body nid).store =
        { s with products := s.products ++ [p] } ∧ p._id = nid ∧ p.farm = some F._id) ∧
      (attachProduct (some 2) s (.oid fid) body nid).response.status = 500 ∧
      (attachProduct (some 1) s (.oid fid) body nid).store = s ∧
      (attachProduct (some 1) s (.oid fid) body nid).response.status = 500 := by
  have hid := (findFarm_id hF).2
  obtain ⟨p, hc, hp1, hp2⟩ :=
    construct_of_valid hb nid (some (.oid fid)) (some fid) rfl
  have hi : Product.insert s p = some { s with products := s.products ++ [p] } := by
    simp [Product.insert, hp1, hnew]
  refine ⟨⟨p, ?_, hp1, by rw [hp2, hid]⟩, ?_, ?_, ?_⟩ <;>
    simp [attachProduct, dbCall, Farm.findById, castObjectId, hF, hid, hc, hi, Response.status]

/-- C4, witness: the field map `Kale` attached to farm 1 of the demo store. -/
theorem attachProduct_no_rollback_witness :
    (∃ p, (attachProduct (some 2) demoStore (.oid 1) kale 13).store =
        { demoStore with products := demoStore.products ++ [p] } ∧ p._id = 13 ∧
        p.farm = some sunnyValleyFarm._id) ∧
      (attachProduct (some 2) demoStore (.oid 1) kale 13).response.status = 500 ∧
      (attachProduct (some 1) demoStore (.oid 1) kale 13).store = demoStore ∧
      (attachProduct (some 1) demoStore (.oid 1) kale 13).response.status = 500 :=
  attachProduct_no_rollback demoStore 1 sunnyValleyFarm kale 13
    (by decide) (by decide) (by decide)

/-- C4, counterexample. On the demo store, when the Farm-side write of
attaching `Kale` to farm 1 fails, the Product 13 created by this call is in the
resulting store although farm 1 does not list it. -/
theorem attachProduct_leaves_orphan :
    demoStore.findProduct 13 = none ∧
      ((attachProduct (some 2) demoStore (.oid 1) kale 13).store.findProduct 13).map
        Product.farm = some (some 1) ∧
      ((attachProduct (some 2) demoStore (.oid 1) kale 13).store.findFarm 1).map
        Farm.products = some [11, 12] := by
  decide

/-- C5. In a store with unique identifiers that satisfies the farm side of
the invariant, after `DELETE /products/:id` with the id of a stored Product,
that id is in no Farm's `products` and a lookup of it finds no document; the
handler redirects. -/
theorem detachAndDeleteProduct_post (s : Store) (pid : ObjectId) (P : Product)
    (hwf : s.WF) (h : FarmSide s) (hP : s.findProduct pid = some P) :
    (∀ F ∈ (detachAndDeleteProduct none s (.oid pid)).store.farms, pid ∉ F.products) ∧
      Product.findById (detachAndDeleteProduct none s (.oid pid)).store (.oid pid) =
        some none ∧
      (detachAndDeleteProduct none s (.oid pid)).response.status = 302 := by
  have hst : (detachAndDeleteProduct none s (.oid pid)).response.status = 302 := by
    cases hf : P.farm <;>
      simp [detachAndDeleteProduct, dbCall_none, Product.findById, castObjectId, hP, hf,
        Response.status]
  cases hf : P.farm with
  | none =>
    have e : (detachAndDeleteProduct none s (.oid pid)).store = Product.deleteById s pid := by
      simp [detachAndDeleteProduct, dbCall_none, Product.findById, castObjectId, hP, hf]
    rw [e]
    refine ⟨?_, ?_, hst⟩
    · intro F hF hx
      have := listed_farm h hP hF hx
      rw [hf] at this
      cases this
    · show some ((Product.deleteById s pid).findProduct pid) = some none
      rw [findProduct_deleteById_eq s pid hwf]
  | some g =>
    have e : (detachAndDeleteProduct none s (.oid pid)).store =
        Product.deleteById (Farm.pullProduct s g pid) pid := by
      simp [detachAndDeleteProduct, dbCall_none, Product.findById, castObjectId, hP, hf]
    rw [e]
    refine ⟨?_, ?_, hst⟩
    · intro F hF hx
      rcases mem_updateFirst_nodup Farm._id _ g hwf.1 hF with ⟨hF', hne⟩ | ⟨G, _, _, e'⟩
      · have := listed_farm h hP hF' hx
        rw [hf] at this
        exact hne (Option.some.inj this).symm
      · subst e'
        simp at hx
    · show some ((Product.deleteById (Farm.pullProduct s g pid) pid).findProduct pid) =
        some none
      rw [findProduct_deleteById_eq _ pid (wf_pullProduct hwf g pid)]

/-- C5, witness: deleting product 11 of the demo store. -/
theorem detachAndDeleteProduct_post_witness :
    (∀ F ∈ (detachAndDeleteProduct none demoStore (.oid 11)).store.farms,
        11 ∉ F.products) ∧
      Product.findById (detachAndDeleteProduct none demoStore (.oid 11)).store (.oid 11) =
        some none ∧
      (detachAndDeleteProduct none demoStore (.oid 11)).response.status = 302 :=
  detachAndDeleteProduct_post demoStore 11 organicTomatoes (by decide) (by decide)
    (by decide)

/-- C6, the code at a failing input. The demo store satisfies both sides of
the invariant and product 12 belongs to farm 1; after
`DELETE /farms/2/products/12` the handler redirects, product 12 is gone, and
farm 1 still lists 12. The sibling route `DELETE /products/12` on the same
store leaves farm 1 with the list `[11]`. -/
theorem deleteFarmProduct_keeps_dangling_id :
    demoStore.WF ∧ FarmSide demoStore ∧ ProductSide demoStore ∧
      (demoStore.findProduct 12).map Product.farm = some (some 1) ∧
      (deleteFarmProduct none demoStore (.oid 2) (.oid 12)).response.status = 302 ∧
      (deleteFarmProduct none demoStore (.oid 2) (.oid 12)).store.findProduct 12 = none ∧
      ((deleteFarmProduct none demoStore (.oid 2) (.oid 12)).store.findFarm 1).map
        Farm.products = some [11, 12] ∧
      ((detachAndDeleteProduct none demoStore (.oid 12)).store.findFarm 1).map
        Farm.products = some [11] := by
  decide

/-- C7, as amended. In a store with unique identifiers satisfying both sides
of the invariant, for a stored Product with a farm reference, the store
between the two writes of a product delete satisfies one side only. In
`DELETE /products/:id` (the pull has happened, the Product delete has not) the
farm side holds and the product side fails; in
`DELETE /farms/:id/products/:productId` (the Product delete has happened, the
pull has not) the product side holds and the farm side fails. -/
theorem delete_between_writes (s : Store) (pid : ObjectId) (P : Product) (g : ObjectId)
    (id : ReqId) (hwf : s.WF) (hfs : FarmSide s) (hps : ProductSide s)
    (hP : s.findProduct pid = some P) (hg : P.farm = some g) :
    FarmSide (detachAndDeleteProduct (some 2) s (.oid pid)).store ∧
      ¬ ProductSide (detachAndDeleteProduct (some 2) s (.oid pid)).store ∧
      ProductSide (deleteFarmProduct (some 1) s id (.oid pid)).store ∧
      ¬ FarmSide (deleteFarmProduct (some 1) s id (.oid pid)).store := by
  have e1 : (detachAndDeleteProduct (some 2) s (.oid pid)).store =
      Farm.pullProduct s g pid := by
    simp [detachAndDeleteProduct, dbCall, Product.findById, castObjectId, hP, hg]
  have e2 : (deleteFarmProduct (some 1) s id (.oid pid)).store = Product.deleteById s pid := by
    simp [deleteFarmProduct, dbCall, Product.findByIdAndDelete, castObjectId, hP]
  obtain ⟨hPm, hPid⟩ := findProduct_id hP
  obtain ⟨G, hG, hcount⟩ := Option.map_eq_some'.1 (hps P hPm g hg)
  rw [hPid] at hcount
  rw [e1, e2]
  refine ⟨farmSide_pull hfs g pid, ?_, productSide_delete hps pid, ?_⟩
  · intro hbad
    have := hbad P hPm g hg
    rw [findFarm_pullProduct_eq, hG, hPid] at this
    have h0 : List.count pid (List.filter (fun x => x != pid) G.products) = 0 :=
      List.count_eq_zero.2 (by simp)
    simp only [Option.map_some', Option.some.injEq] at this
    omega
  · intro hbad
    have hmem : pid ∈ G.products := by
      apply List.count_pos_iff.1
      omega
    have := hbad G (findFarm_id hG).1 pid hmem
    rw [findProduct_deleteById_eq s pid hwf] at this
    simp at this

/-- C7, witness: product 11 of the demo store, owned by farm 1. -/
theorem delete_between_writes_witness :
    FarmSide (detachAndDeleteProduct (some 2) demoStore (.oid 11)).store ∧
      ¬ ProductSide (detachAndDeleteProduct (some 2) demoStore (.oid 11)).store ∧
      ProductSide (deleteFarmProduct (some 1) demoStore (.oid 1) (.oid 11)).store ∧
      ¬ FarmSide (deleteFarmProduct (some 1) demoStore (.oid 1) (.oid 11)).store :=
  delete_between_writes demoStore 11 organicTomatoes 1 (.oid 1)
    (by decide) (by decide) (by decide) (by decide) (by decide)

/-- C7, counterexample. The demo store satisfies both sides of the invariant
and product 12 references farm 1; the store between the two writes of
`DELETE /products/12` violates the product side, and the store between the two
writes of `DELETE /farms/1/products/12` violates the farm side. -/
theorem delete_not_crash_safe :
    demoStore.WF ∧ FarmSide demoStore ∧ ProductSide demoStore ∧
      (demoStore.findProduct 12).map Product.farm = some (some 1) ∧
      ¬ ProductSide (detachAndDeleteProduct (some 2) demoStore (.oid 12)).store ∧
      ¬ FarmSide (deleteFarmProduct (some 1) demoStore (.oid 1) (.oid 12)).store := by
  decide

theorem deleteFarmCascade_run (s : Store) (fid : ObjectId) (F : Farm)
    (hF : s.findFarm fid = some F) :
    deleteFarmCascade none s (.oid fid) =
      ⟨.redirect "/farms", Farm.deleteById (Product.deleteMany s fid).2 fid,
        some (Product.deleteMany s fid).1⟩ := by
  simp [deleteFarmCascade, dbCall_none, Farm.findById, castObjectId, hF]

/-- C8. In a store with unique identifiers, after `DELETE /farms/:id` with the
id of a stored Farm `F` the handler redirects, a lookup of `F` finds no
document, no stored Product has `farm` equal to `F`'s id, and, when the store
satisfied the farm side of the invariant, a lookup of any identifier that was
in `F.products` finds no document. -/
theorem deleteFarmCascade_post (s : Store) (fid : ObjectId) (F : Farm) (hwf : s.WF)
    (hF : s.findFarm fid = some F) :
    (deleteFarmCascade none s (.oid fid)).response.status = 302 ∧
      Farm.findById (deleteFarmCascade none s (.oid fid)).store (.oid fid) = some none ∧
      (∀ P ∈ (deleteFarmCascade none s (.oid fid)).store.products, P.farm ≠ some F._id) ∧
      (FarmSide s → ∀ x ∈ F.products,
        Product.findById (deleteFarmCascade none s (.oid fid)).store (.oid x) = some none) := by
  obtain ⟨hFm, hFid⟩ := findFarm_id hF
  rw [deleteFarmCascade_run s fid F hF]
  refine ⟨rfl, ?_, ?_, ?_⟩
  · show some ((Farm.deleteById (Product.deleteMany s fid).2 fid).findFarm fid) = some none
    rw [findFarm_deleteById_eq _ fid (wf_deleteMany hwf fid)]
  · intro P hP
    have hP' : P ∈ s.products ∧ (!(P.farm == some fid)) = true := List.mem_filter.1 hP
    rw [hFid]
    simpa using hP'.2
  · intro hfs x hx
    show some ((Farm.deleteById (Product.deleteMany s fid).2 fid).findProduct x) = some none
    obtain ⟨y, hy, e⟩ := Option.map_eq_some'.1 (hfs F hFm x hx)
    have hnone : (Farm.deleteById (Product.deleteMany s fid).2 fid).findProduct x = none := by
      apply List.find?_eq_none.2
      intro z hz hzx
      have hz' : z ∈ s.products ∧ (!(z.farm == some fid)) = true := List.mem_filter.1 hz
      have hzid : z._id = x := by simpa using hzx
      have hfind := find_of_mem_nodup Product._id hwf.2 hz'.1
      rw [hzid] at hfind
      have hzy : z = y := Option.some.inj (hfind.symm.trans hy)
      rw [hzy, e, hFid] at hz'
      simp at hz'
    rw [hnone]

/-- C8, witness: the test farm of `demo.js` with its one test product. -/
theorem deleteFarmCascade_post_witness :
    testStore.WF ∧ FarmSide testStore ∧
      (deleteFarmCascade none testStore (.oid 5)).response.status = 302 ∧
      Farm.findById (deleteFarmCascade none testStore (.oid 5)).store (.oid 5) = some none ∧
      (∀ P ∈ (deleteFarmCascade none testStore (.oid 5)).store.products,
        P.farm ≠ some testFarm._id) ∧
      (∀ x ∈ testFarm.products,
        Product.findById (deleteFarmCascade none testStore (.oid 5)).store (.oid x) =
          some none) :=
  have h := deleteFarmCascade_post testStore 5 testFarm (by decide) (by decide)
  ⟨by decide, by decide, h.1, h.2.1, h.2.2.1, h.2.2.2 (by decide)⟩

theorem owned_length {s : Store} (hwf : s.WF) (hfs : FarmSide s) (hps : ProductSide s)
    {fid : ObjectId} {F : Farm} (hF : s.findFarm fid = some F) :
    (s.products.filter (fun P => P.farm == some fid)).length = F.products.length := by
  obtain ⟨hFm, hFid⟩ := findFarm_id hF
  have hM : ((s.products.filter (fun P => P.farm == some fid)).map Product._id).Nodup :=
    nodup_key_filter Product._id _ hwf.2
  have hL : F.products.Nodup := by
    rw [List.nodup_iff_count_le_one]
    intro x
    by_cases hx : x ∈ F.products
    · obtain ⟨y, hy, e⟩ := Option.map_eq_some'.1 (hfs F hFm x hx)
      obtain ⟨hym, hyid⟩ := findProduct_id hy
      rw [hFid] at e
      have := hps y hym fid e
      rw [hF, hyid] at this
      simp only [Option.map_some', Option.some.injEq] at this
      omega
    · rw [List.count_eq_zero_of_not_mem hx]
      omega
  have hperm : F.products.Perm
      ((s.products.filter (fun P => P.farm == some fid)).map Product._id) := by
    rw [List.perm_ext_iff_of_nodup hL hM]
    intro x
    constructor
    · intro hx
      obtain ⟨y, hy, e⟩ := Option.map_eq_some'.1 (hfs F hFm x hx)
      obtain ⟨hym, hyid⟩ := findProduct_id hy
      rw [hFid] at e
      exact List.mem_map.2 ⟨y, List.mem_filter.2 ⟨hym, by simp [e]⟩, hyid⟩
    · intro hx
      obtain ⟨y, hy, hyid⟩ := List.mem_map.1 hx
      obtain ⟨hym, hyf⟩ := List.mem_filter.1 hy
      have e : y.farm = some fid := by simpa using hyf
      have := hps y hym fid e
      rw [hF, hyid] at this
      simp only [Option.map_some', Option.some.injEq] at this
      apply List.count_pos_iff.1
      omega
  have := hperm.length_eq
  rw [List.length_map] at this
  exact this.symm

theorem length_filter_split {α : Type} (p : α → Bool) (l : List α) :
    l.length = (l.filter (fun a => !p a)).length + (l.filter p).length := by
  induction l with
  | nil => rfl
  | cons a as ih =>
    cases h : p a <;> simp [List.filter_cons, h] <;> omega

/-- C9. After `DELETE /farms/:id` with the id of a stored Farm `F`, the
`deletedCount` the handler reports is the number of stored Products whose
`farm` was `F`'s id, the Product collection has shrunk by exactly that number,
and in a store with unique identifiers satisfying both sides of the invariant
it is the length of `F.products`. -/
theorem deleteFarmCascade_count (s : Store) (fid : ObjectId) (F : Farm)
    (hF : s.findFarm fid = some F) :
    ∃ n, (deleteFarmCascade none s (.oid fid)).deletedCount = some n ∧
      n = s.products.countP (fun P => P.farm == some F._id) ∧
      s.products.length = (deleteFarmCascade none s (.oid fid)).store.products.length + n ∧
      (s.WF → FarmSide s → ProductSide s → n = F.products.length) := by
  obtain ⟨hFm, hFid⟩ := findFarm_id hF
  rw [deleteFarmCascade_run s fid F hF]
  refine ⟨(Product.deleteMany s fid).1, rfl, ?_, ?_, ?_⟩
  · rw [hFid, List.countP_eq_length_filter]
    rfl
  · exact length_filter_split (fun P => P.farm == some fid) s.products
  · intro hwf hfs hps
    exact owned_length hwf hfs hps hF

/-- C9, witness: farm 1 of the demo store, which owns two products. -/
theorem deleteFarmCascade_count_witness :
    ∃ n, (deleteFarmCascade none demoStore (.oid 1)).deletedCount = some n ∧
      n = demoStore.products.countP (fun P => P.farm == some sunnyValleyFarm._id) ∧
      demoStore.products.length =
        (deleteFarmCascade none demoStore (.oid 1)).store.products.length + n ∧
      n = sunnyValleyFarm.products.length :=
  have ⟨n, h1, h2, h3, h4⟩ := deleteFarmCascade_count demoStore 1 sunnyValleyFarm (by decide)
  ⟨n, h1, h2, h3, h4 (by decide) (by decide) (by decide)⟩

/-- What `POST /products` does with a field map it accepts. For every store,
every field map that passes the validators and whose `farm` entry, if any,
casts, and a new identifier `nid`, the handler redirects, appends exactly one
Product with identifier `nid` to the collection and leaves the Farm collection
unchanged; the `farm` of the new Product is what the field map carries, and is
unset when the map carries none. -/
theorem createStandaloneProduct_post (s : Store) (body : ProductFields) (nid : ObjectId)
    (f : Option ObjectId) (hb : body.valid) (hf : castRef body.farm = some f)
    (hnew : s.findProduct nid = none) :
    ∃ p, (createStandaloneProduct none s body nid).store.products = s.products ++ [p] ∧
      p._id = nid ∧ p.farm = f ∧ (body.farm = none → p.farm = none) ∧
      (createStandaloneProduct none s body nid).store.farms = s.farms ∧
      (createStandaloneProduct none s body nid).response.status = 302 := by
  obtain ⟨p, hc, hp1, hp2⟩ := construct_of_valid hb nid body.farm f hf
  have hc' : Product.construct nid body = some p := hc
  have hi : Product.insert s p = some { s with products := s.products ++ [p] } := by
    simp [Product.insert, hp1, hnew]
  have hrun : createStandaloneProduct none s body nid =
      ⟨.redirect ("/products/" ++ toString nid),
        { s with products := s.products ++ [p] }, none⟩ := by
    simp [createStandaloneProduct, dbCall_none, hc', hi]
  rw [hrun]
  refine ⟨p, rfl, hp1, hp2, ?_, rfl, rfl⟩
  intro hnone
  rw [hnone] at hf
  rw [hp2]
  exact (Option.some.inj hf).symm

/-- The field map `Banana`, which carries no `farm`, on the demo store: the
new Product has no `farm`. -/
theorem createStandaloneProduct_post_witness :
    ∃ p, (createStandaloneProduct none demoStore banana 21).store.products =
        demoStore.products ++ [p] ∧
      p._id = 21 ∧ p.farm = none ∧ (banana.farm = none → p.farm = none) ∧
      (createStandaloneProduct none demoStore banana 21).store.farms = demoStore.farms ∧
      (createStandaloneProduct none demoStore banana 21).response.status = 302 :=
  createStandaloneProduct_post demoStore banana 21 none (by decide) (by decide) (by decide)

/-- C10, the code at the failing input. The field map `Banana` with a `farm`
entry naming farm 1 passes validation, and `POST /products` with it on the
demo store redirects and stores a Product whose `farm` is farm 1, not unset;
the Farm documents are unchanged, so farm 1 does not list the new Product. -/
theorem createStandaloneProduct_sets_farm :
    ({ banana with farm := some (.oid 1) } : ProductFields).valid ∧
      demoStore.findProduct 21 = none ∧
      (createStandaloneProduct none demoStore { banana with farm := some (.oid 1) }
        21).response.status = 302 ∧
      ((createStandaloneProduct none demoStore { banana with farm := some (.oid 1) }
        21).store.findProduct 21).map Product.farm = some (some 1) ∧
      (createStandaloneProduct none demoStore { banana with farm := some (.oid 1) }
        21).store.farms = demoStore.farms ∧
      ((createStandaloneProduct none demoStore { banana with farm := some (.oid 1) }
        21).store.findFarm 1).map Farm.products = some [11, 12] := by
  decide

/-! ## Updates and lookups that find nothing -/

theorem updateFirst_of_forall_not {α : Type} (q : α → Bool) (f : α → α) (l : List α)
    (h : ∀ a ∈ l, q a = false) : updateFirst q f l = l := by
  induction l with
  | nil => rfl
  | cons a as ih =>
    unfold updateFirst
    rw [h a (List.mem_cons_self _ _), ih fun b hb => h b (List.mem_cons_of_mem _ hb)]
    rfl

theorem findByIdAndUpdate_valid (s : Store) (pid : ObjectId) (b : ProductFields)
    (hb : b.validUpdate) :
    ∃ n pr c f, castRef b.farm = some f ∧
      Product.findByIdAndUpdate s (.oid pid) b =
        some ((s.findProduct pid).map (Product.applyUpdate n pr c f),
          ⟨s.farms, updateFirst (fun P => P._id == pid)
              (Product.applyUpdate n pr c f) s.products⟩) := by
  obtain ⟨h1, h2, h3, h4⟩ := hb
  obtain ⟨n, h1⟩ := Option.isSome_iff_exists.1 h1
  obtain ⟨pr, h2⟩ := Option.isSome_iff_exists.1 h2
  obtain ⟨c, h3⟩ := Option.isSome_iff_exists.1 h3
  obtain ⟨f, h4⟩ := Option.isSome_iff_exists.1 h4
  exact ⟨n, pr, c, f, h4, by simp [Product.findByIdAndUpdate, castObjectId, h1, h2, h3, h4]⟩

theorem findByIdAndUpdate_invalid (s : Store) (id : ReqId) (b : ProductFields)
    (hb : ¬ b.validUpdate) : Product.findByIdAndUpdate s id b = none := by
  unfold Product.findByIdAndUpdate
  split
  · next pid n pr c f h1 h2 h3 h4 h5 =>
      exact absurd ⟨by simp [h2], by simp [h3], by simp [h4], by simp [h5]⟩ hb
  · rfl

theorem updateProduct_farms (s : Store) (id : ReqId) (body : ProductFields) :
    (updateProduct none s id body).store.farms = s.farms := by
  rcases updateProduct_cases s id body with e | ⟨pid, upd, _, _, e⟩ <;> rw [e]

/-- C11, as amended. For every store, every stored Product `P` and every field
map passed to `PUT /products/:id`, every Farm document is unchanged; the `farm`
of `P` is unchanged when the field map carries no `farm` entry, and is the Farm
named by that entry when the field map carries one and passes validation. -/
theorem updateProduct_linkage (s : Store) (pid : ObjectId) (P : Product)
    (body : ProductFields) (hP : s.findProduct pid = some P) :
    (updateProduct none s (.oid pid) body).store.farms = s.farms ∧
      (body.farm = none →
        ((updateProduct none s (.oid pid) body).store.findProduct pid).map Product.farm =
          some P.farm) ∧
      (∀ g, body.farm = some (.oid g) → body.validUpdate →
        ((updateProduct none s (.oid pid) body).store.findProduct pid).map Product.farm =
          some (some g)) := by
  refine ⟨updateProduct_farms s _ body, ?_, ?_⟩
  · intro hb
    rcases updateProduct_cases s (.oid pid) body with e | ⟨pid', upd, hid, hfarm, e⟩
    · rw [e, hP]; rfl
    · rw [e]
      unfold Store.findProduct at hP ⊢
      by_cases hne : pid' = pid
      · subst hne
        show Option.map Product.farm
          ((updateFirst (fun P => P._id == pid') upd s.products).find?
            (fun P => P._id == pid')) = _
        rw [find_updateFirst_eq Product._id upd hid, hP]
        simp [hfarm hb]
      · show Option.map Product.farm
          ((updateFirst (fun P => P._id == pid') upd s.products).find?
            (fun P => P._id == pid)) = _
        rw [find_updateFirst_ne Product._id upd hid hne, hP]
        rfl
  · intro g hg hv
    obtain ⟨n, pr, c, f, hf, hrun⟩ := findByIdAndUpdate_valid s pid body hv
    have hfg : f = some g := by
      rw [hg] at hf
      simpa [castRef, castObjectId] using hf.symm
    subst hfg
    have hs : (updateProduct none s (.oid pid) body).store =
        ⟨s.farms, updateFirst (fun P => P._id == pid)
          (Product.applyUpdate n pr c (some g)) s.products⟩ := by
      simp [updateProduct, dbCall_none, hrun, hP]
    rw [hs]
    unfold Store.findProduct at hP ⊢
    show Option.map Product.farm
      ((updateFirst (fun P => P._id == pid) (Product.applyUpdate n pr c (some g))
        s.products).find? (fun P => P._id == pid)) = _
    rw [find_updateFirst_eq Product._id (Product.applyUpdate n pr c (some g))
      (fun _ => rfl), hP]
    rfl

/-- C11, witness: renaming product 11 of the demo store. -/
theorem updateProduct_linkage_witness :
    (updateProduct none demoStore (.oid 11) ⟨some "Tomatoes", none, none, none⟩).store.farms =
        demoStore.farms ∧
      ((updateProduct none demoStore (.oid 11)
        ⟨some "Tomatoes", none, none, none⟩).store.findProduct 11).map Product.farm =
          some organicTomatoes.farm :=
  have h := updateProduct_linkage demoStore 11 organicTomatoes
    ⟨some "Tomatoes", none, none, none⟩ (by decide)
  ⟨h.1, h.2.1 rfl⟩

/-- C11, counterexample. Product 11 of the demo store references farm 1; after
`PUT /products/11` with a field map whose only entry is `farm` naming farm 2,
it references farm 2. -/
theorem updateProduct_changes_farm :
    (demoStore.findProduct 11).map Product.farm = some (some 1) ∧
      (updateProduct none demoStore (.oid 11) ⟨none, none, none, some (.oid 2)⟩).response.status
        = 302 ∧
      ((updateProduct none demoStore (.oid 11)
        ⟨none, none, none, some (.oid 2)⟩).store.findProduct 11).map Product.farm =
          some (some 2) := by
  decide

theorem not_validUpdate_of_rejected {b : ProductFields} (hb : b.rejected) :
    ¬ b.validUpdate := by
  rintro ⟨_, h2, h3, _⟩
  rcases hb with ⟨c, hc, hn⟩ | ⟨h, hp, hneg⟩ | hp
  · have hc' : b.category = some c := hc
    rw [hc'] at h3
    simp [castCategory, hn] at h3
  · rw [hp] at h2
    have : ¬ (0 ≤ h) := by omega
    simp [castPrice, this] at h2
  · rw [hp] at h2
    simp [castPrice] at h2

/-- C12, as amended. For every store, every stored Product `P` and every field
map whose category is outside fruit, vegetable, dairy or whose price is
negative or not a number, the update of `PUT /products/:id` fails: with a
`CastError` when the price is not a number (or the farm reference of the field
map is malformed), otherwise with a `ValidationError`. In each case the update
writes nothing, the handler answers 500 `Error updating product`, and the
store, the stored `P` included, is unchanged. -/
theorem updateProduct_rejects (s : Store) (pid : ObjectId) (P : Product)
    (body : ProductFields) (hP : s.findProduct pid = some P) (hbad : body.rejected) :
    failure none s (.updateProduct (.oid pid) body) =
        some (if body.price = some .notNumber ∨ castRef body.farm = none then .castError
          else .validationError) ∧
      Product.findByIdAndUpdate s (.oid pid) body = none ∧
      (updateProduct none s (.oid pid) body).response =
        .send 500 "Error updating product" ∧
      (updateProduct none s (.oid pid) body).store = s ∧
      (updateProduct none s (.oid pid) body).store.findProduct pid = some P := by
  have h := findByIdAndUpdate_invalid s (.oid pid) body (not_validUpdate_of_rejected hbad)
  have hs : (updateProduct none s (.oid pid) body).store = s := by
    simp [updateProduct, dbCall_none, h]
  refine ⟨?_, h, by simp [updateProduct, dbCall_none, h], hs, ?_⟩
  · by_cases hc : body.price = some .notNumber ∨ castRef body.farm = none
    · simp [failure, thrownAt, Product.updateFailure, castObjectId, hc]
    · have hv : castName body.name = none ∨ castPrice body.price = none ∨
          castCategory body.category = none := by
        rcases hbad with ⟨c, hcat, hn⟩ | ⟨n, hp, hneg⟩ | hp
        · have hcat' : body.category = some c := hcat
          right; right
          simp [hcat', castCategory, hn]
        · have : ¬ (0 ≤ n) := by omega
          right; left
          simp [hp, castPrice, this]
        · exact absurd (Or.inl hp) hc
      simp [failure, thrownAt, Product.updateFailure, castObjectId, hc, hv]
  · rw [hs]
    exact hP

/-- C12, witness: the field map `{category: "invalid"}` on product 11 of the
demo store fails with a `ValidationError`. -/
theorem updateProduct_rejects_witness :
    failure none demoStore (.updateProduct (.oid 11) invalidCategory) =
        some .validationError ∧
      Product.findByIdAndUpdate demoStore (.oid 11) invalidCategory = none ∧
      (updateProduct none demoStore (.oid 11) invalidCategory).response =
        .send 500 "Error updating product" ∧
      (updateProduct none demoStore (.oid 11) invalidCategory).store = demoStore ∧
      (updateProduct none demoStore (.oid 11) invalidCategory).store.findProduct 11 =
        some organicTomatoes :=
  updateProduct_rejects demoStore 11 organicTomatoes invalidCategory (by decide)
    (Or.inl ⟨"invalid", rfl, by decide⟩)

/-- C12, counterexample. The field map `{price: "abc"}`, whose price is not a
number, is one of the field maps of the claim; `PUT /products/11` with it on
the demo store fails with a `CastError`, not with a `ValidationError`. -/
theorem updateProduct_nonnumeric_is_cast_error :
    nonNumericPrice.rejected ∧
      demoStore.findProduct 11 = some organicTomatoes ∧
      failure none demoStore (.updateProduct (.oid 11) nonNumericPrice) =
        some .castError ∧
      failure none demoStore (.updateProduct (.oid 11) nonNumericPrice) ≠
        some .validationError :=
  ⟨Or.inr (Or.inr rfl), by decide, by decide, by decide⟩

/-- C13, as amended. For every store and every farm identifier that matches
no stored Farm, `POST /farms/:id/products` and `DELETE /farms/:id` leave the
store unchanged (no Product created, none deleted, no `deletedCount`); they
answer 404 `Farm not found` when the identifier is well formed and 500 with
the route's error text when it is malformed. -/
theorem farm_not_found (s : Store) (id : ReqId) (body : ProductFields) (nid : ObjectId)
    (h : ∀ fid ∈ castObjectId id, s.findFarm fid = none) :
    (attachProduct none s id body nid).store = s ∧
      (deleteFarmCascade none s id).store = s ∧
      (deleteFarmCascade none s id).deletedCount = none ∧
      ((castObjectId id).isSome →
        (attachProduct none s id body nid).response = .send 404 "Farm not found" ∧
        (deleteFarmCascade none s id).response = .send 404 "Farm not found") ∧
      (castObjectId id = none →
        (attachProduct none s id body nid).response =
          .send 500 "Error creating product for farm" ∧
        (deleteFarmCascade none s id).response = .send 500 "Error deleting farm") := by
  cases id with
  | malformed =>
    simp [attachProduct, deleteFarmCascade, dbCall_none, Farm.findById, castObjectId]
  | oid fid =>
    have hF : s.findFarm fid = none := h fid rfl
    simp [attachProduct, deleteFarmCascade, dbCall_none, Farm.findById, castObjectId, hF]

/-- C13, witness: the well-formed identifier 9, which no farm of the demo
store has. -/
theorem farm_not_found_witness :
    (attachProduct none demoStore (.oid 9) kale 13).store = demoStore ∧
      (deleteFarmCascade none demoStore (.oid 9)).store = demoStore ∧
      (attachProduct none demoStore (.oid 9) kale 13).response = .send 404 "Farm not found" ∧
      (deleteFarmCascade none demoStore (.oid 9)).response = .send 404 "Farm not found" :=
  have h := farm_not_found demoStore (.oid 9) kale 13 (by decide)
  ⟨h.1, h.2.1, (h.2.2.2.1 rfl).1, (h.2.2.2.1 rfl).2⟩

/-- C13, counterexample. A malformed farm identifier matches no stored Farm,
and both routes answer it with status 500, not 404. -/
theorem farm_malformed_id_is_500 :
    (∀ fid ∈ castObjectId .malformed, demoStore.findFarm fid = none) ∧
      (attachProduct none demoStore .malformed kale 13).response.status = 500 ∧
      (deleteFarmCascade none demoStore .malformed).response.status = 500 := by
  decide

/-- C14, as amended. For every store and every product identifier that
matches no stored Product, `PUT /products/:id`, `DELETE /products/:id` and
`DELETE /farms/:id/products/:productId` (for every farm id) leave the store
unchanged. With a well-formed identifier the two deletes answer 404
`Product not found`, and the update answers 404 when its field map passes
validation and 500 otherwise; with a malformed identifier all three answer 500
with the route's error text. -/
theorem product_not_found (s : Store) (id farmId : ReqId) (body : ProductFields)
    (h : ∀ pid ∈ castObjectId id, s.findProduct pid = none) :
    (updateProduct none s id body).store = s ∧
      (detachAndDeleteProduct none s id).store = s ∧
      (deleteFarmProduct none s farmId id).store = s ∧
      ((castObjectId id).isSome →
        (detachAndDeleteProduct none s id).response = .send 404 "Product not found" ∧
        (deleteFarmProduct none s farmId id).response = .send 404 "Product not found" ∧
        (body.validUpdate →
          (updateProduct none s id body).response = .send 404 "Product not found") ∧
        (¬ body.validUpdate →
          (updateProduct none s id body).response = .send 500 "Error updating product")) ∧
      (castObjectId id = none →
        (detachAndDeleteProduct none s id).response = .send 500 "Error deleting product" ∧
        (deleteFarmProduct none s farmId id).response = .send 500 "Error deleting product" ∧
        (updateProduct none s id body).response = .send 500 "Error updating product") := by
  cases id with
  | malformed =>
    simp [updateProduct, detachAndDeleteProduct, deleteFarmProduct, dbCall_none,
      Product.findById, Product.findByIdAndUpdate, castObjectId]
  | oid pid =>
    have hP : s.findProduct pid = none := h pid rfl
    have hd := deleteById_of_not_found hP
    have hnot : ∀ a ∈ s.products, (a._id == pid) = false := by
      intro a ha
      simpa using List.find?_eq_none.1 hP a ha
    have hupd : (updateProduct none s (.oid pid) body).store = s ∧
        (body.validUpdate →
          (updateProduct none s (.oid pid) body).response =
            .send 404 "Product not found") ∧
        (¬ body.validUpdate →
          (updateProduct none s (.oid pid) body).response =
            .send 500 "Error updating product") := by
      by_cases hv : body.validUpdate
      · obtain ⟨n, pr, c, f, _, hrun⟩ := findByIdAndUpdate_valid s pid body hv
        rw [updateFirst_of_forall_not _ _ _ hnot, hP] at hrun
        simp [updateProduct, dbCall_none, hrun, hv]
      · have hrun := findByIdAndUpdate_invalid s (.oid pid) body hv
        simp [updateProduct, dbCall_none, hrun, hv]
    refine ⟨hupd.1, ?_, ?_, ?_, ?_⟩
    · simp [detachAndDeleteProduct, dbCall_none, Product.findById, castObjectId, hP]
    · simp [deleteFarmProduct, dbCall_none, Product.findByIdAndDelete, castObjectId, hP, hd]
    · intro _
      refine ⟨?_, ?_, hupd.2.1, hupd.2.2⟩
      · simp [detachAndDeleteProduct, dbCall_none, Product.findById, castObjectId, hP]
      · simp [deleteFarmProduct, dbCall_none, Product.findByIdAndDelete, castObjectId, hP]
    · intro hc
      simp [castObjectId] at hc

/-- C14, witness: the well-formed identifier 99, which no product of the demo
store has, with the field map `Kale`. -/
theorem product_not_found_witness :
    (updateProduct none demoStore (.oid 99) kale).store = demoStore ∧
      (detachAndDeleteProduct none demoStore (.oid 99)).store = demoStore ∧
      (deleteFarmProduct none demoStore (.oid 1) (.oid 99)).store = demoStore ∧
      (detachAndDeleteProduct none demoStore (.oid 99)).response =
        .send 404 "Product not found" ∧
      (deleteFarmProduct none demoStore (.oid 1) (.oid 99)).response =
        .send 404 "Product not found" ∧
      (updateProduct none demoStore (.oid 99) kale).response =
        .send 404 "Product not found" :=
  have h := product_not_found demoStore (.oid 99) (.oid 1) kale (by decide)
  ⟨h.1, h.2.1, h.2.2.1, (h.2.2.2.1 rfl).1, (h.2.2.2.1 rfl).2.1,
    (h.2.2.2.1 rfl).2.2.1 (by decide)⟩

/-- C14, counterexample. A malformed product identifier matches no stored
Product and the three routes answer it with status 500; the well-formed
identifier 99 matches no stored Product either and `PUT /products/99` with the
field map `{category: "invalid"}` answers 500. None of these is a 404. -/
theorem product_missing_is_500 :
    (∀ pid ∈ castObjectId .malformed, demoStore.findProduct pid = none) ∧
      (updateProduct none demoStore .malformed kale).response.status = 500 ∧
      (detachAndDeleteProduct none demoStore .malformed).response.status = 500 ∧
      (deleteFarmProduct none demoStore (.oid 1) .malformed).response.status = 500 ∧
      demoStore.findProduct 99 = none ∧
      (updateProduct none demoStore (.oid 99) invalidCategory).response.status = 500 := by
  decide

theorem failure_cases (fault : Fault) (s : Store) (r : Request) :
    (failure fault s r = none ∧ ∃ loc, (handle fault s r).response = .redirect loc) ∨
      (failure fault s r = some .notFound ∧
        (handle fault s r).response = .send 404 r.notFoundText) ∨
      (∃ k, k ≠ Failure.notFound ∧ failure fault s r = some k ∧
        (handle fault s r).response = .send 500 r.errorText) := by
  cases r with
  | createFarm body nid =>
    simp only [failure, handle, createFarm, thrownAt, dbCall, Farm.saveFailure,
      Request.errorText, Request.notFoundText]
    by_cases h0 : fault = some 0
    · simp [h0]
    · cases hc : Farm.construct nid body with
      | none => simp [h0]
      | some f => cases hi : Farm.insert s f <;> simp [h0, hi]
  | createStandaloneProduct body nid =>
    simp only [failure, handle, createStandaloneProduct, thrownAt, dbCall,
      Product.saveFailure, Request.errorText, Request.notFoundText]
    by_cases h0 : fault = some 0
    · simp [h0]
    · cases hc : Product.construct nid body with
      | none => simp [h0]
      | some f => cases hi : Product.insert s f <;> simp [h0, hi]
  | attachProduct id body nid =>
    simp only [failure, handle, attachProduct, thrownAt, dbCall, Product.saveFailure,
      castFailure, Farm.findById, Request.errorText, Request.notFoundText]
    by_cases h0 : fault = some 0
    · simp [h0]
    · cases id with
      | malformed => simp [h0, castObjectId]
      | oid fid =>
        cases hF : s.findFarm fid with
        | none => simp [h0, castObjectId, hF]
        | some F =>
          by_cases h1 : fault = some 1
          · simp [h0, castObjectId, hF, h1]
          · cases hc : Product.construct nid { body with farm := some (.oid F._id) } with
            | none => simp [h0, castObjectId, hF, h1, hc]
            | some p =>
              cases hi : Product.insert s p with
              | none => simp [h0, castObjectId, hF, h1, hc, hi]
              | some s1 =>
                by_cases h2 : fault = some 2
                · simp [h0, castObjectId, hF, h1, hc, hi, h2]
                · simp [h0, castObjectId, hF, h1, hc, hi, h2]
  | updateProduct id body =>
    simp only [failure, handle, updateProduct, thrownAt, dbCall,
      Request.errorText, Request.notFoundText]
    by_cases h0 : fault = some 0
    · simp [h0]
    · by_cases hv : body.validUpdate
      · cases id with
        | malformed =>
          simp [h0, Product.findByIdAndUpdate, Product.updateFailure, castObjectId]
        | oid pid =>
          obtain ⟨n, pr, c, f, hf, hrun⟩ := findByIdAndUpdate_valid s pid body hv
          obtain ⟨v1, v2, v3, v4⟩ := hv
          have e1 : castName body.name ≠ none := fun h => by simp [h] at v1
          have e2 : castPrice body.price ≠ none := fun h => by simp [h] at v2
          have e3 : castCategory body.category ≠ none := fun h => by simp [h] at v3
          have e4 : castRef body.farm ≠ none := fun h => by simp [h] at v4
          have e5 : body.price ≠ some .notNumber := fun h => by
            rw [h] at e2
            exact e2 rfl
          cases hP : s.findProduct pid with
          | none =>
            simp [h0, hrun, hP, Product.updateFailure, castObjectId, e1, e2, e3, e4, e5]
          | some P =>
            simp [h0, hrun, hP, Product.updateFailure, castObjectId, e1, e2, e3, e4, e5]
      · have hrun := findByIdAndUpdate_invalid s id body hv
        have hk : ∃ k, k ≠ Failure.notFound ∧ Product.updateFailure id body = some k := by
          unfold Product.updateFailure
          by_cases c1 : castObjectId id = none ∨ body.price = some .notNumber ∨
              castRef body.farm = none
          · exact ⟨.castError, by decide, by rw [if_pos c1]⟩
          · by_cases c2 : castName body.name = none ∨ castPrice body.price = none ∨
                castCategory body.category = none
            · exact ⟨.validationError, by decide, by rw [if_neg c1, if_pos c2]⟩
            · exfalso
              apply hv
              have d1 : castRef body.farm ≠ none := fun h => c1 (Or.inr (Or.inr h))
              have d2 : castName body.name ≠ none := fun h => c2 (Or.inl h)
              have d3 : castPrice body.price ≠ none := fun h => c2 (Or.inr (Or.inl h))
              have d4 : castCategory body.category ≠ none := fun h => c2 (Or.inr (Or.inr h))
              exact ⟨Option.ne_none_iff_isSome.1 d2, Option.ne_none_iff_isSome.1 d3,
                Option.ne_none_iff_isSome.1 d4, Option.ne_none_iff_isSome.1 d1⟩
        obtain ⟨k, hk1, hk2⟩ := hk
        right; right
        exact ⟨k, hk1, by simp [h0, hk2], by simp [h0, hrun]⟩
  | detachAndDeleteProduct id =>
    simp only [failure, handle, detachAndDeleteProduct, thrownAt, dbCall, castFailure,
      Product.findById, Request.errorText, Request.notFoundText]
    by_cases h0 : fault = some 0
    · simp [h0]
    · cases id with
      | malformed => simp [h0, castObjectId]
      | oid pid =>
        cases hP : s.findProduct pid with
        | none => simp [h0, castObjectId, hP]
        | some P =>
          by_cases h2 : fault = some 2
          · cases hf : P.farm with
            | none => simp [h0, castObjectId, hP, hf, h2]
            | some g => simp [h0, castObjectId, hP, hf, h2]
          · cases hf : P.farm with
            | none => simp [h0, castObjectId, hP, hf, h2]
            | some g =>
              by_cases h1 : fault = some 1
              · simp [h0, castObjectId, hP, hf, h1]
              · simp [h0, castObjectId, hP, hf, h1, h2]
  | deleteFarmProduct id productId =>
    simp only [failure, handle, deleteFarmProduct, thrownAt, dbCall, castFailure,
      Product.findByIdAndDelete, Request.errorText, Request.notFoundText]
    by_cases h0 : fault = some 0
    · simp [h0]
    · cases productId with
      | malformed => simp [h0, castObjectId]
      | oid pid =>
        cases hP : s.findProduct pid with
        | none => simp [h0, castObjectId, hP, Product.findByIdAndDelete]
        | some P =>
          by_cases h1 : fault = some 1
          · simp [h0, castObjectId, hP, h1, Product.findByIdAndDelete]
          · cases id with
            | malformed => simp [h0, castObjectId, hP, h1, Product.findByIdAndDelete]
            | oid fid => simp [h0, castObjectId, hP, h1, Product.findByIdAndDelete]
  | deleteFarmCascade id =>
    simp only [failure, handle, deleteFarmCascade, thrownAt, dbCall, castFailure,
      Farm.findById, Request.errorText, Request.notFoundText]
    by_cases h0 : fault = some 0
    · simp [h0]
    · cases id with
      | malformed => simp [h0, castObjectId]
      | oid fid =>
        cases hF : s.findFarm fid with
        | none => simp [h0, castObjectId, hF]
        | some F =>
          by_cases h1 : fault = some 1
          · simp [h0, castObjectId, hF, h1]
          · by_cases h2 : fault = some 2
            · simp [h0, castObjectId, hF, h1, h2]
            · simp [h0, castObjectId, hF, h1, h2]

theorem thrownAt_none (site : Nat) (own : Option Failure) : thrownAt none site own = own := by
  simp [thrownAt]

theorem castFailure_ne (id : ReqId) : castFailure id ≠ some .persistenceFailure := by
  cases id <;> simp [castFailure, castObjectId]

theorem product_saveFailure_ne (s : Store) (nid : ObjectId) (b : ProductFields) :
    Product.saveFailure s nid b ≠ some .persistenceFailure := by
  unfold Product.saveFailure
  repeat' split
  all_goals simp

theorem farm_saveFailure_ne (s : Store) (nid : ObjectId) (b : FarmFields) :
    Farm.saveFailure s nid b ≠ some .persistenceFailure := by
  unfold Farm.saveFailure
  repeat' split
  all_goals simp

theorem updateFailure_ne (id : ReqId) (b : ProductFields) :
    Product.updateFailure id b ≠ some .persistenceFailure := by
  unfold Product.updateFailure
  repeat' split
  all_goals simp

theorem failure_none_ne (s : Store) (r : Request) :
    failure none s r ≠ some .persistenceFailure := by
  cases r with
  | createFarm body nid =>
    simp only [failure, thrownAt_none]
    exact farm_saveFailure_ne s nid body
  | createStandaloneProduct body nid =>
    simp only [failure, thrownAt_none]
    exact product_saveFailure_ne s nid body
  | attachProduct id body nid =>
    simp only [failure, thrownAt_none]
    split
    · next e h0 =>
      intro hc
      cases hc
      exact castFailure_ne _ h0
    · split
      · simp
      · split
        · next e h1 =>
          intro hc
          cases hc
          exact product_saveFailure_ne _ _ _ h1
        · simp
  | updateProduct id body =>
    simp only [failure, thrownAt_none]
    split
    · next e h0 =>
      intro hc
      cases hc
      exact updateFailure_ne _ _ h0
    · split <;> simp
  | detachAndDeleteProduct id =>
    simp only [failure, thrownAt_none]
    split
    · next e h0 =>
      intro hc
      cases hc
      exact castFailure_ne _ h0
    · split
      · simp
      · split
        · next e h1 =>
          split at h1 <;> simp at h1
        · simp
  | deleteFarmProduct id productId =>
    simp only [failure, thrownAt_none]
    split
    · next e h0 =>
      intro hc
      cases hc
      exact castFailure_ne _ h0
    · split
      · simp
      · exact castFailure_ne id
  | deleteFarmCascade id =>
    simp only [failure, thrownAt_none]
    split
    · next e h0 =>
      intro hc
      cases hc
      exact castFailure_ne _ h0
    · split <;> simp

/-- C15, as amended. For every route, every store, every request and every
fault: the run goes wrong in no way exactly when the response is a redirect;
its lookup finds no document exactly when the response is status 404 with the
route's not-found text; and something is thrown inside the handler, whatever
its kind (a `CastError`, a `ValidationError`, a duplicate key, a failure of
the store at any of the handler's persistence calls), exactly when the
response is status 500 with the route's one error text. So every thrown
failure is answered with the same status and body and only NotFound can be
told from the other kinds. A failure of the store at the first call always
occurs as such, and without a fault there is no failure of the store. -/
theorem failure_response (fault : Fault) (s : Store) (r : Request) :
    (failure fault s r = none ↔ ∃ loc, (handle fault s r).response = .redirect loc) ∧
      (failure fault s r = some .notFound ↔
        (handle fault s r).response = .send 404 r.notFoundText) ∧
      ((∃ k, k ≠ Failure.notFound ∧ failure fault s r = some k) ↔
        (handle fault s r).response = .send 500 r.errorText) ∧
      (∀ k, k ≠ Failure.notFound → failure fault s r = some k →
        (handle fault s r).response = .send 500 r.errorText) ∧
      failure (some 0) s r = some .persistenceFailure ∧
      (failure none s r ≠ some .persistenceFailure) := by
  have key := failure_cases fault s r
  refine ⟨?_, ?_, ?_, ?_, ?_, ?_⟩
  · rcases key with ⟨h1, h2⟩ | ⟨h1, h2⟩ | ⟨k, hk, h1, h2⟩
    · exact ⟨fun _ => h2, fun _ => h1⟩
    · rw [h1, h2]
      simp
    · rw [h1, h2]
      simp
  · rcases key with ⟨h1, ⟨loc, h2⟩⟩ | ⟨h1, h2⟩ | ⟨k, hk, h1, h2⟩
    · rw [h1, h2]
      simp
    · exact ⟨fun _ => h2, fun _ => h1⟩
    · rw [h1, h2]
      simp [hk]
  · rcases key with ⟨h1, ⟨loc, h2⟩⟩ | ⟨h1, h2⟩ | ⟨k, hk, h1, h2⟩
    · rw [h1, h2]
      simp
    · rw [h1, h2]
      simp
    · exact ⟨fun _ => h2, fun _ => ⟨k, hk, h1⟩⟩
  · intro k hk hf
    rcases key with ⟨h1, _⟩ | ⟨h1, _⟩ | ⟨k2, _, _, h2⟩
    · rw [h1] at hf
      cases hf
    · rw [h1] at hf
      cases hf
      exact absurd rfl hk
    · exact h2
  · cases r <;> rfl
  · exact failure_none_ne s r

/-- C15, counterexample. On the demo store, `PUT /products/11` with the field
map `{category: "invalid"}` (a `ValidationError`, no failure of the store) and
`PUT /products/11` with the valid field map `Kale` while the store rejects the
call (a failure of the store) are answered with the same status and body. The
same holds of `POST /farms/1/products`: a field map that fails validation, a
failure of the store at the save of the product, and one at the save of the
farm get the one response. -/
theorem validation_and_store_failure_look_alike :
    failure none demoStore (.updateProduct (.oid 11) invalidCategory) =
        some .validationError ∧
      failure (some 0) demoStore (.updateProduct (.oid 11) kale) =
        some .persistenceFailure ∧
      (updateProduct none demoStore (.oid 11) invalidCategory).response =
        (updateProduct (some 0) demoStore (.oid 11) kale).response ∧
      (updateProduct none demoStore (.oid 11) invalidCategory).response =
        .send 500 "Error updating product" ∧
      failure none demoStore (.attachProduct (.oid 1) invalidCategory 13) =
        some .validationError ∧
      failure (some 1) demoStore (.attachProduct (.oid 1) kale 13) =
        some .persistenceFailure ∧
      failure (some 2) demoStore (.attachProduct (.oid 1) kale 13) =
        some .persistenceFailure ∧
      (attachProduct none demoStore (.oid 1) invalidCategory 13).response =
        .send 500 "Error creating product for farm" ∧
      (attachProduct (some 1) demoStore (.oid 1) kale 13).response =
        .send 500 "Error creating product for farm" ∧
      (attachProduct (some 2) demoStore (.oid 1) kale 13).response =
        .send 500 "Error creating product for farm" := by
  decide

/-! ## Sequences of requests -/

theorem noShared_of_farmSide {s : Store} (h : FarmSide s) : NoSharedProduct s := by
  intro F hF G hG pid hx hy
  have h1 := h F hF pid hx
  have h2 := h G hG pid hy
  rw [h1] at h2
  simpa using h2

theorem farmSide_step (s : Store) (r : Request) (hwf : s.WF) (h : FarmSide s)
    (hr : r.isAttachDetachCascade) : FarmSide (handle none s r).store := by
  cases r with
  | attachProduct id body nid =>
    show FarmSide (attachProduct none s id body nid).store
    rcases attachProduct_cases s id body nid with e | ⟨fid, F, p, _, _, hc, hn, e⟩
    · rw [e]; exact h
    · rw [e]
      obtain ⟨hid, hfarm⟩ := product_construct_some hc
      subst hid
      refine farmSide_attach h p fid ?_ hn
      simpa [castRef, castObjectId] using hfarm.symm
  | detachAndDeleteProduct id =>
    show FarmSide (detachAndDeleteProduct none s id).store
    rcases detachAndDeleteProduct_cases s id with e | ⟨pid, P, _, hP, ⟨hf, e⟩ | ⟨g, hf, e⟩⟩
    · rw [e]; exact h
    · rw [e]
      refine farmSide_delete h pid ?_
      intro F hF hx
      have := listed_farm h hP hF hx
      rw [hf] at this
      simp at this
    · rw [e]
      refine farmSide_pull_delete hwf h g pid ?_
      intro F hF hx
      have := listed_farm h hP hF hx
      rw [hf] at this
      simpa using this.symm
  | deleteFarmCascade id =>
    show FarmSide (deleteFarmCascade none s id).store
    rcases deleteFarmCascade_cases s id with e | ⟨fid, F, _, _, e, _⟩
    · rw [e]; exact h
    · rw [e]; exact farmSide_cascade hwf h fid
  | createFarm _ _ => exact absurd hr (by simp [Request.isAttachDetachCascade])
  | createStandaloneProduct _ _ => exact absurd hr (by simp [Request.isAttachDetachCascade])
  | updateProduct _ _ => exact absurd hr (by simp [Request.isAttachDetachCascade])
  | deleteFarmProduct _ _ => exact absurd hr (by simp [Request.isAttachDetachCascade])

theorem run_farmSide (rs : List Request) :
    ∀ s : Store, s.WF → FarmSide s → (∀ r ∈ rs, r.isAttachDetachCascade) →
      (run s rs).WF ∧ FarmSide (run s rs) := by
  induction rs with
  | nil => intro s hwf h _; exact ⟨hwf, h⟩
  | cons r rs ih =>
    intro s hwf h hrs
    exact ih _ (handle_wf s r hwf)
      (farmSide_step s r hwf h (hrs r (List.mem_cons_self _ _)))
      (fun r' hr' => hrs r' (List.mem_cons_of_mem _ hr'))

/-- C16. In every store that satisfies the farm side of the invariant, no
identifier is in the `products` of two Farms. This is true of every store
reached from the empty store by a sequence of attachProduct,
detachAndDeleteProduct and deleteFarmCascade requests, and of every store
reached by such a sequence from a store with unique identifiers that satisfies
the farm side. -/
theorem no_product_in_two_farms (s : Store) (rs : List Request)
    (hrs : ∀ r ∈ rs, r.isAttachDetachCascade) :
    (FarmSide s → NoSharedProduct s) ∧
      (FarmSide (run ⟨[], []⟩ rs) ∧ NoSharedProduct (run ⟨[], []⟩ rs)) ∧
      (s.WF → FarmSide s → NoSharedProduct (run s rs)) := by
  have h0 := run_farmSide rs ⟨[], []⟩ (by decide) (by decide) hrs
  exact ⟨noShared_of_farmSide, ⟨h0.2, noShared_of_farmSide h0.2⟩,
    fun hwf h => noShared_of_farmSide (run_farmSide rs s hwf h hrs).2⟩

/-- C16, witness: on the demo store, `Kale` is attached to farm 2, product 11
is deleted and farm 1 is deleted with its products. -/
theorem no_product_in_two_farms_witness :
    NoSharedProduct demoStore ∧
      NoSharedProduct (run ⟨[], []⟩ [.attachProduct (.oid 2) kale 13,
        .detachAndDeleteProduct (.oid 11), .deleteFarmCascade (.oid 1)]) ∧
      NoSharedProduct (run demoStore [.attachProduct (.oid 2) kale 13,
        .detachAndDeleteProduct (.oid 11), .deleteFarmCascade (.oid 1)]) :=
  have h := no_product_in_two_farms demoStore [.attachProduct (.oid 2) kale 13,
    .detachAndDeleteProduct (.oid 11), .deleteFarmCascade (.oid 1)] (by decide)
  ⟨h.1 (by decide), h.2.1.2, h.2.2 (by decide) (by decide)⟩

theorem eraseP_eq_filter_of_nodup {α : Type} (k : α → Nat) (i : Nat) {l : List α}
    (hn : (l.map k).Nodup) :
    l.eraseP (fun a => k a == i) = l.filter (fun a => !(k a == i)) := by
  induction l with
  | nil => rfl
  | cons a as ih =>
    rw [List.map_cons, List.nodup_cons] at hn
    by_cases h : k a = i
    · have b1 : (k a == i) = true := by simpa using h
      have hall : ∀ x ∈ as, (!(k x == i)) = true := by
        intro x hx
        have : k x ≠ i := fun e => hn.1 (by rw [h, ← e]; exact List.mem_map_of_mem k hx)
        simpa using this
      simp only [List.eraseP_cons, b1, cond_true, List.filter_cons, Bool.not_true,
        Bool.false_eq_true, if_false]
      exact (List.filter_eq_self.2 hall).symm
    · have b1 : (k a == i) = false := by simpa using h
      simp only [List.eraseP_cons, b1, cond_false, List.filter_cons, Bool.not_false, if_true,
        ih hn.2]

theorem owned_after_filter (fid pid : ObjectId) (l : List Product) :
    ((l.filter (fun a => !(a._id == pid))).filter (fun P => P.farm == some fid)).map
        Product._id =
      ((l.filter (fun P => P.farm == some fid)).map Product._id).filter
        (fun x => !(x == pid)) := by
  induction l with
  | nil => rfl
  | cons a as ih =>
    cases h1 : (a._id == pid) <;> cases h2 : (a.farm == some fid) <;>
      simp only [List.filter_cons, h1, h2, Bool.not_true, Bool.not_false, Bool.false_eq_true,
        if_true, if_false, List.map_cons, ih]

theorem owned_after_delete {s : Store} (hwf : s.WF) (fid pid : ObjectId) :
    ((Product.deleteById s pid).products.filter (fun P => P.farm == some fid)).map
        Product._id =
      ((s.products.filter (fun P => P.farm == some fid)).map Product._id).filter
        (fun x => !(x == pid)) := by
  show ((s.products.eraseP (fun P => P._id == pid)).filter _).map _ = _
  rw [eraseP_eq_filter_of_nodup Product._id pid hwf.2]
  exact owned_after_filter fid pid s.products

theorem owned_filter_of_other {s : Store} (hwf : s.WF) {fid pid : ObjectId} {P : Product}
    (hP : s.findProduct pid = some P) (hne : P.farm ≠ some fid) :
    ((s.products.filter (fun P => P.farm == some fid)).map Product._id).filter
        (fun x => !(x == pid)) =
      (s.products.filter (fun P => P.farm == some fid)).map Product._id := by
  apply List.filter_eq_self.2
  intro x hx
  obtain ⟨Q, hQ, hQx⟩ := List.mem_map.1 hx
  obtain ⟨hQm, hQf⟩ := List.mem_filter.1 hQ
  have hQf' : Q.farm = some fid := by simpa using hQf
  have : x ≠ pid := by
    intro e
    have hfind := find_of_mem_nodup Product._id hwf.2 hQm
    rw [hQx, e] at hfind
    have : Q = P := Option.some.inj (hfind.symm.trans hP)
    exact hne (this ▸ hQf')
  simpa using this

theorem orderedAt_step (s : Store) (fid : ObjectId) (r : Request) (hwf : s.WF)
    (hord : OrderedAt s fid) (hr : r.attachesOrDeletes fid) (hk : r.keepsFarmSide s) :
    OrderedAt (handle none s r).store fid := by
  obtain ⟨F, hF, hL⟩ := Option.map_eq_some'.1 hord
  cases r with
  | attachProduct id body nid =>
    have hid : id = .oid fid := hr
    subst hid
    show OrderedAt (attachProduct none s (.oid fid) body nid).store fid
    rcases attachProduct_cases s (.oid fid) body nid with e | ⟨fid', F', p, hi, _, hc, _, e⟩
    · rw [e]; exact hord
    · cases hi
      rw [e]
      obtain ⟨hpid, hfarm⟩ := product_construct_some hc
      have hpf : p.farm = some fid := by
        simpa [castRef, castObjectId] using hfarm.symm
      unfold OrderedAt
      rw [findFarm_pushProduct_eq]
      have hF' : ({ s with products := s.products ++ [p] } : Store).findFarm fid = some F := hF
      rw [hF']
      show some (F.products ++ [nid]) =
        some (((s.products ++ [p]).filter (fun P => P.farm == some fid)).map Product._id)
      rw [List.filter_append, List.map_append, hL]
      simp [List.filter_cons, hpf, hpid]
  | detachAndDeleteProduct id =>
    show OrderedAt (detachAndDeleteProduct none s id).store fid
    rcases detachAndDeleteProduct_cases s id with e | ⟨pid, P, _, hP, ⟨hf, e⟩ | ⟨g, hf, e⟩⟩
    · rw [e]; exact hord
    · rw [e]
      unfold OrderedAt
      rw [findFarm_deleteProduct, owned_after_delete hwf,
        owned_filter_of_other hwf hP (by rw [hf]; simp)]
      exact hord
    · rw [e]
      unfold OrderedAt
      rw [findFarm_deleteProduct]
      have hprod : (Product.deleteById (Farm.pullProduct s g pid) pid).products =
          (Product.deleteById s pid).products := rfl
      rw [hprod, owned_after_delete hwf]
      by_cases hg : g = fid
      · subst hg
        rw [findFarm_pullProduct_eq, hF, ← hL]
        rfl
      · rw [findFarm_pullProduct_ne _ _ hg,
          owned_filter_of_other hwf hP (by rw [hf]; simpa using hg)]
        exact hord
  | createFarm _ _ => exact absurd hr (by simp [Request.attachesOrDeletes])
  | createStandaloneProduct _ _ => exact absurd hr (by simp [Request.attachesOrDeletes])
  | updateProduct _ _ => exact absurd hr (by simp [Request.attachesOrDeletes])
  | deleteFarmProduct id productId =>
    show OrderedAt (deleteFarmProduct none s id productId).store fid
    rcases deleteFarmProduct_cases s id productId with
      e | ⟨pid, P, hpid, hP, ⟨hid, e⟩ | ⟨g, hid, e⟩⟩
    · rw [e]; exact hord
    · have hPf : P.farm ≠ some fid := by
        intro hf
        have h1 : id = .oid fid := hk pid (by rw [hpid]; rfl) P hP fid hf
        rw [hid] at h1
        cases h1
      rw [e]
      unfold OrderedAt
      rw [findFarm_deleteProduct, owned_after_delete hwf, owned_filter_of_other hwf hP hPf]
      exact hord
    · rw [e]
      unfold OrderedAt
      rw [findFarm_deleteProduct]
      have hprod : (Product.deleteById (Farm.pullProduct s g pid) pid).products =
          (Product.deleteById s pid).products := rfl
      rw [hprod, owned_after_delete hwf]
      by_cases hg : g = fid
      · subst hg
        rw [findFarm_pullProduct_eq, hF, ← hL]
        rfl
      · have hPf : P.farm ≠ some fid := by
          intro hf
          have h1 : id = .oid fid := hk pid (by rw [hpid]; rfl) P hP fid hf
          rw [hid] at h1
          cases h1
          exact hg rfl
        rw [findFarm_pullProduct_ne _ _ hg, owned_filter_of_other hwf hP hPf]
        exact hord
  | deleteFarmCascade _ => exact absurd hr (by simp [Request.attachesOrDeletes])

theorem run_orderedAt (fid : ObjectId) (rs : List Request) :
    ∀ s : Store, s.WF → OrderedAt s fid → (∀ r ∈ rs, r.attachesOrDeletes fid) →
      ownerAddressed s rs → (run s rs).WF ∧ OrderedAt (run s rs) fid := by
  induction rs with
  | nil => intro s hwf h _ _; exact ⟨hwf, h⟩
  | cons r rs ih =>
    intro s hwf h hrs hk
    exact ih _ (handle_wf s r hwf)
      (orderedAt_step s fid r hwf h (hrs r (List.mem_cons_self _ _)) hk.1)
      (fun r' hr' => hrs r' (List.mem_cons_of_mem _ hr')) hk.2

theorem list_step (t : Store) (fid : ObjectId) (r : Request) (F : Farm)
    (hr : r.attachesOrDeletes fid) (hF : t.findFarm fid = some F) :
    ∃ F', (handle none t r).store.findFarm fid = some F' ∧
      (F'.products = F.products ∨ (∃ nid, F'.products = F.products ++ [nid]) ∨
        ∃ pid, F'.products = F.products.filter (fun x => x != pid)) := by
  cases r with
  | attachProduct id body nid =>
    show ∃ F', (attachProduct none t id body nid).store.findFarm fid = some F' ∧ _
    rcases attachProduct_cases t id body nid with e | ⟨fid', F', p, hi, _, _, _, e⟩
    · rw [e]; exact ⟨F, hF, Or.inl rfl⟩
    · have hid : id = .oid fid := hr
      rw [hid] at hi
      cases hi
      rw [e, findFarm_pushProduct_eq]
      have hF' : ({ t with products := t.products ++ [p] } : Store).findFarm fid = some F := hF
      rw [hF']
      exact ⟨_, rfl, Or.inr (Or.inl ⟨nid, rfl⟩)⟩
  | detachAndDeleteProduct id =>
    show ∃ F', (detachAndDeleteProduct none t id).store.findFarm fid = some F' ∧ _
    rcases detachAndDeleteProduct_cases t id with e | ⟨pid, P, _, _, ⟨_, e⟩ | ⟨g, _, e⟩⟩
    · rw [e]; exact ⟨F, hF, Or.inl rfl⟩
    · rw [e, findFarm_deleteProduct]; exact ⟨F, hF, Or.inl rfl⟩
    · rw [e, findFarm_deleteProduct]
      by_cases hg : g = fid
      · subst hg
        rw [findFarm_pullProduct_eq, hF]
        exact ⟨_, rfl, Or.inr (Or.inr ⟨pid, rfl⟩)⟩
      · rw [findFarm_pullProduct_ne _ _ hg]
        exact ⟨F, hF, Or.inl rfl⟩
  | createFarm _ _ => exact absurd hr (by simp [Request.attachesOrDeletes])
  | createStandaloneProduct _ _ => exact absurd hr (by simp [Request.attachesOrDeletes])
  | updateProduct _ _ => exact absurd hr (by simp [Request.attachesOrDeletes])
  | deleteFarmProduct id productId =>
    show ∃ F', (deleteFarmProduct none t id productId).store.findFarm fid = some F' ∧ _
    rcases deleteFarmProduct_cases t id productId with
      e | ⟨pid, P, _, _, ⟨_, e⟩ | ⟨g, _, e⟩⟩
    · rw [e]; exact ⟨F, hF, Or.inl rfl⟩
    · rw [e, findFarm_deleteProduct]; exact ⟨F, hF, Or.inl rfl⟩
    · rw [e, findFarm_deleteProduct]
      by_cases hg : g = fid
      · subst hg
        rw [findFarm_pullProduct_eq, hF]
        exact ⟨_, rfl, Or.inr (Or.inr ⟨pid, rfl⟩)⟩
      · rw [findFarm_pullProduct_ne _ _ hg]
        exact ⟨F, hF, Or.inl rfl⟩
  | deleteFarmCascade _ => exact absurd hr (by simp [Request.attachesOrDeletes])

theorem list_step_sublist (t : Store) (fid : ObjectId) (r : Request) (F : Farm)
    (hr : r.attachesOrDeletes fid) (hF : t.findFarm fid = some F) :
    ∃ F', (handle none t r).store.findFarm fid = some F' ∧
      F'.products.Sublist (F.products ++ attachedIds [r]) := by
  cases r with
  | attachProduct id body nid =>
    show ∃ F', (attachProduct none t id body nid).store.findFarm fid = some F' ∧ _
    rcases attachProduct_cases t id body nid with e | ⟨fid', F', p, hi, _, _, _, e⟩
    · rw [e]; exact ⟨F, hF, List.sublist_append_left _ _⟩
    · have hid : id = .oid fid := hr
      rw [hid] at hi
      cases hi
      rw [e, findFarm_pushProduct_eq]
      have hF' : ({ t with products := t.products ++ [p] } : Store).findFarm fid = some F := hF
      rw [hF']
      exact ⟨_, rfl, List.Sublist.refl _⟩
  | detachAndDeleteProduct id =>
    show ∃ F', (detachAndDeleteProduct none t id).store.findFarm fid = some F' ∧ _
    rcases detachAndDeleteProduct_cases t id with e | ⟨pid, P, _, _, ⟨_, e⟩ | ⟨g, _, e⟩⟩
    · rw [e]; exact ⟨F, hF, List.sublist_append_left _ _⟩
    · rw [e, findFarm_deleteProduct]; exact ⟨F, hF, List.sublist_append_left _ _⟩
    · rw [e, findFarm_deleteProduct]
      by_cases hg : g = fid
      · subst hg
        rw [findFarm_pullProduct_eq, hF]
        exact ⟨_, rfl, (List.filter_sublist _).trans (List.sublist_append_left _ _)⟩
      · rw [findFarm_pullProduct_ne _ _ hg]
        exact ⟨F, hF, List.sublist_append_left _ _⟩
  | createFarm _ _ => exact absurd hr (by simp [Request.attachesOrDeletes])
  | createStandaloneProduct _ _ => exact absurd hr (by simp [Request.attachesOrDeletes])
  | updateProduct _ _ => exact absurd hr (by simp [Request.attachesOrDeletes])
  | deleteFarmProduct id productId =>
    show ∃ F', (deleteFarmProduct none t id productId).store.findFarm fid = some F' ∧ _
    rcases deleteFarmProduct_cases t id productId with
      e | ⟨pid, P, _, _, ⟨_, e⟩ | ⟨g, _, e⟩⟩
    · rw [e]; exact ⟨F, hF, List.sublist_append_left _ _⟩
    · rw [e, findFarm_deleteProduct]; exact ⟨F, hF, List.sublist_append_left _ _⟩
    · rw [e, findFarm_deleteProduct]
      by_cases hg : g = fid
      · subst hg
        rw [findFarm_pullProduct_eq, hF]
        exact ⟨_, rfl, (List.filter_sublist _).trans (List.sublist_append_left _ _)⟩
      · rw [findFarm_pullProduct_ne _ _ hg]
        exact ⟨F, hF, List.sublist_append_left _ _⟩
  | deleteFarmCascade _ => exact absurd hr (by simp [Request.attachesOrDeletes])

theorem attachedIds_cons (r : Request) (rs : List Request) :
    attachedIds (r :: rs) = attachedIds [r] ++ attachedIds rs := by
  cases r <;> rfl

theorem run_sublist (fid : ObjectId) (rs : List Request) :
    ∀ (s : Store) (F : Farm), (∀ r ∈ rs, r.attachesOrDeletes fid) →
      s.findFarm fid = some F →
      ∃ F', (run s rs).findFarm fid = some F' ∧
        F'.products.Sublist (F.products ++ attachedIds rs) := by
  induction rs with
  | nil =>
    intro s F _ hF
    exact ⟨F, hF, List.sublist_append_left _ _⟩
  | cons r rs ih =>
    intro s F hrs hF
    obtain ⟨F1, hF1, hsub1⟩ :=
      list_step_sublist s fid r F (hrs r (List.mem_cons_self _ _)) hF
    obtain ⟨F2, hF2, hsub2⟩ :=
      ih (handle none s r).store F1 (fun r' hr' => hrs r' (List.mem_cons_of_mem _ hr')) hF1
    refine ⟨F2, hF2, hsub2.trans ?_⟩
    rw [attachedIds_cons, ← List.append_assoc]
    exact hsub1.append (List.Sublist.refl _)

/-- C17, as amended. For every store with a stored Farm `fid` and every
sequence of attachProduct requests on that Farm and product deletions by
either route (`DELETE /products/:id`,
`DELETE /farms/:id/products/:productId`), the `products` of the Farm
afterwards is a sublist of its old `products` followed by the identifiers of
the attached Products in the order of their creation: no entry changes place.
When identifiers are unique, the list was, before the sequence, the list of
the stored Products that reference the Farm in the order of their creation,
and each `DELETE /farms/:id/products/:productId` of the sequence names in its
URL the farm the product references, the list is so afterwards, and it has no
duplicate. In every store each such request leaves the list as it was, or
appends one entry at its end, or removes the entries equal to one identifier
and keeps the others in place. -/
theorem products_in_creation_order (s : Store) (fid : ObjectId) (rs : List Request)
    (hrs : ∀ r ∈ rs, r.attachesOrDeletes fid) :
    (∀ F, s.findFarm fid = some F →
        ∃ F', (run s rs).findFarm fid = some F' ∧
          F'.products.Sublist (F.products ++ attachedIds rs)) ∧
      (s.WF → OrderedAt s fid → ownerAddressed s rs →
        OrderedAt (run s rs) fid ∧
          ∀ F, (run s rs).findFarm fid = some F → F.products.Nodup) ∧
      (∀ (t : Store) (r : Request) (F : Farm), r.attachesOrDeletes fid →
        t.findFarm fid = some F →
        ∃ F', (handle none t r).store.findFarm fid = some F' ∧
          (F'.products = F.products ∨ (∃ nid, F'.products = F.products ++ [nid]) ∨
            ∃ pid, F'.products = F.products.filter (fun x => x != pid))) := by
  refine ⟨fun F hF => run_sublist fid rs s F hrs hF, ?_,
    fun t r F hr hF => list_step t fid r F hr hF⟩
  intro hwf hord hk
  have h := run_orderedAt fid rs s hwf hord hrs hk
  refine ⟨h.2, ?_⟩
  intro F hF
  have h2 := h.2
  unfold OrderedAt at h2
  rw [hF] at h2
  have e : F.products =
      ((run s rs).products.filter (fun P => P.farm == some fid)).map Product._id := by
    simpa using h2
  rw [e]
  exact nodup_key_filter Product._id _ h.1.2

/-- C17, witness: on the demo store `Kale` is attached to farm 1, product 11
is deleted by `DELETE /products/11`, `Banana` is attached to farm 1, and
product 12 is deleted by `DELETE /farms/1/products/12`; the list of farm 1
goes from `[11, 12]` to `[13, 14]`. -/
theorem products_in_creation_order_witness :
    OrderedAt (run demoStore [.attachProduct (.oid 1) kale 13,
        .detachAndDeleteProduct (.oid 11), .attachProduct (.oid 1) banana 14,
        .deleteFarmProduct (.oid 1) (.oid 12)]) 1 ∧
      ((run demoStore [.attachProduct (.oid 1) kale 13,
        .detachAndDeleteProduct (.oid 11), .attachProduct (.oid 1) banana 14,
        .deleteFarmProduct (.oid 1) (.oid 12)]).findFarm 1).map
          Farm.products = some [13, 14] :=
  ⟨((products_in_creation_order demoStore 1 [.attachProduct (.oid 1) kale 13,
      .detachAndDeleteProduct (.oid 11), .attachProduct (.oid 1) banana 14,
      .deleteFarmProduct (.oid 1) (.oid 12)]
      (by decide)).2.1 (by decide) (by decide)
      ⟨trivial, trivial, trivial, by decide, trivial⟩).1,
    by decide⟩

/-- C17, counterexample. On the demo store, where farm 1 lists its Products
11 and 12 in the order of their creation, the product deletion
`DELETE /farms/2/products/11` removes Product 11 and leaves the list of farm 1
at `[11, 12]`: it lists an identifier that did not survive. And in the store
where farm 1 lists `[7, 11, 7]` for its Products 7 and 11, the list is not the
list of the surviving Products before any request, nor after `Kale` is
attached to farm 1, when it is `[7, 11, 7, 13]`. -/
theorem products_order_lost :
    demoStore.WF ∧ OrderedAt demoStore 1 ∧
      (Request.deleteFarmProduct (.oid 2) (.oid 11)).attachesOrDeletes 1 ∧
      (run demoStore [.deleteFarmProduct (.oid 2) (.oid 11)]).findProduct 11 = none ∧
      ((run demoStore [.deleteFarmProduct (.oid 2) (.oid 11)]).findFarm 1).map
        Farm.products = some [11, 12] ∧
      ¬ OrderedAt (run demoStore [.deleteFarmProduct (.oid 2) (.oid 11)]) 1 ∧
      ¬ OrderedAt (run doubledStore []) 1 ∧
      ((run doubledStore [.attachProduct (.oid 1) kale 13]).findFarm 1).map
        Farm.products = some [7, 11, 7, 13] ∧
      ¬ OrderedAt (run doubledStore [.attachProduct (.oid 1) kale 13]) 1 := by
  decide

/-- C18, as amended. The update `$pull` of an identifier `pid` on the stored
Farm `fid` removes every entry equal to `pid`: the new list is the old one
without those entries, in the same order; its length is the old length minus
the number of occurrences of `pid` (one less when `pid` occurs once), `pid` is
no longer in it, and every other identifier occurs as often as before. -/
theorem pull_removes_all (s : Store) (fid pid : ObjectId) (F : Farm)
    (hF : s.findFarm fid = some F) :
    ∃ F', (Farm.pullProduct s fid pid).findFarm fid = some F' ∧
      F'.products = F.products.filter (fun x => x != pid) ∧
      F'.products.Sublist F.products ∧
      F'.products.length + F.products.count pid = F.products.length ∧
      (F.products.count pid = 1 → F'.products.length + 1 = F.products.length) ∧
      pid ∉ F'.products ∧
      (∀ x, x ≠ pid → F'.products.count x = F.products.count x) := by
  refine ⟨_, by rw [findFarm_pullProduct_eq, hF]; rfl, rfl, List.filter_sublist _, ?_, ?_,
    ?_, ?_⟩
  · have := length_filter_split (fun x => x == pid) F.products
    rw [List.count_eq_countP, List.countP_eq_length_filter]
    exact this.symm
  · intro h1
    have := length_filter_split (fun x => x == pid) F.products
    rw [List.count_eq_countP, List.countP_eq_length_filter] at h1
    show (F.products.filter (fun x => !(x == pid))).length + 1 = _
    omega
  · show pid ∉ F.products.filter (fun x => x != pid)
    simp
  · intro x hx
    show (F.products.filter (fun x => x != pid)).count x = _
    exact List.count_filter (by simpa using hx)

/-- C18, witness: the pull of 11 on farm 1 of the demo store. -/
theorem pull_removes_all_witness :
    ∃ F', (Farm.pullProduct demoStore 1 11).findFarm 1 = some F' ∧
      F'.products = sunnyValleyFarm.products.filter (fun x => x != 11) ∧
      F'.products.Sublist sunnyValleyFarm.products ∧
      F'.products.length + sunnyValleyFarm.products.count 11 =
        sunnyValleyFarm.products.length ∧
      (sunnyValleyFarm.products.count 11 = 1 →
        F'.products.length + 1 = sunnyValleyFarm.products.length) ∧
      11 ∉ F'.products ∧
      (∀ x, x ≠ 11 → F'.products.count x = sunnyValleyFarm.products.count x) :=
  pull_removes_all demoStore 1 11 sunnyValleyFarm (by decide)

/-- C18, counterexample. Farm 1 lists the identifier 7 twice among its three
entries; after `DELETE /products/7` its list has one entry: the length went
down by two. -/
theorem pull_removes_two_entries :
    (doubledStore.findFarm 1).map Farm.products = some [7, 11, 7] ∧
      ((Farm.pullProduct doubledStore 1 7).findFarm 1).map Farm.products = some [11] ∧
      ((detachAndDeleteProduct none doubledStore (.oid 7)).store.findFarm 1).map
        Farm.products = some [11] := by
  decide

/-! ## The error middleware -/

theorem entryMessages_eq_none (es : List (String × Option FieldError)) :
    entryMessages es = none ↔ ∃ e ∈ es, e.2 = none := by
  induction es with
  | nil => simp [entryMessages]
  | cons x xs ih =>
    obtain ⟨k, v⟩ := x
    cases v with
    | none => simp [entryMessages]
    | some fe => simp [entryMessages, ih]

theorem entryMessages_of_all (es : List (String × Option FieldError))
    (h : ∀ e ∈ es, e.2 ≠ none) :
    entryMessages es = some (es.map fun e => e.2.bind FieldError.message) := by
  induction es with
  | nil => simp [entryMessages]
  | cons x xs ih =>
    obtain ⟨k, v⟩ := x
    cases v with
    | none => exact absurd rfl (h (k, none) (List.mem_cons_self _ _))
    | some fe =>
      simp [entryMessages, ih fun e he => h e (List.mem_cons_of_mem _ he)]

/-- The expression `Object.values(err.errors).map(e => e.message)` raises
exactly when `err.errors` is missing or has an entry that is `null` or
`undefined`. -/
theorem errorMessages_eq_none (errors : Option (List (String × Option FieldError))) :
    errorMessages errors = none ↔
      errors = none ∨ ∃ es, errors = some es ∧ ∃ e ∈ es, e.2 = none := by
  cases errors with
  | none => simp [errorMessages]
  | some es => simp [errorMessages, entryMessages_eq_none]

/-- The status mapping of `errorHandler`, in priority order. An error named
`ValidationError` whose `errors` is present with every entry an object is
answered with status 400, error `Validation Error` and the messages of the
entries in order as details; when `errors` is missing or has a `null` or
`undefined` entry the handler raises and sends nothing. Otherwise an error
named `CastError` is answered with status 400 and error `Invalid ID format`.
Otherwise an error with code 11000 that carries `keyValue` is answered with
status 400 and the first key of `keyValue` followed by ` already exists` (the
text `undefined` standing for the key when there is none); without `keyValue`
the handler raises. Otherwise the answer is status 500 with error
`Internal Server Error`. The status is 500 exactly when none of the three
conditions holds. -/
theorem errorHandler_mapping (env : Option String) (err : ErrorObj) :
    (err.name = some "ValidationError" → ∀ es, err.errors = some es →
        (∀ e ∈ es, e.2 ≠ none) →
        errorHandler env err =
          some ⟨400, ⟨"Validation Error",
            some (es.map fun e => e.2.bind FieldError.message), none⟩⟩) ∧
      (err.name = some "ValidationError" →
        (err.errors = none ∨ ∃ es, err.errors = some es ∧ ∃ e ∈ es, e.2 = none) →
        errorHandler env err = none) ∧
      (err.name = some "CastError" →
        errorHandler env err = some ⟨400, ⟨"Invalid ID format", none, none⟩⟩) ∧
      (err.name ≠ some "ValidationError" → err.name ≠ some "CastError" →
        err.code = some 11000 →
        (∀ k v rest, err.keyValue = some ((k, v) :: rest) →
          errorHandler env err = some ⟨400, ⟨k ++ " already exists", none, none⟩⟩) ∧
        (err.keyValue = some [] →
          errorHandler env err = some ⟨400, ⟨"undefined already exists", none, none⟩⟩) ∧
        (err.keyValue = none → errorHandler env err = none)) ∧
      (err.name ≠ some "ValidationError" → err.name ≠ some "CastError" →
        err.code ≠ some 11000 →
        ∃ m, errorHandler env err = some ⟨500, ⟨"Internal Server Error", none, m⟩⟩) ∧
      ((errorHandler env err).map JsonResponse.status = some 500 ↔
        (err.name ≠ some "ValidationError" ∧ err.name ≠ some "CastError" ∧
          err.code ≠ some 11000)) := by
  refine ⟨?_, ?_, ?_, ?_, ?_, ?_⟩
  · intro hn es he hall
    simp [errorHandler, hn, he, errorMessages, entryMessages_of_all es hall]
  · intro hn he
    simp [errorHandler, hn, (errorMessages_eq_none err.errors).2 he]
  · intro hn
    simp [errorHandler, hn]
  · intro h1 h2 hc
    refine ⟨?_, ?_, ?_⟩
    · intro k v rest hk
      simp [errorHandler, h1, h2, hc, hk]
    · intro hk
      simp [errorHandler, h1, h2, hc, hk]
    · intro hk
      simp [errorHandler, h1, h2, hc, hk]
  · intro h1 h2 hc
    exact ⟨if env = some "development" then err.message else some "Something went wrong",
      by simp [errorHandler, h1, h2, hc]⟩
  · unfold errorHandler
    by_cases h1 : err.name = some "ValidationError"
    · cases he : errorMessages err.errors <;> simp [h1, he]
    · by_cases h2 : err.name = some "CastError"
      · simp [h1, h2]
      · by_cases hc : err.code = some 11000
        · cases hk : err.keyValue <;> simp [h1, h2, hc, hk]
        · simp [h1, h2, hc]

/-- A Mongoose validation error with two entries is answered with status 400
and the two messages in order. -/
theorem errorHandler_mapping_two_entries :
    errorHandler none twoFieldError =
      some ⟨400, ⟨"Validation Error",
        some [some "Farm must have a name!", some "Email is required"], none⟩⟩ :=
  (errorHandler_mapping none twoFieldError).1 rfl _ rfl (by decide)

/-- C19, the code at the failing input. The error object
`{name: 'MongoServerError', code: 11000, message: 'dup'}` has the
duplicate-key code, is named neither `ValidationError` nor `CastError`, and
carries no `keyValue`: `errorHandler` raises on it and sends no response, so
no status 400 either. The same holds of an error named `ValidationError`
that carries no `errors`, and of one whose `errors` has a `null` entry. -/
theorem errorHandler_raises :
    bareDuplicateError.code = some 11000 ∧
      bareDuplicateError.name ≠ some "ValidationError" ∧
      bareDuplicateError.name ≠ some "CastError" ∧
      errorHandler none bareDuplicateError = none ∧
      (errorHandler none bareDuplicateError).map JsonResponse.status ≠ some 400 ∧
      bareValidationError.name = some "ValidationError" ∧
      errorHandler none bareValidationError = none ∧
      (errorHandler none bareValidationError).map JsonResponse.status ≠ some 400 ∧
      errorHandler none nullEntryError = none := by
  decide

/-! ## The input helper -/

theorem mem_replaceAllChars {c d : Char} {r l : List Char}
    (h : d ∈ replaceAllChars c r l) : d ∈ r ∨ (d ∈ l ∧ d ≠ c) := by
  induction l with
  | nil => simp [replaceAllChars] at h
  | cons x xs ih =>
    unfold replaceAllChars at h
    rcases List.mem_append.1 h with h1 | h1
    · by_cases hx : x = c
      · rw [if_pos hx] at h1
        exact Or.inl h1
      · rw [if_neg hx] at h1
        have hd : d = x := by simpa using h1
        exact Or.inr ⟨by rw [hd]; exact List.mem_cons_self _ _, by rw [hd]; exact hx⟩
    · rcases ih h1 with h2 | ⟨h2, h3⟩
      · exact Or.inl h2
      · exact Or.inr ⟨List.mem_cons_of_mem _ h2, h3⟩

theorem replaceAllChars_of_not_mem {c : Char} {r l : List Char} (h : c ∉ l) :
    replaceAllChars c r l = l := by
  induction l with
  | nil => rfl
  | cons x xs ih =>
    unfold replaceAllChars
    have hx : x ≠ c := fun e => h (e ▸ List.mem_cons_self _ _)
    rw [if_neg hx, ih fun hc => h (List.mem_cons_of_mem _ hc)]
    rfl

theorem replaceAll_of_not_mem {c : Char} {r s : String} (h : c ∉ s.data) :
    replaceAll c r s = s := by
  unfold replaceAll
  rw [replaceAllChars_of_not_mem h]

/-- C20. For every string, the result of `sanitizeInput` is a string that
contains none of the characters `<`, `>`, the double quote, the apostrophe and
`/`; a value that is not a string is returned unchanged; and a string that
contains none of the five characters is returned unchanged. -/
theorem sanitizeInput_clean (v : JsValue) :
    (∀ s, v = .string s →
        ∃ out, sanitizeInput v = .string out ∧ ∀ c ∈ markupChars, c ∉ out.data) ∧
      ((∀ s, v ≠ .string s) → sanitizeInput v = v) ∧
      (∀ s, v = .string s → (∀ c ∈ markupChars, c ∉ s.data) → sanitizeInput v = v) := by
  refine ⟨?_, ?_, ?_⟩
  · rintro s rfl
    refine ⟨_, rfl, ?_⟩
    intro c hc hmem
    have k1 : ∀ d ∈ markupChars, d ∉ "&#x2F;".data := by decide
    have k2 : ∀ d ∈ markupChars, d ∉ "&#x27;".data := by decide
    have k3 : ∀ d ∈ markupChars, d ∉ "&quot;".data := by decide
    have k4 : ∀ d ∈ markupChars, d ∉ "&gt;".data := by decide
    have k5 : ∀ d ∈ markupChars, d ∉ "&lt;".data := by decide
    rcases mem_replaceAllChars hmem with h | ⟨h, n1⟩
    · exact k1 c hc h
    rcases mem_replaceAllChars h with h | ⟨h, n2⟩
    · exact k2 c hc h
    rcases mem_replaceAllChars h with h | ⟨h, n3⟩
    · exact k3 c hc h
    rcases mem_replaceAllChars h with h | ⟨h, n4⟩
    · exact k4 c hc h
    rcases mem_replaceAllChars h with h | ⟨_, n5⟩
    · exact k5 c hc h
    simp only [markupChars, List.mem_cons, List.mem_singleton, List.not_mem_nil,
      or_false] at hc
    rcases hc with e | e | e | e | e
    · exact n5 e
    · exact n4 e
    · exact n3 e
    · exact n2 e
    · exact n1 e
  · intro h
    cases v with
    | string s => exact absurd rfl (h s)
    | number n => rfl
    | boolean b => rfl
    | null => rfl
    | undefined => rfl
  · rintro s rfl h
    have m1 : '<' ∉ s.data := h _ (by decide)
    have m2 : '>' ∉ s.data := h _ (by decide)
    have m3 : quoteChar ∉ s.data := h _ (by decide)
    have m4 : aposChar ∉ s.data := h _ (by decide)
    have m5 : '/' ∉ s.data := h _ (by decide)
    show JsValue.string _ = JsValue.string s
    rw [replaceAll_of_not_mem m1, replaceAll_of_not_mem m2, replaceAll_of_not_mem m3,
      replaceAll_of_not_mem m4, replaceAll_of_not_mem m5]

/-! ## Pagination -/

theorem floor_le_roundHalfEven (x : ℚ) : ⌊x⌋ ≤ roundHalfEven x := by
  unfold roundHalfEven
  split_ifs <;> omega

theorem roundHalfEven_le_ceil (x : ℚ) : roundHalfEven x ≤ ⌈x⌉ := by
  unfold roundHalfEven
  have h0 : ⌊x⌋ ≤ ⌈x⌉ := Int.floor_le_ceil x
  split_ifs with h1 h2 h3
  · exact h0
  · have : (⌊x⌋ : ℚ) < x := by linarith
    have := Int.lt_ceil.2 this
    omega
  · exact h0
  · have hx : x - ⌊x⌋ = 1 / 2 := le_antisymm (not_lt.1 h2) (not_lt.1 h1)
    have : (⌊x⌋ : ℚ) < x := by linarith
    have := Int.lt_ceil.2 this
    omega

theorem sub_half_le_roundHalfEven (x : ℚ) : x - 1 / 2 ≤ roundHalfEven x := by
  unfold roundHalfEven
  have hf := Int.floor_le x
  have hl := Int.lt_floor_add_one x
  split_ifs with h1 h2 h3
  · linarith
  · push_cast; linarith
  · linarith
  · push_cast; linarith

theorem roundHalfEven_intCast (n : Int) : roundHalfEven (n : ℚ) = n := by
  unfold roundHalfEven
  simp

theorem roundHalfEven_of_near (x : ℚ) (m : Int) (h1 : (m : ℚ) - 1 / 2 < x)
    (h2 : x < m + 1 / 2) : roundHalfEven x = m := by
  unfold roundHalfEven
  by_cases h : (m : ℚ) ≤ x
  · have hf : ⌊x⌋ = m := Int.floor_eq_iff.2 ⟨h, by linarith⟩
    rw [hf, if_pos (by linarith)]
  · have hf : ⌊x⌋ = m - 1 := Int.floor_eq_iff.2 ⟨by push_cast; linarith, by push_cast; linarith⟩
    rw [hf, if_neg (by push_cast; linarith), if_pos (by push_cast; linarith)]
    omega

theorem roundHalfEven_tie (x : ℚ) (m : Int) (h1 : x = m + 1 / 2) (h2 : m % 2 = 0) :
    roundHalfEven x = m := by
  unfold roundHalfEven
  have hf : ⌊x⌋ = m := Int.floor_eq_iff.2 ⟨by linarith, by linarith⟩
  rw [hf, if_neg (by linarith), if_neg (by linarith), if_pos h2]

theorem log_two_eq {q : ℚ} {x : Int} (h1 : (2 : ℚ) ^ x ≤ q) (h2 : q < (2 : ℚ) ^ (x + 1)) :
    Int.log 2 q = x := by
  have hq : 0 < q := lt_of_lt_of_le (by positivity) h1
  have a := (Int.zpow_le_iff_le_log (b := 2) (by norm_num) hq).1 (by exact_mod_cast h1)
  have b := (Int.lt_zpow_iff_log_lt (b := 2) (by norm_num) hq).1 (by exact_mod_cast h2)
  omega

theorem ulpExponent_eq {q : ℚ} {x : Int} (h1 : (2 : ℚ) ^ (x + 52) ≤ |q|)
    (h2 : |q| < (2 : ℚ) ^ (x + 53)) (hx : -1074 ≤ x) : ulpExponent q = x := by
  unfold ulpExponent
  rw [log_two_eq h1 (by rw [show x + 52 + 1 = x + 53 by ring]; exact h2)]
  omega

theorem roundDouble_zero : roundDouble 0 = 0 := by
  simp [roundDouble, roundHalfEven]

theorem roundDouble_of_nonpos_exp (n : Int) (h : ulpExponent n ≤ 0) : roundDouble n = n := by
  obtain ⟨k, hk⟩ : ∃ k : ℕ, ulpExponent n = -(k : ℤ) := ⟨(-ulpExponent n).toNat, by omega⟩
  unfold roundDouble
  rw [hk, zpow_neg, zpow_natCast, div_inv_eq_mul]
  have e : (n : ℚ) * 2 ^ k = ((n * 2 ^ k : ℤ) : ℚ) := by push_cast; ring
  rw [e, roundHalfEven_intCast]
  push_cast
  field_simp

theorem roundDouble_intCast (n : Int) (h : |n| ≤ 2 ^ 53) : roundDouble n = n := by
  rcases eq_or_lt_of_le h with h1 | h1
  · have hn : n = 2 ^ 53 ∨ n = -2 ^ 53 := by
      rcases abs_cases n with ⟨e, _⟩ | ⟨e, _⟩ <;> omega
    rcases hn with rfl | rfl
    · have he : ulpExponent ((2 ^ 53 : ℤ) : ℚ) = 1 := by
        apply ulpExponent_eq <;> norm_num [abs_of_pos]
      unfold roundDouble
      rw [he, roundHalfEven_of_near _ 4503599627370496 (by norm_num) (by norm_num)]
      norm_num
    · have he : ulpExponent ((-2 ^ 53 : ℤ) : ℚ) = 1 := by
        apply ulpExponent_eq <;> norm_num [abs_of_pos]
      unfold roundDouble
      rw [he, roundHalfEven_of_near _ (-4503599627370496) (by norm_num) (by norm_num)]
      norm_num
  · by_cases h0 : n = 0
    · subst h0
      simpa using roundDouble_zero
    · apply roundDouble_of_nonpos_exp
      have hpos : (0 : ℚ) < |(n : ℚ)| := abs_pos.2 (by exact_mod_cast h0)
      have hlt : |(n : ℚ)| < ((2 : ℕ) : ℚ) ^ (53 : ℤ) := by
        have : ((|n| : ℤ) : ℚ) < ((2 ^ 53 : ℤ) : ℚ) := by exact_mod_cast h1
        rw [Int.cast_abs] at this
        norm_num at this ⊢
        exact this
      have := (Int.lt_zpow_iff_log_lt (b := 2) (by norm_num) hpos).1 hlt
      unfold ulpExponent
      omega


theorem ceil_roundDouble_div (a b : Int) (ha : 0 ≤ a) (ha2 : a < 2 ^ 53) (hb : 0 < b)
    (hb2 : b < 2 ^ 53) : ⌈roundDouble ((a : ℚ) / b)⌉ = ⌈(a : ℚ) / b⌉ := by
  rcases eq_or_lt_of_le ha with h0 | hpos
  · subst h0
    simp [roundDouble_zero]
  · have hbq : (0 : ℚ) < b := by exact_mod_cast hb
    have haq : (0 : ℚ) < a := by exact_mod_cast hpos
    have hb1 : (1 : ℚ) ≤ b := by exact_mod_cast hb
    have ha2q : (a : ℚ) < 2 ^ 53 := by exact_mod_cast ha2
    have hb2q : (b : ℚ) < 2 ^ 53 := by exact_mod_cast hb2
    generalize hq : (a : ℚ) / b = q
    have hqpos : 0 < q := by rw [← hq]; exact div_pos haq hbq
    have hqb : q * b = a := by rw [← hq]; field_simp
    have hq_lt : q < ((2 : ℕ) : ℚ) ^ (53 : ℤ) := by
      have : q ≤ a := by nlinarith
      norm_num
      linarith
    have hq_ge : ((2 : ℕ) : ℚ) ^ (-53 : ℤ) ≤ q := by
      have h1 : (1 : ℚ) ≤ a := by exact_mod_cast hpos
      have h2 : (2 : ℚ) ^ (-53 : ℤ) * 2 ^ 53 = 1 := by norm_num
      have h3 : (0 : ℚ) < (2 : ℚ) ^ (-53 : ℤ) := by positivity
      norm_num at h2 h3 ⊢
      nlinarith
    have hL1 : ((2 : ℕ) : ℚ) ^ Int.log 2 q ≤ q := Int.zpow_log_le_self (by norm_num) hqpos
    have hLle : Int.log 2 q < 53 := (Int.lt_zpow_iff_log_lt (b := 2) (by norm_num) hqpos).1 hq_lt
    have hLge : -53 ≤ Int.log 2 q :=
      (Int.zpow_le_iff_le_log (b := 2) (by norm_num) hqpos).1 hq_ge
    have he : ulpExponent q = Int.log 2 q - 52 := by
      unfold ulpExponent
      rw [abs_of_pos hqpos]
      omega
    obtain ⟨k, hk⟩ : ∃ k : ℕ, Int.log 2 q - 52 = -(k : ℤ) :=
      ⟨(52 - Int.log 2 q).toNat, by omega⟩
    have hLk : Int.log 2 q = 52 - (k : ℤ) := by omega
    unfold roundDouble
    rw [he, hk, zpow_neg, zpow_natCast, div_inv_eq_mul]
    have hN : (0 : ℚ) < 2 ^ k := by positivity
    -- 2 ^ L * 2 ^ k = 2 ^ 52
    have hLN : ((2 : ℕ) : ℚ) ^ Int.log 2 q * 2 ^ k = 2 ^ 52 := by
      rw [hLk, zpow_sub₀ (by norm_num), zpow_natCast]
      norm_num
    have hbN : (b : ℚ) < 2 * 2 ^ k := by
      -- 2 ^ L * b ≤ q * b = a < 2 ^ 53 = 2 ^ L * (2 * 2 ^ k)
      have hLpos : (0 : ℚ) < ((2 : ℕ) : ℚ) ^ Int.log 2 q := by positivity
      have h1 : ((2 : ℕ) : ℚ) ^ Int.log 2 q * b ≤ a := by
        rw [← hqb]
        exact mul_le_mul_of_nonneg_right hL1 (le_of_lt hbq)
      have h2 : ((2 : ℕ) : ℚ) ^ Int.log 2 q * b <
          ((2 : ℕ) : ℚ) ^ Int.log 2 q * (2 * 2 ^ k) := by
        calc ((2 : ℕ) : ℚ) ^ Int.log 2 q * b ≤ a := h1
          _ < 2 ^ 53 := ha2q
          _ = ((2 : ℕ) : ℚ) ^ Int.log 2 q * (2 * 2 ^ k) := by
            rw [mul_comm 2, ← mul_assoc, hLN]
            norm_num
      exact lt_of_mul_lt_mul_left h2 (le_of_lt hLpos)
    rw [Int.ceil_eq_iff]
    constructor
    · -- the lower bound
      have hR := sub_half_le_roundHalfEven (q * 2 ^ k)
      have h1 : ((⌈q⌉ - 1 : ℤ) : ℚ) < q := by
        have := Int.ceil_lt_add_one q
        push_cast
        linarith
      have h2 : ((b * (⌈q⌉ - 1) : ℤ) : ℚ) < a := by
        rw [← hqb]
        push_cast
        push_cast at h1
        nlinarith
      have h3 : b * (⌈q⌉ - 1) < a := by exact_mod_cast h2
      have h4 : b * (⌈q⌉ - 1) + 1 ≤ a := by omega
      have h5 : (b : ℚ) * (⌈q⌉ - 1) + 1 ≤ q * b := by
        rw [hqb]
        exact_mod_cast h4
      -- (q - (⌈q⌉ - 1)) * b ≥ 1, so (q - (⌈q⌉ - 1)) * 2 ^ k > 1 / 2
      have h6 : (1 : ℚ) / 2 < (q - (⌈q⌉ - 1)) * 2 ^ k := by
        have hd : 0 < q - ((⌈q⌉ : ℚ) - 1) := by push_cast at h1; linarith
        have h7 : 1 ≤ (q - ((⌈q⌉ : ℚ) - 1)) * b := by linarith
        have h8 : (q - ((⌈q⌉ : ℚ) - 1)) * b < (q - ((⌈q⌉ : ℚ) - 1)) * (2 * 2 ^ k) :=
          mul_lt_mul_of_pos_left hbN hd
        linarith
      rw [lt_mul_inv_iff₀ hN]
      linarith
    · -- the upper bound
      have hR := roundHalfEven_le_ceil (q * 2 ^ k)
      have h1 : ⌈q * 2 ^ k⌉ ≤ ⌈q⌉ * 2 ^ k := by
        rw [Int.ceil_le]
        push_cast
        exact mul_le_mul_of_nonneg_right (Int.le_ceil q) (le_of_lt hN)
      have h2 : ((roundHalfEven (q * 2 ^ k) : ℤ) : ℚ) ≤ ((⌈q⌉ * 2 ^ k : ℤ) : ℚ) := by
        exact_mod_cast le_trans hR h1
      push_cast at h2
      rw [mul_inv_le_iff₀ hN]
      exact h2

theorem ceilDiv_of_pos (total limit : Int) (hl : 0 < limit) :
    ceilDiv total limit = .finite ⌈roundDouble ((total : ℚ) / (limit : ℚ))⌉ := by
  unfold ceilDiv
  rw [if_neg (by omega)]

theorem ceilDiv_of_safe (total limit : Int) (hl : 0 < limit) (hl2 : limit < 2 ^ 53)
    (ht : 0 ≤ total) (ht2 : total < 2 ^ 53) :
    ceilDiv total limit = .finite ⌈(total : ℚ) / (limit : ℚ)⌉ := by
  rw [ceilDiv_of_pos total limit hl, ceil_roundDouble_div total limit ht ht2 hl hl2]

theorem ceil_quotient_le (total limit m : Int) (hl : 0 < limit) :
    ⌈(total : ℚ) / (limit : ℚ)⌉ ≤ m ↔ total ≤ m * limit := by
  have hl' : (0 : ℚ) < (limit : ℚ) := by exact_mod_cast hl
  rw [Int.ceil_le, div_le_iff₀ hl']
  constructor
  · intro h
    exact_mod_cast h
  · intro h
    exact_mod_cast h

theorem lt_ceil_quotient (total limit m : Int) (hl : 0 < limit) :
    m < ⌈(total : ℚ) / (limit : ℚ)⌉ ↔ m * limit < total := by
  have h := ceil_quotient_le total limit m hl
  constructor
  · intro h1
    by_contra h2
    exact absurd (h.2 (by omega)) (by omega)
  · intro h1
    by_contra h2
    have := h.1 (by omega)
    omega

/-- C23, as amended. For all integers `limit > 0` and `total ≥ 0` that are at
most `2 ^ 53 - 1` (the safe integers of JavaScript), the `totalPages` of
`getPaginationData` is the least non-negative integer `n` with
`n * limit ≥ total`; it is 0 exactly when `total` is 0, and for `total > 0`
it satisfies `(n - 1) * limit < total ≤ n * limit`. -/
theorem totalPages_is_ceiling (page limit total : Int) (hl : 0 < limit)
    (hl2 : limit < 2 ^ 53) (ht : 0 ≤ total) (ht2 : total < 2 ^ 53) :
    ∃ n, (getPaginationData page limit total).totalPages = .finite n ∧
      0 ≤ n ∧ total ≤ n * limit ∧
      (∀ m, 0 ≤ m → total ≤ m * limit → n ≤ m) ∧
      (n = 0 ↔ total = 0) ∧
      (0 < total → (n - 1) * limit < total ∧ total ≤ n * limit) := by
  refine ⟨⌈(total : ℚ) / (limit : ℚ)⌉, ceilDiv_of_safe total limit hl hl2 ht ht2,
    ?_, ?_, ?_, ?_, ?_⟩
  · by_contra h
    have h1 : ⌈(total : ℚ) / (limit : ℚ)⌉ ≤ -1 := by omega
    have := (ceil_quotient_le total limit (-1) hl).1 h1
    omega
  · exact (ceil_quotient_le total limit _ hl).1 (le_refl _)
  · intro m _ hm
    exact (ceil_quotient_le total limit m hl).2 hm
  · constructor
    · intro h0
      have := (ceil_quotient_le total limit 0 hl).1 (by omega)
      omega
    · intro h0
      have h1 := (ceil_quotient_le total limit 0 hl).2 (by omega)
      by_contra h
      have h2 : ⌈(total : ℚ) / (limit : ℚ)⌉ ≤ -1 := by omega
      have := (ceil_quotient_le total limit (-1) hl).1 h2
      omega
  · intro _
    refine ⟨?_, (ceil_quotient_le total limit _ hl).1 (le_refl _)⟩
    exact (lt_ceil_quotient total limit _ hl).1 (by omega)

/-- C23, witness: 35 items on pages of 10 make 4 pages. -/
theorem totalPages_is_ceiling_witness :
    ∃ n, (getPaginationData 2 10 35).totalPages = .finite n ∧
      0 ≤ n ∧ 35 ≤ n * 10 ∧
      (∀ m, 0 ≤ m → 35 ≤ m * 10 → n ≤ m) ∧
      (n = 0 ↔ (35 : Int) = 0) ∧
      ((0 : Int) < 35 → (n - 1) * 10 < 35 ∧ 35 ≤ n * 10) :=
  totalPages_is_ceiling 2 10 35 (by decide) (by decide) (by decide) (by decide)

/-- C23, counterexample. The integers 3 and 27021597764222984 are doubles.
For `limit` 3 and `total` 27021597764222984 the quotient is rounded to the
double 9007199254740994, which `totalPages` is: 3 times it is less than
`total`, so `totalPages` is not an `n` with `n * limit ≥ total`, let alone the
least one, which is 9007199254740995. -/
theorem totalPages_rounds_down :
    isDouble 3 ∧ isDouble 27021597764222984 ∧
      (getPaginationData 1 3 27021597764222984).totalPages = .finite 9007199254740994 ∧
      (9007199254740994 : Int) * 3 < 27021597764222984 ∧
      ⌈((27021597764222984 : Int) : ℚ) / ((3 : Int) : ℚ)⌉ = 9007199254740995 := by
  refine ⟨roundDouble_intCast 3 (by norm_num), ?_, ?_, by norm_num, ?_⟩
  · have he : ulpExponent ((27021597764222984 : Int) : ℚ) = 2 := by
      apply ulpExponent_eq <;> norm_num [abs_of_pos]
    unfold isDouble roundDouble
    rw [he, roundHalfEven_of_near _ 6755399441055746 (by norm_num) (by norm_num)]
    norm_num
  · have he : ulpExponent (((27021597764222984 : Int) : ℚ) / ((3 : Int) : ℚ)) = 1 := by
      apply ulpExponent_eq <;> norm_num [abs_of_pos]
    show ceilDiv 27021597764222984 3 = _
    unfold ceilDiv roundDouble
    rw [if_neg (by norm_num), he,
      roundHalfEven_of_near _ 4503599627370497 (by norm_num) (by norm_num)]
    norm_num
  · rw [Int.ceil_eq_iff]
    norm_num

/-- C21, as amended. For all integers `page` of magnitude at most `2 ^ 53 - 1`
(the safe integers of JavaScript), `limit > 0` and `total ≥ 0`, the result of
`getPaginationData` echoes `page`, `limit` and `total`; `hasNext` is true
exactly when `page < totalPages` and `hasPrev` exactly when `page > 1`;
`nextPage` is `page + 1` when `hasNext` and null otherwise, `prevPage` is
`page - 1` when `hasPrev` and null otherwise; and when
`1 ≤ page ≤ totalPages`, every `nextPage` and `prevPage` that is not null lies
between 1 and `totalPages`. -/
theorem pagination_consistent (page limit total : Int) (hl : 0 < limit) (_ht : 0 ≤ total)
    (hp : |page| < 2 ^ 53) :
    ∃ n, (getPaginationData page limit total).totalPages = .finite n ∧
      (getPaginationData page limit total).currentPage = page ∧
      (getPaginationData page limit total).limit = limit ∧
      (getPaginationData page limit total).total = total ∧
      ((getPaginationData page limit total).hasNext = true ↔ page < n) ∧
      ((getPaginationData page limit total).hasPrev = true ↔ 1 < page) ∧
      ((getPaginationData page limit total).nextPage =
        if (getPaginationData page limit total).hasNext then some ((page : ℚ) + 1)
        else none) ∧
      ((getPaginationData page limit total).prevPage =
        if (getPaginationData page limit total).hasPrev then some ((page : ℚ) - 1)
        else none) ∧
      (1 ≤ page → page ≤ n →
        (∀ q, (getPaginationData page limit total).nextPage = some q →
          1 ≤ q ∧ q ≤ (n : ℚ)) ∧
        (∀ q, (getPaginationData page limit total).prevPage = some q →
          1 ≤ q ∧ q ≤ (n : ℚ))) := by
  have hc := ceilDiv_of_pos total limit hl
  have hp1 : |page + 1| ≤ 2 ^ 53 := by
    rcases abs_cases page with ⟨e, _⟩ | ⟨e, _⟩ <;>
      rcases abs_cases (page + 1) with ⟨e2, _⟩ | ⟨e2, _⟩ <;> omega
  have hp2 : |page - 1| ≤ 2 ^ 53 := by
    rcases abs_cases page with ⟨e, _⟩ | ⟨e, _⟩ <;>
      rcases abs_cases (page - 1) with ⟨e2, _⟩ | ⟨e2, _⟩ <;> omega
  have hnext : roundDouble ((page : ℚ) + 1) = (page : ℚ) + 1 := by
    have := roundDouble_intCast (page + 1) hp1
    push_cast at this
    exact this
  have hprev : roundDouble ((page : ℚ) - 1) = (page : ℚ) - 1 := by
    have := roundDouble_intCast (page - 1) hp2
    push_cast at this
    exact this
  have hnext2 : (getPaginationData page limit total).nextPage =
      if (ceilDiv total limit).above page then some ((page : ℚ) + 1) else none := by
    show (if (ceilDiv total limit).above page then some (roundDouble ((page : ℚ) + 1))
      else none) = _
    rw [hnext]
  have hprev2 : (getPaginationData page limit total).prevPage =
      if decide (1 < page) then some ((page : ℚ) - 1) else none := by
    show (if decide (1 < page) then some (roundDouble ((page : ℚ) - 1)) else none) = _
    rw [hprev]
  refine ⟨_, hc, rfl, rfl, rfl, ?_, ?_, hnext2, hprev2, ?_⟩
  · show (ceilDiv total limit).above page = true ↔ _
    rw [hc]
    simp [PageCount.above]
  · show decide (1 < page) = true ↔ _
    simp
  · intro h1 hn
    rw [hnext2, hprev2, hc]
    have h1q : (1 : ℚ) ≤ page := by exact_mod_cast h1
    have hnq : (page : ℚ) ≤ (⌈roundDouble ((total : ℚ) / (limit : ℚ))⌉ : ℤ) := by
      exact_mod_cast hn
    constructor
    · intro q hq
      by_cases hlt : page < ⌈roundDouble ((total : ℚ) / (limit : ℚ))⌉
      · simp only [PageCount.above, hlt, decide_True, if_true, Option.some.injEq] at hq
        have hlt2 : page + 1 ≤ ⌈roundDouble ((total : ℚ) / (limit : ℚ))⌉ := by omega
        have hlq : ((page + 1 : ℤ) : ℚ) ≤
            (⌈roundDouble ((total : ℚ) / (limit : ℚ))⌉ : ℤ) := by exact_mod_cast hlt2
        push_cast at hlq
        rw [← hq]
        exact ⟨by linarith, hlq⟩
      · simp [PageCount.above, hlt] at hq
    · intro q hq
      by_cases hlt : 1 < page
      · simp only [hlt, decide_True, if_true, Option.some.injEq] at hq
        have h2 : ((2 : ℤ) : ℚ) ≤ page := by exact_mod_cast (show (2 : ℤ) ≤ page by omega)
        push_cast at h2
        rw [← hq]
        exact ⟨by linarith, by linarith⟩
      · simp [hlt] at hq

/-- C21, witness: page 2 of 35 items on pages of 10. -/
theorem pagination_consistent_witness :
    ∃ n, (getPaginationData 2 10 35).totalPages = .finite n ∧
      (getPaginationData 2 10 35).currentPage = 2 ∧
      (getPaginationData 2 10 35).limit = 10 ∧
      (getPaginationData 2 10 35).total = 35 ∧
      ((getPaginationData 2 10 35).hasNext = true ↔ 2 < n) ∧
      ((getPaginationData 2 10 35).hasPrev = true ↔ (1 : Int) < 2) ∧
      ((getPaginationData 2 10 35).nextPage =
        if (getPaginationData 2 10 35).hasNext then some (((2 : Int) : ℚ) + 1) else none) ∧
      ((getPaginationData 2 10 35).prevPage =
        if (getPaginationData 2 10 35).hasPrev then some (((2 : Int) : ℚ) - 1) else none) ∧
      ((1 : Int) ≤ 2 → 2 ≤ n →
        (∀ q, (getPaginationData 2 10 35).nextPage = some q → 1 ≤ q ∧ q ≤ (n : ℚ)) ∧
        (∀ q, (getPaginationData 2 10 35).prevPage = some q → 1 ≤ q ∧ q ≤ (n : ℚ))) :=
  pagination_consistent 2 10 35 (by decide) (by decide) (by decide)

/-- C21, counterexample. The integers `2 ^ 53`, 1 and `2 ^ 54` are doubles.
On page `2 ^ 53` of `2 ^ 54` items with one item a page there is a next page,
and `nextPage` is `2 ^ 53`, the page itself, not `page + 1`: the double
addition rounds `2 ^ 53 + 1` to `2 ^ 53`. -/
theorem nextPage_not_successor :
    isDouble 9007199254740992 ∧ isDouble 1 ∧ isDouble 18014398509481984 ∧
      (getPaginationData 9007199254740992 1 18014398509481984).hasNext = true ∧
      (getPaginationData 9007199254740992 1 18014398509481984).nextPage =
        some 9007199254740992 ∧
      (getPaginationData 9007199254740992 1 18014398509481984).nextPage ≠
        some (((9007199254740992 : Int) : ℚ) + 1) := by
  have hd : isDouble 18014398509481984 := by
    have he : ulpExponent ((18014398509481984 : Int) : ℚ) = 2 := by
      apply ulpExponent_eq <;> norm_num [abs_of_pos]
    unfold isDouble roundDouble
    rw [he, roundHalfEven_of_near _ 4503599627370496 (by norm_num) (by norm_num)]
    norm_num
  have hc : ceilDiv 18014398509481984 1 = .finite 18014398509481984 := by
    unfold ceilDiv
    rw [if_neg (by norm_num)]
    have hq : ((18014398509481984 : Int) : ℚ) / ((1 : Int) : ℚ) =
        ((18014398509481984 : Int) : ℚ) := by norm_num
    rw [hq, show roundDouble ((18014398509481984 : Int) : ℚ) =
      ((18014398509481984 : Int) : ℚ) from hd]
    simp
  have hn : roundDouble (((9007199254740992 : Int) : ℚ) + 1) = 9007199254740992 := by
    have he : ulpExponent (((9007199254740992 : Int) : ℚ) + 1) = 1 := by
      apply ulpExponent_eq <;> norm_num [abs_of_pos]
    unfold roundDouble
    rw [he, roundHalfEven_tie _ 4503599627370496 (by norm_num) (by norm_num)]
    norm_num
  have hnext : (getPaginationData 9007199254740992 1 18014398509481984).nextPage =
      some 9007199254740992 := by
    show (if (ceilDiv 18014398509481984 1).above 9007199254740992 then
      some (roundDouble (((9007199254740992 : Int) : ℚ) + 1)) else none) = _
    rw [hc, hn]
    simp [PageCount.above]
  refine ⟨roundDouble_intCast _ (by norm_num), roundDouble_intCast 1 (by norm_num), hd,
    ?_, hnext, ?_⟩
  · show (ceilDiv 18014398509481984 1).above 9007199254740992 = true
    rw [hc]
    simp [PageCount.above]
  · rw [hnext]
    norm_num

/-! ## The frame of the cascading delete -/

/-- C22. For every store and every stored Farm `F`, `DELETE /farms/:id` with
`F`'s id leaves every other Farm document in place and unchanged and adds none,
and leaves every Product whose `farm` is not `F`'s id in place and unchanged
and adds none. -/
theorem deleteFarmCascade_frame (s : Store) (fid : ObjectId) (F : Farm)
    (hF : s.findFarm fid = some F) :
    (∀ x, x ≠ fid →
        (deleteFarmCascade none s (.oid fid)).store.findFarm x = s.findFarm x) ∧
      (∀ G ∈ s.farms, G._id ≠ fid → G ∈ (deleteFarmCascade none s (.oid fid)).store.farms) ∧
      (∀ G ∈ (deleteFarmCascade none s (.oid fid)).store.farms, G ∈ s.farms) ∧
      (∀ x P, s.findProduct x = some P → P.farm ≠ some fid →
        (deleteFarmCascade none s (.oid fid)).store.findProduct x = some P) ∧
      (∀ P ∈ s.products, P.farm ≠ some fid →
        P ∈ (deleteFarmCascade none s (.oid fid)).store.products) ∧
      (∀ P ∈ (deleteFarmCascade none s (.oid fid)).store.products, P ∈ s.products) := by
  rw [deleteFarmCascade_run s fid F hF]
  refine ⟨?_, ?_, ?_, ?_, ?_, ?_⟩
  · intro x hx
    show (Farm.deleteById (Product.deleteMany s fid).2 fid).findFarm x = _
    rw [findFarm_deleteById_ne _ (Ne.symm hx), findFarm_deleteMany]
  · intro G hG hne
    show G ∈ s.farms.eraseP (fun F => F._id == fid)
    rw [List.mem_eraseP_of_neg (by simpa using hne)]
    exact hG
  · intro G hG
    exact List.mem_of_mem_eraseP hG
  · intro x P hP hne
    show (s.products.filter (fun P => !(P.farm == some fid))).find?
      (fun P => P._id == x) = some P
    exact find_filter_of_pos _ _ hP (by simpa using hne)
  · intro P hP hne
    exact List.mem_filter.2 ⟨hP, by simpa using hne⟩
  · intro P hP
    exact (List.mem_filter.1 hP).1

/-- C22, witness: deleting farm 1 of the demo store. -/
theorem deleteFarmCascade_frame_witness :
    (deleteFarmCascade none demoStore (.oid 1)).store.findFarm 2 = some greenMeadowsFarm ∧
      (deleteFarmCascade none demoStore (.oid 1)).store.findProduct 20 =
        demoStore.findProduct 20 :=
  have h := deleteFarmCascade_frame demoStore 1 sunnyValleyFarm (by decide)
  ⟨(h.1 2 (by decide)).trans (by decide),
    (h.2.2.2.1 20 ⟨20, "Banana", some 99, some "fruit", none⟩ (by decide) (by decide)).trans
      (by decide)⟩

/-! ## More on the input helper -/

theorem replaceAllChars_append (c : Char) (r l1 l2 : List Char) :
    replaceAllChars c r (l1 ++ l2) = replaceAllChars c r l1 ++ replaceAllChars c r l2 := by
  induction l1 with
  | nil => rfl
  | cons x xs ih =>
    show _ ++ replaceAllChars c r (xs ++ l2) = (_ ++ replaceAllChars c r xs) ++ _
    rw [ih, List.append_assoc]

theorem replaceAllChars_singleton (c : Char) (r : List Char) (x : Char) :
    replaceAllChars c r [x] = if x = c then r else [x] := by
  show (if x = c then r else [x]) ++ [] = _
  rw [List.append_nil]

theorem sanitized_clean (s : String) :
    ∀ c ∈ markupChars, c ∉ (replaceAll '/' "&#x2F;" (replaceAll aposChar "&#x27;"
      (replaceAll quoteChar "&quot;" (replaceAll '>' "&gt;"
        (replaceAll '<' "&lt;" s))))).data := by
  intro c hc hmem
  have k1 : ∀ d ∈ markupChars, d ∉ "&#x2F;".data := by decide
  have k2 : ∀ d ∈ markupChars, d ∉ "&#x27;".data := by decide
  have k3 : ∀ d ∈ markupChars, d ∉ "&quot;".data := by decide
  have k4 : ∀ d ∈ markupChars, d ∉ "&gt;".data := by decide
  have k5 : ∀ d ∈ markupChars, d ∉ "&lt;".data := by decide
  rcases mem_replaceAllChars hmem with h | ⟨h, n1⟩
  · exact k1 c hc h
  rcases mem_replaceAllChars h with h | ⟨h, n2⟩
  · exact k2 c hc h
  rcases mem_replaceAllChars h with h | ⟨h, n3⟩
  · exact k3 c hc h
  rcases mem_replaceAllChars h with h | ⟨h, n4⟩
  · exact k4 c hc h
  rcases mem_replaceAllChars h with h | ⟨_, n5⟩
  · exact k5 c hc h
  simp only [markupChars, List.mem_cons, List.mem_singleton, List.not_mem_nil,
    or_false] at hc
  rcases hc with e | e | e | e | e
  · exact n5 e
  · exact n4 e
  · exact n3 e
  · exact n2 e
  · exact n1 e

/-- C24. The helper `sanitizeInput` is idempotent: applied to its own result
it returns that result, for every string (and every other value). -/
theorem sanitizeInput_idempotent (v : JsValue) :
    sanitizeInput (sanitizeInput v) = sanitizeInput v := by
  cases v with
  | string s =>
    have h := sanitized_clean s
    have m1 := h '<' (by decide)
    have m2 := h '>' (by decide)
    have m3 := h quoteChar (by decide)
    have m4 := h aposChar (by decide)
    have m5 := h '/' (by decide)
    show JsValue.string _ = JsValue.string _
    rw [replaceAll_of_not_mem m1, replaceAll_of_not_mem m2, replaceAll_of_not_mem m3,
      replaceAll_of_not_mem m4, replaceAll_of_not_mem m5]
  | number n => rfl
  | boolean b => rfl
  | null => rfl
  | undefined => rfl

theorem chain_head (x : Char) :
    replaceAllChars '/' "&#x2F;".data (replaceAllChars aposChar "&#x27;".data
      (replaceAllChars quoteChar "&quot;".data (replaceAllChars '>' "&gt;".data
        (if x = '<' then "&lt;".data else [x])))) = escapeChar x := by
  unfold escapeChar
  by_cases h1 : x = '<'
  · rw [if_pos h1, if_pos h1, replaceAllChars_of_not_mem (by decide),
      replaceAllChars_of_not_mem (by decide), replaceAllChars_of_not_mem (by decide),
      replaceAllChars_of_not_mem (by decide)]
  rw [if_neg h1, if_neg h1, replaceAllChars_singleton]
  by_cases h2 : x = '>'
  · rw [if_pos h2, if_pos h2, replaceAllChars_of_not_mem (by decide),
      replaceAllChars_of_not_mem (by decide), replaceAllChars_of_not_mem (by decide)]
  rw [if_neg h2, if_neg h2, replaceAllChars_singleton]
  by_cases h3 : x = quoteChar
  · rw [if_pos h3, if_pos h3, replaceAllChars_of_not_mem (by decide),
      replaceAllChars_of_not_mem (by decide)]
  rw [if_neg h3, if_neg h3, replaceAllChars_singleton]
  by_cases h4 : x = aposChar
  · rw [if_pos h4, if_pos h4, replaceAllChars_of_not_mem (by decide)]
  rw [if_neg h4, if_neg h4, replaceAllChars_singleton]

theorem chain_eq_escapeChars (l : List Char) :
    replaceAllChars '/' "&#x2F;".data (replaceAllChars aposChar "&#x27;".data
      (replaceAllChars quoteChar "&quot;".data (replaceAllChars '>' "&gt;".data
        (replaceAllChars '<' "&lt;".data l)))) = escapeChars l := by
  induction l with
  | nil => rfl
  | cons x xs ih =>
    show replaceAllChars '/' "&#x2F;".data (replaceAllChars aposChar "&#x27;".data
      (replaceAllChars quoteChar "&quot;".data (replaceAllChars '>' "&gt;".data
        ((if x = '<' then "&lt;".data else [x]) ++ replaceAllChars '<' "&lt;".data xs)))) =
      escapeChar x ++ escapeChars xs
    rw [replaceAllChars_append, replaceAllChars_append, replaceAllChars_append,
      replaceAllChars_append, ih, chain_head]

/-- C25. For every string, the five successive global replacements of
`sanitizeInput` give the concatenation, over the characters of the string, of
the text the character-wise table gives for each (`<` to `&lt;`, `>` to `&gt;`,
the double quote to `&quot;`, the apostrophe to `&#x27;`, `/` to `&#x2F;`, any
other character to itself). -/
theorem sanitizeInput_charwise (s : String) :
    sanitizeInput (.string s) = .string (sanitizeCharwise s) := by
  show JsValue.string _ = JsValue.string _
  have h := chain_eq_escapeChars s.data
  unfold sanitizeCharwise
  rw [← h]
  rfl

/-! ## More on the error middleware -/

/-- The inputs on which `errorHandler` raises. It completes and sends one
response, with the one status 400 or 500, for every error object but these: an
error named `ValidationError` whose `errors` is missing or has a `null` or
`undefined` entry, and an error named neither `ValidationError` nor
`CastError` whose code is 11000 and that carries no `keyValue`. On these it
raises and sends no response. -/
theorem errorHandler_responds_iff (env : Option String) (err : ErrorObj) :
    ((∃ r, errorHandler env err = some r ∧ (r.status = 400 ∨ r.status = 500)) ↔
        ¬ (err.name = some "ValidationError" ∧ errorMessages err.errors = none) ∧
        ¬ (err.name ≠ some "ValidationError" ∧ err.name ≠ some "CastError" ∧
            err.code = some 11000 ∧ err.keyValue = none)) ∧
      (errorHandler env err = none ↔
        (err.name = some "ValidationError" ∧
          (err.errors = none ∨ ∃ es, err.errors = some es ∧ ∃ e ∈ es, e.2 = none)) ∨
        (err.name ≠ some "ValidationError" ∧ err.name ≠ some "CastError" ∧
            err.code = some 11000 ∧ err.keyValue = none)) := by
  rw [← errorMessages_eq_none]
  unfold errorHandler
  by_cases h1 : err.name = some "ValidationError"
  · cases he : errorMessages err.errors <;> simp [h1, he]
  · by_cases h2 : err.name = some "CastError"
    · simp [h1, h2]
    · by_cases hc : err.code = some 11000
      · cases hk : err.keyValue <;> simp [h1, h2, hc, hk]
      · simp [h1, h2, hc]

/-- C26, the code at the failing input. Outside development, on the error
object `{name: 'ValidationError', message: 'bad'}`, which carries no
`errors`, `errorHandler` raises: it does not complete, no response is sent and
no status 400 or 500 is set. The same holds of an error object that carries
only the code 11000. -/
theorem errorHandler_not_total :
    errorHandler (some "production")
        ⟨some "ValidationError", none, none, none, some "bad"⟩ = none ∧
      (¬ ∃ r, errorHandler (some "production")
          ⟨some "ValidationError", none, none, none, some "bad"⟩ = some r ∧
        (r.status = 400 ∨ r.status = 500)) ∧
      errorHandler (some "production") ⟨none, some 11000, none, none, none⟩ = none := by
  refine ⟨by decide, ?_, by decide⟩
  rintro ⟨r, hr, _⟩
  have h : errorHandler (some "production")
      ⟨some "ValidationError", none, none, none, some "bad"⟩ = none := by decide
  rw [h] at hr
  cases hr

/-- C27. For any two error objects that reach the default branch of
`errorHandler` (name neither `ValidationError` nor `CastError`, code not
11000): when `NODE_ENV` is not `development` the two responses are the same
response, status 500 with error `Internal Server Error` and message
`Something went wrong`, whatever the messages of the errors; when `NODE_ENV`
is `development` the message of the response is the message of the error. -/
theorem errorHandler_no_leak (env : Option String) (e1 e2 : ErrorObj)
    (h1 : e1.name ≠ some "ValidationError" ∧ e1.name ≠ some "CastError" ∧
      e1.code ≠ some 11000)
    (h2 : e2.name ≠ some "ValidationError" ∧ e2.name ≠ some "CastError" ∧
      e2.code ≠ some 11000) :
    (env ≠ some "development" →
        errorHandler env e1 = errorHandler env e2 ∧
        errorHandler env e1 =
          some ⟨500, ⟨"Internal Server Error", none, some "Something went wrong"⟩⟩) ∧
      (env = some "development" →
        errorHandler env e1 = some ⟨500, ⟨"Internal Server Error", none, e1.message⟩⟩ ∧
        errorHandler env e2 = some ⟨500, ⟨"Internal Server Error", none, e2.message⟩⟩) := by
  obtain ⟨a1, a2, a3⟩ := h1
  obtain ⟨b1, b2, b3⟩ := h2
  constructor
  · intro henv
    simp [errorHandler, a1, a2, a3, b1, b2, b3, henv]
  · intro henv
    simp [errorHandler, a1, a2, a3, b1, b2, b3, henv]

/-- C27, witness: two errors with different messages, in production and in
development. -/
theorem errorHandler_no_leak_witness :
    (errorHandler (some "production") ⟨some "Error", none, none, none, some "secret one"⟩ =
        errorHandler (some "production")
          ⟨some "TypeError", some 42, none, none, some "secret two"⟩) ∧
      errorHandler (some "development") ⟨some "Error", none, none, none, some "secret one"⟩ =
        some ⟨500, ⟨"Internal Server Error", none, some "secret one"⟩⟩ :=
  ⟨((errorHandler_no_leak (some "production")
      ⟨some "Error", none, none, none, some "secret one"⟩
      ⟨some "TypeError", some 42, none, none, some "secret two"⟩
      (by decide) (by decide)).1 (by decide)).1,
    ((errorHandler_no_leak (some "development")
      ⟨some "Error", none, none, none, some "secret one"⟩
      ⟨some "TypeError", some 42, none, none, some "secret two"⟩
      (by decide) (by decide)).2 rfl).1⟩

/-! ## The demo script -/

theorem not_contains_iff (names : List String) (n : String) :
    (!(names.contains n)) = true ↔ n ∉ names := by
  simp

/-- C28, as amended. In every store that satisfies both sides of the
invariant and in which the demo data keeps to itself (every Product of a Farm
with a demo farm name has a demo product name, and every Farm that lists a
Product with a demo product name has a demo farm name), both sides of the
invariant hold after `clearDemoData`. -/
theorem clearDemoData_preserves (s : Store) (hfs : FarmSide s) (hps : ProductSide s)
    (hc : DemoClosed s) :
    FarmSide (clearDemoData s) ∧ ProductSide (clearDemoData s) := by
  constructor
  · intro F hF pid hx
    obtain ⟨hFm, hFk⟩ := List.mem_filter.1 hF
    obtain ⟨P, hP, e⟩ := Option.map_eq_some'.1 (hfs F hFm pid hx)
    have hkeep : (!(demoProductNames.contains P.name)) = true := by
      rw [not_contains_iff]
      intro hbad
      exact (not_contains_iff _ _).1 hFk (hc.2 F hFm pid hx P hP hbad)
    have : (clearDemoData s).findProduct pid = some P := find_filter_of_pos _ _ hP hkeep
    rw [this]
    simp [e]
  · intro P hP fid hfid
    obtain ⟨hPm, hPk⟩ := List.mem_filter.1 hP
    obtain ⟨F, hF, e⟩ := Option.map_eq_some'.1 (hps P hPm fid hfid)
    have hkeep : (!(demoFarmNames.contains F.name)) = true := by
      rw [not_contains_iff]
      intro hbad
      exact (not_contains_iff _ _).1 hPk (hc.1 P hPm fid hfid F hF hbad)
    have : (clearDemoData s).findFarm fid = some F := find_filter_of_pos _ _ hF hkeep
    rw [this]
    simpa using e

/-- C28, witness: the demo store, whose demo farms own demo products only. -/
theorem clearDemoData_preserves_witness :
    FarmSide demoStore ∧ ProductSide demoStore ∧ DemoClosed demoStore ∧
      FarmSide (clearDemoData demoStore) ∧ ProductSide (clearDemoData demoStore) :=
  ⟨by decide, by decide, by decide,
    clearDemoData_preserves demoStore (by decide) (by decide) (by decide)⟩

/-- C28, counterexample. The store satisfies both sides of the invariant. Its
farm 1 has a demo farm name and owns the product `Kale`; its farm 3, with no
demo name, owns the product `Butter`, a demo product name. After
`clearDemoData` farm 3 lists the deleted `Butter` and `Kale` references the
deleted farm 1: both sides fail. -/
theorem clearDemoData_breaks_invariant :
    mixedStore.WF ∧ FarmSide mixedStore ∧ ProductSide mixedStore ∧
      ¬ FarmSide (clearDemoData mixedStore) ∧ ¬ ProductSide (clearDemoData mixedStore) := by
  decide

end FarmFreshMarket
